import Mathlib

/-!
# vk_mini_path_tracer: the shading functions and the host programs

A shallow embedding of the GLSL helper functions shared by the ray tracing
chapters (`shaderCommon.h`, `closestHitCommon.h`): the random number
generator, the intersection resolver, the self-intersection offset and the
material functions; and of the host programs of the chapters
`e8_debug_names` and `e10_materials` (`main.cpp`), as traces of their calls.

GLSL `uint` values are natural numbers reduced modulo `2^32` after every
operation, GLSL `int` values are integers wrapped into `[-2^31, 2^31)`.
The shader code is written once, over an arbitrary scalar type `α` standing
for GLSL `float`; it is read at `α = ℝ` (exact real arithmetic) and at
`α = F32` (IEEE-754 binary32 bit patterns, arithmetic rounded to nearest
with ties to even, subnormal numbers kept).
-/

/-! ## Machine integers -/

/-- GLSL `uint` arithmetic keeps the low 32 bits of the exact result. -/
def u32 (n : Nat) : Nat := n % 4294967296

/-- GLSL `int` arithmetic keeps the low 32 bits of the exact result, read as a
two's complement number in `[-2^31, 2^31)`. -/
def i32 (i : Int) : Int := (i + 2147483648) % 4294967296 - 2147483648

/-! ## Scalar built-ins -/

/-- Built-in GLSL functions on `float` used by the shaders. -/
class GLSLBuiltins (α : Type) where
  /-- GLSL `sqrt`. -/
  sqrt : α → α
  /-- GLSL `sin`. -/
  sin : α → α
  /-- GLSL `cos`. -/
  cos : α → α
  /-- GLSL `floor`. -/
  floor : α → α

/-- Conversions between GLSL `float` and the integer types. -/
class GLSLConversions (α : Type) where
  /-- GLSL `floatBitsToInt`: the encoding of a float, as a signed integer. -/
  floatBitsToInt : α → Int
  /-- GLSL `intBitsToFloat`: the float encoded by a signed integer. -/
  intBitsToFloat : Int → α
  /-- GLSL constructor `int(x)`: conversion by truncation toward zero. -/
  toInt : α → Int
  /-- GLSL constructor `float(u)` of an unsigned integer. -/
  ofUInt : Nat → α

/-! ## IEEE-754 binary32, by bit pattern -/

/-- Number of binary digits of `n`, with explicit fuel. -/
def bitLenAux : Nat → Nat → Nat
  | 0, _ => 0
  | fuel + 1, n => if n = 0 then 0 else bitLenAux fuel (n / 2) + 1

/-- Number of binary digits of `n` (`0` for `n = 0`). -/
def bitLen (n : Nat) : Nat := bitLenAux n n

/-- Value, in units of `2^-149`, of the non-negative binary32 pattern `m`:
`m % 2^23` for a subnormal (exponent field `0`), and
`(2^23 + m % 2^23) * 2^(e - 1)` for exponent field `e >= 1`. -/
def magValue (m : Nat) : Nat :=
  if m / 8388608 = 0 then m % 8388608
  else (8388608 + m % 8388608) * 2 ^ (m / 8388608 - 1)

/-- Nearest integer to `n / 2^shift`, ties to the even one. -/
def roundShift (n shift : Nat) : Nat :=
  let q := n / 2 ^ shift
  let r := n % 2 ^ shift
  if 2 * r < 2 ^ shift then q
  else if 2 ^ shift < 2 * r then q + 1
  else if q % 2 = 0 then q else q + 1

/-- Pattern of the binary32 magnitude nearest to `n * 2^-(149 + s)` (ties to
even), before the overflow check. -/
def roundMagRaw (n s : Nat) : Nat :=
  let shift := if bitLen n ≤ 24 + s then s else bitLen n - 24
  (shift - s) * 8388608 + roundShift n shift

/-- Pattern of the binary32 magnitude nearest to `n * 2^-(149 + s)`; values
too large to represent round to infinity, `0x7F800000`. -/
def roundMag (n s : Nat) : Nat :=
  if 2139095040 ≤ roundMagRaw n s then 2139095040 else roundMagRaw n s

/-- The quotient `a / b` in quarter units, cut with a sticky bit:
`2 * floor(2a / b)`, plus one when the division leaves a remainder. -/
def ratioQuarters (a b : Nat) : Nat := 2 * (2 * a / b) + (if 2 * a % b = 0 then 0 else 1)

/-- An IEEE-754 binary32 value, held as its 32-bit pattern. -/
structure F32 where
  /-- The encoding: sign in bit 31, exponent in bits 23-30, fraction below. -/
  bits : Nat
deriving DecidableEq, Repr

namespace F32

/-- The sign bit. -/
def sign (x : F32) : Nat := x.bits / 2147483648 % 2

/-- The pattern without its sign bit. -/
def mag (x : F32) : Nat := x.bits % 2147483648

/-- Not-a-number: exponent field all ones, fraction non-zero. -/
def isNaN (x : F32) : Bool := decide (2139095040 < x.mag)

/-- Plus or minus infinity. -/
def isInf (x : F32) : Bool := decide (x.mag = 2139095040)

/-- Zero, subnormal or normal. -/
def isFinite (x : F32) : Bool := decide (x.mag < 2139095040)

/-- Magnitude in units of `2^-149`. -/
def scaledAbs (x : F32) : Nat := magValue x.mag

/-- Value in units of `2^-149` (meaningful for finite patterns). -/
def scaled (x : F32) : Int := if x.sign = 1 then -(x.scaledAbs : Int) else (x.scaledAbs : Int)

/-- The rational number a finite pattern stands for. -/
def toRat (x : F32) : ℚ := (x.scaled : ℚ) / 2 ^ 149

/-- The quiet NaN produced by invalid operations. -/
def nan : F32 := ⟨2143289344⟩

/-- Infinity of the given sign. -/
def inf (neg : Bool) : F32 := ⟨(if neg then 2147483648 else 0) + 2139095040⟩

/-- Zero of the given sign. -/
def zero (neg : Bool) : F32 := ⟨if neg then 2147483648 else 0⟩

/-- The binary32 nearest to `± (a / b) * 2^-149`, ties to even. The quotient
is cut to quarter units with a sticky bit: binary32 values are whole units
and midpoints of neighbours are half units, so none lies strictly between
two consecutive half units. -/
def ofRatio (neg : Bool) (a b : Nat) : F32 :=
  ⟨(if neg then 2147483648 else 0) + roundMag (ratioQuarters a b) 2⟩

/-- IEEE-754 addition, round to nearest even. -/
def add (x y : F32) : F32 :=
  if x.isNaN || y.isNaN then nan
  else if x.isInf then (if y.isInf && decide (x.sign ≠ y.sign) then nan else x)
  else if y.isInf then y
  else
    let s := x.scaled + y.scaled
    if s = 0 then zero (decide (x.sign = 1 ∧ y.sign = 1))
    else ofRatio (decide (s < 0)) s.natAbs 1

/-- IEEE-754 negation: flips the sign bit. -/
def neg (x : F32) : F32 :=
  ⟨if x.sign = 1 then x.bits % 4294967296 - 2147483648 else x.bits % 4294967296 + 2147483648⟩

/-- IEEE-754 multiplication, round to nearest even. -/
def mul (x y : F32) : F32 :=
  if x.isNaN || y.isNaN then nan
  else if x.isInf || y.isInf then
    (if x.mag = 0 ∨ y.mag = 0 then nan else inf (decide (x.sign ≠ y.sign)))
  else ofRatio (decide (x.sign ≠ y.sign)) (x.scaledAbs * y.scaledAbs) (2 ^ 149)

/-- IEEE-754 division, round to nearest even. -/
def div (x y : F32) : F32 :=
  if x.isNaN || y.isNaN then nan
  else if x.isInf then (if y.isInf then nan else inf (decide (x.sign ≠ y.sign)))
  else if y.isInf then zero (decide (x.sign ≠ y.sign))
  else if y.mag = 0 then (if x.mag = 0 then nan else inf (decide (x.sign ≠ y.sign)))
  else ofRatio (decide (x.sign ≠ y.sign)) (x.scaledAbs * 2 ^ 149) y.scaledAbs

/-- IEEE-754 `<`: false when an operand is NaN. -/
def lt (x y : F32) : Prop := x.isNaN = false ∧ y.isNaN = false ∧ x.scaled < y.scaled

/-- IEEE-754 `<=`: false when an operand is NaN. -/
def le (x y : F32) : Prop := x.isNaN = false ∧ y.isNaN = false ∧ x.scaled ≤ y.scaled

/-! The arithmetic and the comparisons of GLSL `float`, on bit patterns. -/

instance : Add F32 := ⟨add⟩
instance : Neg F32 := ⟨neg⟩
instance : Sub F32 := ⟨fun x y => add x (neg y)⟩
instance : Mul F32 := ⟨mul⟩
instance : Div F32 := ⟨div⟩
instance : LT F32 := ⟨lt⟩
instance : LE F32 := ⟨le⟩
instance (x y : F32) : Decidable (x < y) :=
  inferInstanceAs (Decidable (x.isNaN = false ∧ y.isNaN = false ∧ x.scaled < y.scaled))
instance (x y : F32) : Decidable (x ≤ y) :=
  inferInstanceAs (Decidable (x.isNaN = false ∧ y.isNaN = false ∧ x.scaled ≤ y.scaled))

/-- Decimal literals round to the nearest binary32. -/
instance : OfScientific F32 where
  ofScientific m s e :=
    if s then ofRatio false (m * 2 ^ 149) (10 ^ e) else ofRatio false (m * 10 ^ e * 2 ^ 149) 1

/-- The whole part of the value of a finite pattern, cut toward zero. -/
def trunc (x : F32) : Int :=
  if x.sign = 1 then -((x.scaledAbs / 2 ^ 149 : Nat) : Int) else ((x.scaledAbs / 2 ^ 149 : Nat) : Int)

/-- Conversions on bit patterns. GLSL leaves `int(x)` undefined for NaN,
infinities and values outside the `int` range: here NaN and infinities give
0 and other values wrap. -/
instance : GLSLConversions F32 where
  floatBitsToInt x := i32 (x.bits : Int)
  intBitsToFloat i := ⟨(i % 4294967296).toNat⟩
  toInt x := if x.isFinite then i32 x.trunc else 0
  ofUInt u := ofRatio false (u * 2 ^ 149) 1

end F32

/-! ## GLSL vectors, matrices and geometric built-ins -/

/-- GLSL `vec2`. -/
structure Vec2 (α : Type) where
  x : α
  y : α

/-- GLSL `vec3`. -/
@[ext]
structure Vec3 (α : Type) where
  x : α
  y : α
  z : α
deriving DecidableEq

/-- GLSL `vec4`. -/
structure Vec4 (α : Type) where
  x : α
  y : α
  z : α
  w : α

/-- GLSL swizzle `.xyz`. -/
def Vec4.xyz {α : Type} (v : Vec4 α) : Vec3 α := ⟨v.x, v.y, v.z⟩

/-- GLSL `ivec3`. -/
structure IVec3 where
  x : Int
  y : Int
  z : Int

/-- GLSL `mat4x3`: four columns of three rows each. -/
structure Mat4x3 (α : Type) where
  c0 : Vec3 α
  c1 : Vec3 α
  c2 : Vec3 α
  c3 : Vec3 α

namespace GLSL

variable {α : Type}

instance [Add α] : Add (Vec3 α) := ⟨fun a b => ⟨a.x + b.x, a.y + b.y, a.z + b.z⟩⟩
instance [Sub α] : Sub (Vec3 α) := ⟨fun a b => ⟨a.x - b.x, a.y - b.y, a.z - b.z⟩⟩
instance [Neg α] : Neg (Vec3 α) := ⟨fun a => ⟨-a.x, -a.y, -a.z⟩⟩
instance [Mul α] : HMul α (Vec3 α) (Vec3 α) := ⟨fun k a => ⟨k * a.x, k * a.y, k * a.z⟩⟩
instance [Mul α] : HMul (Vec3 α) α (Vec3 α) := ⟨fun a k => ⟨a.x * k, a.y * k, a.z * k⟩⟩
instance [Div α] : HDiv (Vec3 α) α (Vec3 α) := ⟨fun a k => ⟨a.x / k, a.y / k, a.z / k⟩⟩

/-- GLSL constructor `vec3(k)`: all components equal. -/
def vec3 (k : α) : Vec3 α := ⟨k, k, k⟩

/-- GLSL constructor `vec4(v, w)`. -/
def vec4 (v : Vec3 α) (w : α) : Vec4 α := ⟨v.x, v.y, v.z, w⟩

/-- GLSL `dot`. -/
def dot [Add α] [Mul α] (a b : Vec3 α) : α := a.x * b.x + a.y * b.y + a.z * b.z

/-- GLSL `cross`. -/
def cross [Sub α] [Mul α] (a b : Vec3 α) : Vec3 α :=
  ⟨a.y * b.z - b.y * a.z, a.z * b.x - b.z * a.x, a.x * b.y - b.x * a.y⟩

/-- GLSL `length`: `sqrt(dot(v, v))`. -/
def length [Add α] [Mul α] [GLSLBuiltins α] (v : Vec3 α) : α := GLSLBuiltins.sqrt (dot v v)

/-- GLSL `normalize`: `v / length(v)`. The result is undefined in GLSL when
the length is zero; here it is whatever the division of `α` gives. -/
def normalize [Add α] [Mul α] [Div α] [GLSLBuiltins α] (v : Vec3 α) : Vec3 α := v / length v

/-- GLSL `faceforward(N, I, Nref)`: `N` if `dot(Nref, I) < 0`, else `-N`. -/
def faceforward [Add α] [Mul α] [Neg α] [LT α] [OfScientific α]
    [DecidableRel (fun a b : α => a < b)] (N I Nref : Vec3 α) : Vec3 α :=
  if dot Nref I < 0.0 then N else -N

/-- GLSL `reflect(I, N)`: `I - 2.0 * dot(N, I) * N`. -/
def reflect [Add α] [Sub α] [Mul α] [OfScientific α] (I N : Vec3 α) : Vec3 α :=
  I - (2.0 * dot N I) * N

/-- GLSL `abs`: `x` if `x >= 0`, otherwise `-x`. -/
def abs [Neg α] [LE α] [OfScientific α] [DecidableRel (fun a b : α => a ≤ b)] (x : α) : α :=
  if (0.0 : α) ≤ x then x else -x

/-- GLSL constructor `ivec3(v)`: component-wise conversion to `int`. -/
def ivec3 [GLSLConversions α] (v : Vec3 α) : IVec3 :=
  ⟨GLSLConversions.toInt v.x, GLSLConversions.toInt v.y, GLSLConversions.toInt v.z⟩

/-- GLSL `mat4x3 * vec4`: the linear combination of the columns. -/
instance [Add α] [Mul α] : HMul (Mat4x3 α) (Vec4 α) (Vec3 α) :=
  ⟨fun m v => m.c0 * v.x + m.c1 * v.y + m.c2 * v.z + m.c3 * v.w⟩

/-- GLSL `vec3 * mat4x3`: the row vector times the matrix, one dot product
per column. -/
instance [Add α] [Mul α] : HMul (Vec3 α) (Mat4x3 α) (Vec4 α) :=
  ⟨fun v m => ⟨dot v m.c0, dot v m.c1, dot v m.c2, dot v m.c3⟩⟩

end GLSL

open GLSL

/-- The committed intersection of a ray query, as the `rayQueryGet...EXT`
accessors report it. The primitive index is a GLSL `int` that is never
negative. -/
structure RayQuery (α : Type) where
  /-- Accessor `rayQueryGetIntersectionPrimitiveIndexEXT(rayQuery, true)`. -/
  intersectionPrimitiveIndex : Nat
  /-- Accessor `rayQueryGetIntersectionBarycentricsEXT(rayQuery, true)`. -/
  intersectionBarycentrics : Vec2 α
  /-- Accessor `rayQueryGetIntersectionObjectToWorldEXT(rayQuery, true)`. -/
  intersectionObjectToWorld : Mat4x3 α
  /-- Accessor `rayQueryGetIntersectionWorldToObjectEXT(rayQuery, true)`. -/
  intersectionWorldToObject : Mat4x3 α
  /-- Accessor `rayQueryGetWorldRayDirectionEXT(rayQuery)`. -/
  worldRayDirection : Vec3 α

namespace RtPipeline1

/-! ## `e11_rt_pipeline_1/shaders/shaderCommon.h` -/

variable {α : Type} [Add α] [Sub α] [Mul α] [Div α] [Neg α] [LT α] [LE α] [OfScientific α]
  [DecidableRel (fun a b : α => a < b)] [DecidableRel (fun a b : α => a ≤ b)]
  [GLSLBuiltins α] [GLSLConversions α]

/-- Result of the intersection resolver. -/
structure HitInfo (α : Type) where
  /-- The intersection position in object-space. -/
  objectPosition : Vec3 α
  /-- The intersection position in world-space. -/
  worldPosition : Vec3 α
  /-- The double-sided triangle normal in world-space. -/
  worldNormal : Vec3 α

/-- The barycentric weights of `getObjectHitInfo` (its lines 36-37): the two
coordinates of the hit fill `y` and `z`, and `x` is computed from them. -/
def hitBarycentrics (attribs : Vec2 α) : Vec3 α :=
  let barycentrics : Vec3 α := ⟨0.0, attribs.x, attribs.y⟩
  { barycentrics with x := 1.0 - barycentrics.y - barycentrics.z }

/-- Function `getObjectHitInfo` of `shaderCommon.h`. The buffers `indices` and
`vertices` are globals of the shader; a fetch outside a buffer gives `none`. -/
def getObjectHitInfo (indices : List Nat) (vertices : List (Vec3 α)) (rayQuery : RayQuery α) :
    Option (HitInfo α) := do
  -- Get the ID of the triangle
  let primitiveID := rayQuery.intersectionPrimitiveIndex
  -- Get the indices of the vertices of the triangle
  let i0 ← indices[3 * primitiveID + 0]?
  let i1 ← indices[3 * primitiveID + 1]?
  let i2 ← indices[3 * primitiveID + 2]?
  -- Get the vertices of the triangle
  let v0 ← vertices[i0]?
  let v1 ← vertices[i1]?
  let v2 ← vertices[i2]?
  -- Get the barycentric coordinates of the intersection
  let barycentrics := hitBarycentrics rayQuery.intersectionBarycentrics
  -- Compute the coordinates of the intersection
  let objectPosition := v0 * barycentrics.x + v1 * barycentrics.y + v2 * barycentrics.z
  -- Transform from object space to world space
  let objectToWorld := rayQuery.intersectionObjectToWorld
  let worldPosition := objectToWorld * vec4 objectPosition 1.0
  -- Compute the normal of the triangle in object space, using the right-hand rule
  let objectNormal := cross (v1 - v0) (v2 - v0)
  -- Transform normals from object space to world space
  let objectToWorldInverse := rayQuery.intersectionWorldToObject
  let worldNormal := normalize (objectNormal * objectToWorldInverse).xyz
  -- Flip the normal so it points against the ray direction
  let rayDirection := rayQuery.worldRayDirection
  let worldNormal := faceforward worldNormal rayDirection worldNormal
  pure ⟨objectPosition, worldPosition, worldNormal⟩

/-- Function `offsetPositionAlongNormal` of `shaderCommon.h`. -/
def offsetPositionAlongNormal (worldPosition normal : Vec3 α) : Vec3 α :=
  -- Convert the normal to an integer offset.
  let int_scale : α := 256.0
  let of_i : IVec3 := ivec3 (int_scale * normal)
  -- Offset each component of worldPosition using its binary representation.
  -- Handle the sign bits correctly.
  let p_i : Vec3 α := ⟨
    GLSLConversions.intBitsToFloat (i32 (GLSLConversions.floatBitsToInt worldPosition.x
      + (if worldPosition.x < 0.0 then i32 (-of_i.x) else of_i.x))),
    GLSLConversions.intBitsToFloat (i32 (GLSLConversions.floatBitsToInt worldPosition.y
      + (if worldPosition.y < 0.0 then i32 (-of_i.y) else of_i.y))),
    GLSLConversions.intBitsToFloat (i32 (GLSLConversions.floatBitsToInt worldPosition.z
      + (if worldPosition.z < 0.0 then i32 (-of_i.z) else of_i.z)))⟩
  -- Use a floating-point offset instead for points near (0,0,0), the origin.
  let origin : α := 1.0 / 32.0
  let floatScale : α := 1.0 / 65536.0
  ⟨if GLSL.abs worldPosition.x < origin then worldPosition.x + floatScale * normal.x else p_i.x,
   if GLSL.abs worldPosition.y < origin then worldPosition.y + floatScale * normal.y else p_i.y,
   if GLSL.abs worldPosition.z < origin then worldPosition.z + floatScale * normal.z else p_i.z⟩

/-- Steps the RNG and returns a floating-point value between 0 and 1
inclusive, together with the new state (the `inout` parameter). -/
def stepAndOutputRNGFloat (α : Type) [Div α] [OfScientific α] [GLSLConversions α]
    (rngState : Nat) : α × Nat :=
  let rngState := u32 (u32 (rngState * 747796405) + 1)
  let word := u32 (((rngState >>> u32 ((rngState >>> 28) + 4)) ^^^ rngState) * 277803737)
  let word := (word >>> 22) ^^^ word
  (GLSLConversions.ofUInt word / 4294967295.0, rngState)

/-- The values returned by a material function to the main path tracing
routine. -/
structure ReturnedInfo (α : Type) where
  /-- The reflectivity of the surface. -/
  color : Vec3 α
  /-- The new ray origin in world-space. -/
  rayOrigin : Vec3 α
  /-- The new ray direction in world-space. -/
  rayDirection : Vec3 α

/-- A mirror-reflective material that absorbs 30% of incoming light. The
second component is the RNG state after the call (the `inout` parameter). -/
def material1 (indices : List Nat) (vertices : List (Vec3 α)) (rayQuery : RayQuery α)
    (rngState : Nat) : Option (ReturnedInfo α × Nat) := do
  let hitInfo ← getObjectHitInfo indices vertices rayQuery
  let color : Vec3 α := vec3 0.7
  let rayOrigin := offsetPositionAlongNormal hitInfo.worldPosition hitInfo.worldNormal
  let rayDirection := reflect rayQuery.worldRayDirection hitInfo.worldNormal
  pure (⟨color, rayOrigin, rayDirection⟩, rngState)

end RtPipeline1

namespace RtPipeline2

/-! ## `checkpoints/e11_rt_pipeline_2/shaders/shaderCommon.h` -/

/-- Steps the RNG and returns a floating-point value between 0 and 1
inclusive, together with the new state (the `inout` parameter). -/
def stepAndOutputRNGFloat (α : Type) [Div α] [OfScientific α] [GLSLConversions α]
    (rngState : Nat) : α × Nat :=
  let rngState := u32 (u32 (rngState * 747796405) + 1)
  let word := u32 (((rngState >>> u32 ((rngState >>> 28) + 4)) ^^^ rngState) * 277803737)
  let word := (word >>> 22) ^^^ word
  (GLSLConversions.ofUInt word / 4294967295.0, rngState)

end RtPipeline2

/-- The built-in inputs of a closest-hit shader invocation. The primitive id
is a GLSL `int` that is never negative. -/
structure ClosestHitInputs (α : Type) where
  /-- Built-in `gl_PrimitiveID`. -/
  gl_PrimitiveID : Nat
  /-- The hit attribute: two of the barycentric coordinates of the hit. -/
  attributes : Vec2 α
  /-- Built-in `gl_ObjectToWorldEXT`. -/
  gl_ObjectToWorldEXT : Mat4x3 α
  /-- Built-in `gl_WorldToObjectEXT`. -/
  gl_WorldToObjectEXT : Mat4x3 α
  /-- Built-in `gl_WorldRayDirectionEXT`. -/
  gl_WorldRayDirectionEXT : Vec3 α

namespace RtPipeline3

/-! ## `e11_rt_pipeline_3/shaders/closestHitCommon.h` -/

variable {α : Type} [Add α] [Sub α] [Mul α] [Div α] [Neg α] [LT α] [LE α] [OfScientific α]
  [DecidableRel (fun a b : α => a < b)] [DecidableRel (fun a b : α => a ≤ b)]
  [GLSLBuiltins α] [GLSLConversions α]

/-- Result of the intersection resolver. The field `color` is declared by the
source and not written by `getObjectHitInfo`. -/
structure HitInfo (α : Type) where
  /-- The intersection position in object-space. -/
  objectPosition : Vec3 α
  /-- The intersection position in world-space. -/
  worldPosition : Vec3 α
  /-- The double-sided triangle normal in world-space. -/
  worldNormal : Vec3 α
  /-- Declared, and left unset by the resolver. -/
  color : Option (Vec3 α)

/-- The barycentric weights of `getObjectHitInfo` (its lines 63-64). -/
def hitBarycentrics (attributes : Vec2 α) : Vec3 α :=
  let barycentrics : Vec3 α := ⟨0.0, attributes.x, attributes.y⟩
  { barycentrics with x := 1.0 - barycentrics.y - barycentrics.z }

/-- Function `getObjectHitInfo` of `closestHitCommon.h`: it reads the GLSL
variables of the closest-hit stage instead of a ray query. -/
def getObjectHitInfo (indices : List Nat) (vertices : List (Vec3 α)) (gl : ClosestHitInputs α) :
    Option (HitInfo α) := do
  -- Get the ID of the triangle
  let primitiveID := gl.gl_PrimitiveID
  -- Get the indices of the vertices of the triangle
  let i0 ← indices[3 * primitiveID + 0]?
  let i1 ← indices[3 * primitiveID + 1]?
  let i2 ← indices[3 * primitiveID + 2]?
  -- Get the vertices of the triangle
  let v0 ← vertices[i0]?
  let v1 ← vertices[i1]?
  let v2 ← vertices[i2]?
  -- Get the barycentric coordinates of the intersection
  let barycentrics := hitBarycentrics gl.attributes
  -- Compute the coordinates of the intersection
  let objectPosition := v0 * barycentrics.x + v1 * barycentrics.y + v2 * barycentrics.z
  -- Transform from object space to world space
  let worldPosition := gl.gl_ObjectToWorldEXT * vec4 objectPosition 1.0
  -- Compute the normal of the triangle in object space, using the right-hand rule
  let objectNormal := cross (v1 - v0) (v2 - v0)
  -- Transform normals from object space to world space
  let worldNormal := normalize (objectNormal * gl.gl_WorldToObjectEXT).xyz
  -- Flip the normal so it points against the ray direction
  let rayDirection := gl.gl_WorldRayDirectionEXT
  let worldNormal := faceforward worldNormal rayDirection worldNormal
  pure ⟨objectPosition, worldPosition, worldNormal, none⟩

/-- Function `offsetPositionAlongNormal` of `closestHitCommon.h`. -/
def offsetPositionAlongNormal (worldPosition normal : Vec3 α) : Vec3 α :=
  -- Convert the normal to an integer offset.
  let int_scale : α := 256.0
  let of_i : IVec3 := ivec3 (int_scale * normal)
  -- Offset each component of worldPosition using its binary representation.
  -- Handle the sign bits correctly.
  let p_i : Vec3 α := ⟨
    GLSLConversions.intBitsToFloat (i32 (GLSLConversions.floatBitsToInt worldPosition.x
      + (if worldPosition.x < 0.0 then i32 (-of_i.x) else of_i.x))),
    GLSLConversions.intBitsToFloat (i32 (GLSLConversions.floatBitsToInt worldPosition.y
      + (if worldPosition.y < 0.0 then i32 (-of_i.y) else of_i.y))),
    GLSLConversions.intBitsToFloat (i32 (GLSLConversions.floatBitsToInt worldPosition.z
      + (if worldPosition.z < 0.0 then i32 (-of_i.z) else of_i.z)))⟩
  -- Use a floating-point offset instead for points near (0,0,0), the origin.
  let origin : α := 1.0 / 32.0
  let floatScale : α := 1.0 / 65536.0
  ⟨if GLSL.abs worldPosition.x < origin then worldPosition.x + floatScale * normal.x else p_i.x,
   if GLSL.abs worldPosition.y < origin then worldPosition.y + floatScale * normal.y else p_i.y,
   if GLSL.abs worldPosition.z < origin then worldPosition.z + floatScale * normal.z else p_i.z⟩

end RtPipeline3

/-! ## One coordinate of the offset -/

section OffsetComponent

variable {α : Type} [Add α] [Mul α] [Div α] [Neg α] [LT α] [LE α] [OfScientific α]
  [DecidableRel (fun a b : α => a < b)] [DecidableRel (fun a b : α => a ≤ b)]
  [GLSLConversions α]

/-- The expression that `offsetPositionAlongNormal` evaluates for each of the
three coordinates, for the coordinate `c` of the position and the coordinate
`m` of the normal. -/
def offsetComponent (c m : α) : α :=
  let of_i : Int := GLSLConversions.toInt ((256.0 : α) * m)
  let p_i : α := GLSLConversions.intBitsToFloat
    (i32 (GLSLConversions.floatBitsToInt c + (if c < 0.0 then i32 (-of_i) else of_i)))
  if GLSL.abs c < (1.0 : α) / 32.0 then c + ((1.0 : α) / 65536.0) * m else p_i

end OffsetComponent

/-! ## Exact real arithmetic -/

namespace F32

/-- The real number a finite pattern stands for. -/
noncomputable def toReal (x : F32) : ℝ := (x.scaled : ℝ) / 2 ^ 149

/-- The binary32 nearest to a real number, ties to even (same cut to quarter
units with a sticky bit as `ofRatio`). -/
noncomputable def ofReal (x : ℝ) : F32 :=
  let h : ℝ := 2 * |x| * 2 ^ 149
  let n := 2 * ⌊h⌋₊ + (if Int.fract h = 0 then 0 else 1)
  ⟨(if x < 0 then 2147483648 else 0) + roundMag n 2⟩

end F32

/-- The built-in functions read over the real numbers. -/
noncomputable instance : GLSLBuiltins ℝ where
  sqrt := Real.sqrt
  sin := Real.sin
  cos := Real.cos
  floor x := (⌊x⌋ : ℝ)

/-- Conversions of the exact reading: a real number is encoded as the nearest
binary32, and converts to `int` by truncation. -/
noncomputable instance : GLSLConversions ℝ where
  floatBitsToInt x := GLSLConversions.floatBitsToInt (F32.ofReal x)
  intBitsToFloat i := F32.toReal (GLSLConversions.intBitsToFloat i)
  toInt x := i32 (if x < 0 then -⌊-x⌋ else ⌊x⌋)
  ofUInt u := (u : ℝ)

/-! ## Reference definitions, from the specification -/

/-- The 32-bit linear step of the specification: `state * 747796405 + 1`. -/
def referenceStep (s : Nat) : Nat := (s * 747796405 + 1) % 2 ^ 32

/-- The output permutation of the specification, applied to a stepped state
`t`: XOR-shift, multiply, XOR-shift. -/
def referenceOutput (t : Nat) : Nat :=
  let w0 := (((t >>> ((t >>> 28) + 4)) ^^^ t) * 277803737) % 2 ^ 32
  (w0 >>> 22) ^^^ w0

/-- The triangle read for primitive `p`, as the specification has it: the
vertex indices are `indices[3*p + k]` for `k = 0, 1, 2` and the vertices are
`vertices[i_k]`. -/
def fetchTriangle {α : Type} (indices : List Nat) (vertices : List (Vec3 α)) (p : Nat) :
    Option (Vec3 α × Vec3 α × Vec3 α) :=
  match indices[3 * p + 0]?, indices[3 * p + 1]?, indices[3 * p + 2]? with
  | some i0, some i1, some i2 =>
    match vertices[i0]?, vertices[i1]?, vertices[i2]? with
    | some v0, some v1, some v2 => some (v0, v1, v2)
    | _, _, _ => none
  | _, _, _ => none

/-- The linear part of a `mat4x3` (its first three columns), as a matrix. -/
def Mat4x3.linear {α : Type} (m : Mat4x3 α) : Matrix (Fin 3) (Fin 3) α :=
  !![m.c0.x, m.c1.x, m.c2.x; m.c0.y, m.c1.y, m.c2.y; m.c0.z, m.c1.z, m.c2.z]

/-- The components of a `vec3`, as a column. -/
def Vec3.toFun {α : Type} (v : Vec3 α) : Fin 3 → α := ![v.x, v.y, v.z]

/-- The `vec3` with the given components. -/
def Vec3.ofFun {α : Type} (f : Fin 3 → α) : Vec3 α := ⟨f 0, f 1, f 2⟩

/-- The affine transform of the specification: the linear part applied to
the point, plus the translation column. -/
def affineApply {α : Type} [Add α] [Mul α] (m : Mat4x3 α) (p : Vec3 α) : Vec3 α :=
  ⟨m.c0.x * p.x + m.c1.x * p.y + m.c2.x * p.z + m.c3.x,
   m.c0.y * p.x + m.c1.y * p.y + m.c2.y * p.z + m.c3.y,
   m.c0.z * p.x + m.c1.z * p.y + m.c2.z * p.z + m.c3.z⟩

/-- The view of closest-hit inputs as a ray query with the same data. -/
def ClosestHitInputs.toRayQuery {α : Type} (gl : ClosestHitInputs α) : RayQuery α :=
  ⟨gl.gl_PrimitiveID, gl.attributes, gl.gl_ObjectToWorldEXT, gl.gl_WorldToObjectEXT,
   gl.gl_WorldRayDirectionEXT⟩

/-! ## A sample scene -/

/-- Index buffer of a scene with a single triangle. -/
def sampleIndices : List Nat := [0, 1, 2]

/-- Vertex buffer of a scene with the triangle `(0,0,0), (1,0,0), (0,1,0)`. -/
def sampleVertices : List (Vec3 ℝ) := [⟨0, 0, 0⟩, ⟨1, 0, 0⟩, ⟨0, 1, 0⟩]

/-- Vertex buffer of a scene whose triangle has collinear vertices. -/
def collinearVertices : List (Vec3 ℝ) := [⟨0, 0, 0⟩, ⟨1, 0, 0⟩, ⟨2, 0, 0⟩]

/-- The identity transform. -/
def identityTransform : Mat4x3 ℝ := ⟨⟨1, 0, 0⟩, ⟨0, 1, 0⟩, ⟨0, 0, 1⟩, ⟨0, 0, 0⟩⟩

/-- A hit of primitive 0 at barycentrics `(1/4, 1/4)` by a ray going down the
`z` axis, in an instance placed by the identity transform. -/
noncomputable def sampleRayQuery : RayQuery ℝ :=
  ⟨0, ⟨1 / 4, 1 / 4⟩, identityTransform, identityTransform, ⟨0, 0, -1⟩⟩

/-- The same hit, as the inputs of a closest-hit shader. -/
noncomputable def sampleClosestHit : ClosestHitInputs ℝ :=
  ⟨0, ⟨1 / 4, 1 / 4⟩, identityTransform, identityTransform, ⟨0, 0, -1⟩⟩

/-- An object-to-world transform: scaling by `(2, 4, 1)`, then translation by
`(1, 2, 3)`. -/
def stretchTransform : Mat4x3 ℝ := ⟨⟨2, 0, 0⟩, ⟨0, 4, 0⟩, ⟨0, 0, 1⟩, ⟨1, 2, 3⟩⟩

/-- The inverse of `stretchTransform`. -/
noncomputable def stretchInverse : Mat4x3 ℝ :=
  ⟨⟨1 / 2, 0, 0⟩, ⟨0, 1 / 4, 0⟩, ⟨0, 0, 1⟩, ⟨-(1 / 2), -(1 / 2), -3⟩⟩

/-- A hit of primitive 0 at barycentrics `(1/4, 1/4)` by a ray going down the
`z` axis, in an instance placed by `stretchTransform`. -/
noncomputable def stretchedRayQuery : RayQuery ℝ :=
  ⟨0, ⟨1 / 4, 1 / 4⟩, stretchTransform, stretchInverse, ⟨0, 0, -1⟩⟩

/-- The same hit, as the inputs of a closest-hit shader. -/
noncomputable def stretchedClosestHit : ClosestHitInputs ℝ :=
  ⟨0, ⟨1 / 4, 1 / 4⟩, stretchTransform, stretchInverse, ⟨0, 0, -1⟩⟩

/-- The object-space position of the specification: barycentric
interpolation with `barycentric.x = 1 - b.y - b.z`, where `b` holds the two
coordinates of the hit. -/
def referenceObjectPosition {α : Type} [Add α] [Sub α] [Mul α] [One α]
    (v0 v1 v2 : Vec3 α) (b : Vec2 α) : Vec3 α :=
  v0 * (1 - b.x - b.y) + v1 * b.x + v2 * b.y

/-- The positions of the specification for primitive `p`: the triangle is
fetched through `3*p + {0,1,2}`, the object-space position is interpolated
and the world-space position is its image under the object-to-world affine
transform. -/
def referencePositions {α : Type} [Add α] [Sub α] [Mul α] [One α]
    (indices : List Nat) (vertices : List (Vec3 α)) (p : Nat) (b : Vec2 α)
    (objectToWorld : Mat4x3 α) : Option (Vec3 α × Vec3 α) :=
  (fetchTriangle indices vertices p).map fun t =>
    (referenceObjectPosition t.1 t.2.1 t.2.2 b,
     affineApply objectToWorld (referenceObjectPosition t.1 t.2.1 t.2.2 b))

/-- The hybrid offset of the specification for one coordinate: `r` is the
offset of the position coordinate `c` along the normal coordinate `m`. With
`of_i = trunc(256 * m)` as a signed integer, `r` is `c + m / 65536` when
`abs(c) < 1/32`; otherwise it is the float whose pattern is
`floatBitsToInt(c) + of_i` when `c >= 0` and `floatBitsToInt(c) - of_i` when
`c < 0`. -/
def ReferenceOffset (c m r : F32) : Prop :=
  (GLSL.abs c < 0.03125 → r = c + m / 65536.0)
  ∧ (¬ GLSL.abs c < 0.03125 → 0.0 ≤ c →
      r = GLSLConversions.intBitsToFloat
        (i32 (GLSLConversions.floatBitsToInt c + GLSLConversions.toInt ((256.0 : F32) * m))))
  ∧ (¬ GLSL.abs c < 0.03125 → c < 0.0 →
      r = GLSLConversions.intBitsToFloat
        (i32 (GLSLConversions.floatBitsToInt c - GLSLConversions.toInt ((256.0 : F32) * m))))

/-- The exact values of the coordinates of a binary32 vector. -/
def F32.vecToRat (v : Vec3 F32) : Vec3 ℚ := ⟨v.x.toRat, v.y.toRat, v.z.toRat⟩

/-- All three coordinates are finite numbers. -/
def F32.vecFinite (v : Vec3 F32) : Prop :=
  v.x.isFinite = true ∧ v.y.isFinite = true ∧ v.z.isFinite = true

/-- The direction property of the specification for a position `p` and a
normal `n`: the offsets along `n` and along `-n` are points (finite in every
coordinate) on opposite sides of `p` along `n`, and each differs from `p` in
some coordinate. Dot products are taken over the exact values. -/
def OffsetsOnOppositeSides (p n : Vec3 F32) : Prop :=
  F32.vecFinite (RtPipeline1.offsetPositionAlongNormal p n)
  ∧ F32.vecFinite (RtPipeline1.offsetPositionAlongNormal p (-n))
  ∧ 0 < dot (F32.vecToRat (RtPipeline1.offsetPositionAlongNormal p n) - F32.vecToRat p)
        (F32.vecToRat n)
  ∧ dot (F32.vecToRat (RtPipeline1.offsetPositionAlongNormal p (-n)) - F32.vecToRat p)
        (F32.vecToRat n) < 0
  ∧ F32.vecToRat (RtPipeline1.offsetPositionAlongNormal p n) ≠ F32.vecToRat p
  ∧ F32.vecToRat (RtPipeline1.offsetPositionAlongNormal p (-n)) ≠ F32.vecToRat p

/-- The binary32 position nearest to `(-0.02, 100, -3e10)`: one coordinate
near the origin, two in the range of the integer offset. -/
def samplePosition : Vec3 F32 := ⟨⟨3164854026⟩, ⟨1120403456⟩, ⟨3504309366⟩⟩

/-- The binary32 normal nearest to `(-0.3, 0.9, 0.31)`. -/
def sampleNormal : Vec3 F32 := ⟨⟨3197737370⟩, ⟨1063675494⟩, ⟨1050589266⟩⟩

/-! ## Sampling and the stochastic materials -/

/-- GLSL `mod(x, y)`: `x - y * floor(x / y)`. -/
def GLSL.mod {α : Type} [Sub α] [Mul α] [Div α] [GLSLBuiltins α] (x y : α) : α :=
  x - y * GLSLBuiltins.floor (x / y)

namespace RtPipeline2

/-- The constant `k_pi` of `shaderCommon.h`. -/
def k_pi {α : Type} [OfScientific α] : α := 3.14159265

end RtPipeline2

namespace RtPipeline1

variable {α : Type} [Add α] [Sub α] [Mul α] [Div α] [Neg α] [LT α] [LE α] [OfScientific α]
  [DecidableRel (fun a b : α => a < b)] [DecidableRel (fun a b : α => a ≤ b)]
  [GLSLBuiltins α] [GLSLConversions α]

/-- The constant `k_pi` of `shaderCommon.h`. -/
def k_pi : α := 3.14159265

/-- Returns a random diffuse (Lambertian) reflection for a surface with the
given normal, using the given random number generator state; the second
component is the RNG state after the call (the `inout` parameter). -/
def diffuseReflection (normal : Vec3 α) (rngState : Nat) : Vec3 α × Nat :=
  -- Random in [0, 2pi]
  let draw1 := stepAndOutputRNGFloat α rngState
  let theta : α := 2.0 * k_pi * draw1.1
  -- Random in [-1, 1]
  let draw2 := stepAndOutputRNGFloat α draw1.2
  let u : α := 2.0 * draw2.1 - 1.0
  let r : α := GLSLBuiltins.sqrt (1.0 - u * u)
  let direction : Vec3 α :=
    normal + ⟨r * GLSLBuiltins.cos theta, r * GLSLBuiltins.sin theta, u⟩
  -- Then normalize the ray direction
  (normalize direction, draw2.2)

/-- A linear blend of 20% of a mirror-reflective material and 80% of a
perfectly diffuse material. -/
def material3 (indices : List Nat) (vertices : List (Vec3 α)) (rayQuery : RayQuery α)
    (rngState : Nat) : Option (ReturnedInfo α × Nat) := do
  let hitInfo ← getObjectHitInfo indices vertices rayQuery
  let color : Vec3 α := vec3 0.7
  let rayOrigin := offsetPositionAlongNormal hitInfo.worldPosition hitInfo.worldNormal
  let draw := stepAndOutputRNGFloat α rngState
  if draw.1 < 0.2 then
    let rayDirection := reflect rayQuery.worldRayDirection hitInfo.worldNormal
    pure (⟨color, rayOrigin, rayDirection⟩, draw.2)
  else
    let bounce := diffuseReflection hitInfo.worldNormal draw.2
    pure (⟨color, rayOrigin, bounce.1⟩, bounce.2)

/-- A material where 50% of incoming rays pass through the surface (treating
it as transparent), and the other 50% bounce off using diffuse reflection. -/
def material4 (indices : List Nat) (vertices : List (Vec3 α)) (rayQuery : RayQuery α)
    (rngState : Nat) : Option (ReturnedInfo α × Nat) := do
  let hitInfo ← getObjectHitInfo indices vertices rayQuery
  let color : Vec3 α := vec3 0.7
  let draw := stepAndOutputRNGFloat α rngState
  if draw.1 < 0.5 then
    let rayOrigin := offsetPositionAlongNormal hitInfo.worldPosition hitInfo.worldNormal
    let bounce := diffuseReflection hitInfo.worldNormal draw.2
    pure (⟨color, rayOrigin, bounce.1⟩, bounce.2)
  else
    let rayOrigin := offsetPositionAlongNormal hitInfo.worldPosition (-hitInfo.worldNormal)
    let rayDirection := rayQuery.worldRayDirection
    pure (⟨color, rayOrigin, rayDirection⟩, draw.2)

/-- A material with diffuse reflection that is transparent whenever
`(x + y + z) % 0.5 < 0.25` in object-space coordinates. -/
def material5 (indices : List Nat) (vertices : List (Vec3 α)) (rayQuery : RayQuery α)
    (rngState : Nat) : Option (ReturnedInfo α × Nat) := do
  let hitInfo ← getObjectHitInfo indices vertices rayQuery
  if GLSL.mod (dot hitInfo.objectPosition ⟨1.0, 1.0, 1.0⟩) 0.5 ≥ (0.25 : α) then
    let color : Vec3 α := vec3 0.7
    let rayOrigin := offsetPositionAlongNormal hitInfo.worldPosition hitInfo.worldNormal
    let bounce := diffuseReflection hitInfo.worldNormal rngState
    pure (⟨color, rayOrigin, bounce.1⟩, bounce.2)
  else
    let color : Vec3 α := vec3 1.0
    let rayOrigin := offsetPositionAlongNormal hitInfo.worldPosition (-hitInfo.worldNormal)
    let rayDirection := rayQuery.worldRayDirection
    pure (⟨color, rayOrigin, rayDirection⟩, rngState)

/-- A mirror material that uses normal mapping: the geometric (triangle)
normal is perturbed to get a shading normal that varies over the surface, and
the shading normal is used to get reflections. A direction that goes through
the surface is mirrored so that it does not. -/
def material6 (indices : List Nat) (vertices : List (Vec3 α)) (rayQuery : RayQuery α)
    (rngState : Nat) : Option (ReturnedInfo α × Nat) := do
  let hitInfo ← getObjectHitInfo indices vertices rayQuery
  let color : Vec3 α := vec3 0.7
  let rayOrigin := offsetPositionAlongNormal hitInfo.worldPosition hitInfo.worldNormal
  -- Perturb the normal:
  let scaleFactor : α := 80.0
  let perturbationAmount : Vec3 α := (0.03 : α)
    * (⟨GLSLBuiltins.sin (scaleFactor * hitInfo.worldPosition.x),
        GLSLBuiltins.sin (scaleFactor * hitInfo.worldPosition.y),
        GLSLBuiltins.sin (scaleFactor * hitInfo.worldPosition.z)⟩ : Vec3 α)
  let shadingNormal := normalize (hitInfo.worldNormal + perturbationAmount)
  let draw := stepAndOutputRNGFloat α rngState
  let bounce : Vec3 α × Nat :=
    if draw.1 < 0.4 then (reflect rayQuery.worldRayDirection shadingNormal, draw.2)
    else diffuseReflection shadingNormal draw.2
  -- If the ray now points into the surface, reflect it across:
  let rayDirection :=
    if dot bounce.1 hitInfo.worldNormal ≤ (0.0 : α) then reflect bounce.1 hitInfo.worldNormal
    else bounce.1
  pure (⟨color, rayOrigin, rayDirection⟩, bounce.2)

/-- A diffuse material with transparent cutouts arranged in slices of
spheres. -/
def material8 (indices : List Nat) (vertices : List (Vec3 α)) (rayQuery : RayQuery α)
    (rngState : Nat) : Option (ReturnedInfo α × Nat) := do
  let hitInfo ← getObjectHitInfo indices vertices rayQuery
  if GLSL.mod (GLSL.length hitInfo.objectPosition) 0.2 ≥ (0.05 : α) then
    let color : Vec3 α := vec3 0.7
    let rayOrigin := offsetPositionAlongNormal hitInfo.worldPosition hitInfo.worldNormal
    let bounce := diffuseReflection hitInfo.worldNormal rngState
    pure (⟨color, rayOrigin, bounce.1⟩, bounce.2)
  else
    let color : Vec3 α := vec3 1.0
    let rayOrigin := offsetPositionAlongNormal hitInfo.worldPosition (-hitInfo.worldNormal)
    let rayDirection := rayQuery.worldRayDirection
    pure (⟨color, rayOrigin, rayDirection⟩, rngState)

end RtPipeline1

namespace RtPipeline3

variable {α : Type} [Add α] [Sub α] [Mul α] [Div α] [Neg α] [LT α] [LE α] [OfScientific α]
  [DecidableRel (fun a b : α => a < b)] [DecidableRel (fun a b : α => a ≤ b)]
  [GLSLBuiltins α] [GLSLConversions α]

/-- Function `diffuseReflection` of `closestHitCommon.h`; the generator and
`k_pi` come from the `shaderCommon.h` it includes, the file of the previous
checkpoint. -/
def diffuseReflection (normal : Vec3 α) (rngState : Nat) : Vec3 α × Nat :=
  -- Random in [0, 2pi]
  let draw1 := RtPipeline2.stepAndOutputRNGFloat α rngState
  let theta : α := 2.0 * RtPipeline2.k_pi * draw1.1
  -- Random in [-1, 1]
  let draw2 := RtPipeline2.stepAndOutputRNGFloat α draw1.2
  let u : α := 2.0 * draw2.1 - 1.0
  let r : α := GLSLBuiltins.sqrt (1.0 - u * u)
  let direction : Vec3 α :=
    normal + ⟨r * GLSLBuiltins.cos theta, r * GLSLBuiltins.sin theta, u⟩
  -- Then normalize the ray direction
  (normalize direction, draw2.2)

end RtPipeline3

/-! ## Reference sampling, from the specification -/

/-- The point of the unit sphere picked by the specification from two random
numbers `r1`, `r2`, for the value `pi` of the constant pi:
`theta = 2*pi*r1`, `u = 2*r2 - 1`, `r = sqrt(1 - u*u)`, and the point
`(r*cos(theta), r*sin(theta), u)`. -/
noncomputable def sphereOffset (pi r1 r2 : ℝ) : Vec3 ℝ :=
  let theta := 2 * pi * r1
  let u := 2 * r2 - 1
  let r := Real.sqrt (1 - u * u)
  ⟨r * Real.cos theta, r * Real.sin theta, u⟩

/-- The diffuse direction of the specification:
`normalize(normal + (r*cos(theta), r*sin(theta), u))`. -/
noncomputable def referenceDiffuse (pi : ℝ) (normal : Vec3 ℝ) (r1 r2 : ℝ) : Vec3 ℝ :=
  GLSL.normalize (normal + sphereOffset pi r1 r2)

/-- The shading normal of the perturbed-normal material, from the
specification: the geometric normal `n` perturbed by per-axis sine functions
of the world position `p`, then normalised. -/
noncomputable def referenceShadingNormal (n p : Vec3 ℝ) : Vec3 ℝ :=
  GLSL.normalize (n + (0.03 : ℝ)
    * (⟨Real.sin (80 * p.x), Real.sin (80 * p.y), Real.sin (80 * p.z)⟩ : Vec3 ℝ))

/-- The direction that the perturbed-normal material draws from the shading
normal `m` for the incoming direction `d`, with the RNG state afterwards: the
mirror direction `d - 2*dot(d, m)*m` when the threshold draw is below 0.4,
a diffuse bounce about `m` otherwise. -/
noncomputable def referenceShadedBounce (d m : Vec3 ℝ) (s : Nat) : Vec3 ℝ × Nat :=
  if (RtPipeline1.stepAndOutputRNGFloat ℝ s).1 < 0.4
  then (d - (2 * dot d m) * m, (RtPipeline1.stepAndOutputRNGFloat ℝ s).2)
  else RtPipeline1.diffuseReflection m (RtPipeline1.stepAndOutputRNGFloat ℝ s).2

/-- A hit of primitive 0 of the sample scene at barycentrics `(3/10, 0)`, that
is at the object-space position `(3/10, 0, 0)`. -/
noncomputable def edgeRayQuery : RayQuery ℝ :=
  ⟨0, ⟨3 / 10, 0⟩, identityTransform, identityTransform, ⟨0, 0, -1⟩⟩

/-! ## The host programs

`main` of `checkpoints/e8_debug_names/main.cpp` and of
`checkpoints/e10_materials/main.cpp`, from the mesh load to the image output.
A run is the list of the calls that upload, build, record, submit and wait for
GPU work, in program order. Calls into Vulkan and the helper toolkit are
events of the trace and are taken to return successfully; object creation and
destruction (context, images, descriptor sets, pipeline) is not listed.
Assertions are taken as active. -/

/-- Conversion of a C++ `int` to `uint32_t`. -/
def u32OfInt (i : Int) : Nat := (i % 4294967296).toNat

/-- `RENDER_WIDTH` of `common.h`. -/
def RENDER_WIDTH : Nat := 800

/-- `RENDER_HEIGHT` of `common.h`. -/
def RENDER_HEIGHT : Nat := 600

/-- `WORKGROUP_WIDTH` of `common.h`. -/
def WORKGROUP_WIDTH : Nat := 16

/-- `WORKGROUP_HEIGHT` of `common.h`. -/
def WORKGROUP_HEIGHT : Nat := 8

/-- The field of `tinyobj::index_t` that the host reads. -/
structure IndexT where
  vertex_index : Int
deriving DecidableEq

/-- The field of `tinyobj::shape_t` that the host reads: `mesh.indices`. -/
structure ShapeT where
  mesh_indices : List IndexT
deriving DecidableEq

/-- What the host reads from a `tinyobj::ObjReader` after `ParseFromFile`. -/
structure ObjReader where
  /-- Result of `reader.Valid()`. -/
  Valid : Bool
  /-- Result of `reader.GetAttrib().GetVertices()`: three floats per vertex. -/
  vertices : List F32
  /-- Result of `reader.GetShapes()`. -/
  shapes : List ShapeT
deriving DecidableEq

/-- The fields of a `VkAccelerationStructureInstanceKHR` that do not come from
the random engine. `x` and `y` are the translation applied last in the
instance transform. -/
structure AccelerationStructureInstance where
  x : Int
  y : Int
  instanceCustomIndex : Nat
  /-- Index `i` of `raytracingBuilder.getBlasDeviceAddress(i)`. -/
  accelerationStructureReference : Nat
  mask : Nat
deriving DecidableEq

/-- A call of the host program that the trace records. -/
inductive HostCall where
  | vkAllocateCommandBuffers
  | vkBeginCommandBuffer
  /-- The call `allocator.createBuffer(uploadCmdBuffer, objVertices, usage)`. -/
  | createVertexBuffer (objVertices : List F32)
  /-- The call `allocator.createBuffer(uploadCmdBuffer, objIndices, usage)`. -/
  | createIndexBuffer (objIndices : List Nat)
  | vkCmdPipelineBarrier
  | vkEndCommandBuffer
  | vkQueueSubmit
  | vkQueueWaitIdle
  | vkFreeCommandBuffers
  /-- The call `raytracingBuilder.buildBlas`, with the `maxVertex` and
  `primitiveCount` of its one geometry. -/
  | buildBlas (maxVertex primitiveCount : Nat)
  | buildTlas (instances : List AccelerationStructureInstance)
  | vkCmdBindPipeline
  | vkCmdBindDescriptorSets
  | vkCmdPushConstants (sample_batch : Nat)
  | vkCmdDispatch (groupCountX groupCountY groupCountZ : Nat)
  /-- The call `vkCmdCopyImage` from `image` to `imageLinear`, with the extent
  of its region. -/
  | vkCmdCopyImage (width height : Nat)
  | nvprintf (sampleBatch : Nat)
  | stbi_write_hdr (width height : Nat)
deriving DecidableEq

/-- The ways in which the host program stops before its end. -/
inductive HostFault where
  /-- Failure of `assert(reader.Valid())`. -/
  | readerNotValid
  /-- Failure of `assert(objShapes.size() == 1)`. -/
  | notOneShape
  /-- A loop of the model ran out of fuel. -/
  | outOfFuel
deriving DecidableEq

/-- The sample batch that a call pushes, when it is `vkCmdPushConstants`. -/
def HostCall.pushed : HostCall → Option Nat
  | .vkCmdPushConstants sample_batch => some sample_batch
  | _ => none

/-- Whether a call is `vkCmdDispatch`. -/
def HostCall.isDispatch : HostCall → Bool
  | .vkCmdDispatch _ _ _ => true
  | _ => false

/-- Whether a call is `vkCmdCopyImage`. -/
def HostCall.isCopyImage : HostCall → Bool
  | .vkCmdCopyImage _ _ => true
  | _ => false

namespace E10Materials

def render_width : Nat := 800

def render_height : Nat := 600

def AllocateAndBeginOneTimeCommandBuffer : List HostCall :=
  [.vkAllocateCommandBuffers, .vkBeginCommandBuffer]

def EndSubmitWaitAndFreeCommandBuffer : List HostCall :=
  [.vkEndCommandBuffer, .vkQueueSubmit, .vkQueueWaitIdle, .vkFreeCommandBuffers]

def NUM_SAMPLE_BATCHES : Nat := 32

/-- The loop `for(const tinyobj::index_t& index : objShape.mesh.indices)`,
which pushes `index.vertex_index`, converted to `uint32_t`, onto `objIndices`. -/
def loadIndices : List IndexT → List Nat → List Nat
  | [], objIndices => objIndices
  | index :: rest, objIndices => loadIndices rest (objIndices ++ [u32OfInt index.vertex_index])

/-- The upload of the vertex and index buffers, and the transition of the two
images, in one command buffer. -/
def upload (objVertices : List F32) (objIndices : List Nat) : List HostCall :=
  AllocateAndBeginOneTimeCommandBuffer
    ++ [.createVertexBuffer objVertices, .createIndexBuffer objIndices, .vkCmdPipelineBarrier]
    ++ EndSubmitWaitAndFreeCommandBuffer

/-- The description and build of the bottom-level acceleration structure:
`maxVertex = uint32_t(objVertices.size() / 3 - 1)` in `size_t` arithmetic,
`primitiveCount = uint32_t(objIndices.size() / 3)`. -/
def blas (objVertices : List F32) (objIndices : List Nat) : HostCall :=
  .buildBlas
    (u32 ((objVertices.length / 3 + 18446744073709551616 - 1) % 18446744073709551616))
    (u32 (objIndices.length / 3))

/-- The loop `for(int y = -10; y <= 10; y++)` of the instance builder, entered
with the current `y`. -/
def instanceLoopY (x : Int) :
    Nat → Int → List AccelerationStructureInstance → Option (List AccelerationStructureInstance)
  | 0, _, _ => none
  | fuel + 1, y, instances =>
    if y ≤ 10 then
      instanceLoopY x fuel (y + 1) (instances ++ [⟨x, y, 0, 0, 0xFF⟩])
    else some instances

/-- The loop `for(int x = -10; x <= 10; x++)` of the instance builder, entered
with the current `x`. -/
def instanceLoopX :
    Nat → Int → List AccelerationStructureInstance → Option (List AccelerationStructureInstance)
  | 0, _, _ => none
  | fuel + 1, x, instances =>
    if x ≤ 10 then
      match instanceLoopY x 22 (-10) instances with
      | none => none
      | some instances => instanceLoopX fuel (x + 1) instances
    else some instances

/-- The commands of one iteration of the render loop. -/
def renderBatch (sampleBatch : Nat) : List HostCall :=
  AllocateAndBeginOneTimeCommandBuffer
    ++ [.vkCmdBindPipeline, .vkCmdBindDescriptorSets,
        .vkCmdPushConstants sampleBatch,
        .vkCmdDispatch
          (u32 (u32 (u32 (render_width + WORKGROUP_WIDTH) + 4294967295) / WORKGROUP_WIDTH))
          (u32 (u32 (u32 (render_height + WORKGROUP_HEIGHT) + 4294967295) / WORKGROUP_HEIGHT))
          1]
    ++ (if sampleBatch = u32 (NUM_SAMPLE_BATCHES + 4294967295) then
          [.vkCmdPipelineBarrier, .vkCmdCopyImage render_width render_height,
           .vkCmdPipelineBarrier]
        else [])
    ++ EndSubmitWaitAndFreeCommandBuffer
    ++ [.nvprintf sampleBatch]

/-- The loop `for(uint32_t sampleBatch = 0; sampleBatch < NUM_SAMPLE_BATCHES;
sampleBatch++)`, entered with the current `sampleBatch` and the trace so far. -/
def renderLoop : Nat → Nat → List HostCall → Option (List HostCall)
  | 0, _, _ => none
  | fuel + 1, sampleBatch, trace =>
    if sampleBatch < NUM_SAMPLE_BATCHES then
      renderLoop fuel (u32 (sampleBatch + 1)) (trace ++ renderBatch sampleBatch)
    else some trace

/-- The host program from the mesh load on. -/
def main (reader : ObjReader) : Except HostFault (List HostCall) :=
  -- assert(reader.Valid());
  if reader.Valid = false then .error .readerNotValid else
  let objVertices := reader.vertices
  let objShapes := reader.shapes
  -- assert(objShapes.size() == 1);
  if objShapes.length ≠ 1 then .error .notOneShape else
  match objShapes[0]? with
  | none => .error .notOneShape
  | some objShape =>
    let objIndices := loadIndices objShape.mesh_indices []
    let trace := upload objVertices objIndices
    let trace := trace ++ [blas objVertices objIndices]
    match instanceLoopX 22 (-10) [] with
    | none => .error .outOfFuel
    | some instances =>
      let trace := trace ++ [.buildTlas instances]
      match renderLoop (NUM_SAMPLE_BATCHES + 1) 0 trace with
      | none => .error .outOfFuel
      | some trace => .ok (trace ++ [.stbi_write_hdr render_width render_height])

end E10Materials

namespace E8DebugNames

def render_width : Nat := 800

def render_height : Nat := 600

def AllocateAndBeginOneTimeCommandBuffer : List HostCall :=
  [.vkAllocateCommandBuffers, .vkBeginCommandBuffer]

def EndSubmitWaitAndFreeCommandBuffer : List HostCall :=
  [.vkEndCommandBuffer, .vkQueueSubmit, .vkQueueWaitIdle, .vkFreeCommandBuffers]

def NUM_SAMPLE_BATCHES : Nat := 32

/-- The loop `for(const tinyobj::index_t& index : objShape.mesh.indices)`,
which pushes `index.vertex_index`, converted to `uint32_t`, onto `objIndices`. -/
def loadIndices : List IndexT → List Nat → List Nat
  | [], objIndices => objIndices
  | index :: rest, objIndices => loadIndices rest (objIndices ++ [u32OfInt index.vertex_index])

/-- The upload of the vertex and index buffers, and the transition of the two
images, in one command buffer. -/
def upload (objVertices : List F32) (objIndices : List Nat) : List HostCall :=
  AllocateAndBeginOneTimeCommandBuffer
    ++ [.createVertexBuffer objVertices, .createIndexBuffer objIndices, .vkCmdPipelineBarrier]
    ++ EndSubmitWaitAndFreeCommandBuffer

/-- The description and build of the bottom-level acceleration structure:
`maxVertex = uint32_t(objVertices.size() / 3 - 1)` in `size_t` arithmetic,
`primitiveCount = uint32_t(objIndices.size() / 3)`. -/
def blas (objVertices : List F32) (objIndices : List Nat) : HostCall :=
  .buildBlas
    (u32 ((objVertices.length / 3 + 18446744073709551616 - 1) % 18446744073709551616))
    (u32 (objIndices.length / 3))

/-- The one instance of this chapter: identity transform, BLAS 0. -/
def instances : List AccelerationStructureInstance := [⟨0, 0, 0, 0, 0xFF⟩]

/-- The commands of one iteration of the render loop. -/
def renderBatch (sampleBatch : Nat) : List HostCall :=
  AllocateAndBeginOneTimeCommandBuffer
    ++ [.vkCmdBindPipeline, .vkCmdBindDescriptorSets,
        .vkCmdPushConstants sampleBatch,
        .vkCmdDispatch
          (u32 (u32 (u32 (render_width + WORKGROUP_WIDTH) + 4294967295) / WORKGROUP_WIDTH))
          (u32 (u32 (u32 (render_height + WORKGROUP_HEIGHT) + 4294967295) / WORKGROUP_HEIGHT))
          1]
    ++ (if sampleBatch = u32 (NUM_SAMPLE_BATCHES + 4294967295) then
          [.vkCmdPipelineBarrier, .vkCmdCopyImage render_width render_height,
           .vkCmdPipelineBarrier]
        else [])
    ++ EndSubmitWaitAndFreeCommandBuffer
    ++ [.nvprintf sampleBatch]

/-- The loop `for(uint32_t sampleBatch = 0; sampleBatch < NUM_SAMPLE_BATCHES;
sampleBatch++)`, entered with the current `sampleBatch` and the trace so far. -/
def renderLoop : Nat → Nat → List HostCall → Option (List HostCall)
  | 0, _, _ => none
  | fuel + 1, sampleBatch, trace =>
    if sampleBatch < NUM_SAMPLE_BATCHES then
      renderLoop fuel (u32 (sampleBatch + 1)) (trace ++ renderBatch sampleBatch)
    else some trace

/-- The host program from the mesh load on. -/
def main (reader : ObjReader) : Except HostFault (List HostCall) :=
  -- assert(reader.Valid());
  if reader.Valid = false then .error .readerNotValid else
  let objVertices := reader.vertices
  let objShapes := reader.shapes
  -- assert(objShapes.size() == 1);
  if objShapes.length ≠ 1 then .error .notOneShape else
  match objShapes[0]? with
  | none => .error .notOneShape
  | some objShape =>
    let objIndices := loadIndices objShape.mesh_indices []
    let trace := upload objVertices objIndices
    let trace := trace ++ [blas objVertices objIndices]
    let trace := trace ++ [.buildTlas instances]
    match renderLoop (NUM_SAMPLE_BATCHES + 1) 0 trace with
    | none => .error .outOfFuel
    | some trace => .ok (trace ++ [.stbi_write_hdr render_width render_height])

end E8DebugNames

/-! ## Reference definitions for the host programs -/

/-- The number of workgroups that the host dispatches along an axis of image
extent `w` with workgroup extent `g`: `(w + g - 1) / g` in `uint32_t`
arithmetic. -/
def groupCount (w g : Nat) : Nat :=
  u32 (u32 (u32 (w + g) + 4294967295) / g)

/-- An invocation of a dispatch: its workgroup and its place in the
workgroup. -/
structure Invocation where
  groupX : Nat
  groupY : Nat
  localX : Nat
  localY : Nat
deriving DecidableEq

/-- Modelled from the spec: the compute shader entry point is not among the
sources. The dispatch invokes the kernel "over a 2D domain sized to the
image": an invocation of a workgroup of `WORKGROUP_WIDTH` by
`WORKGROUP_HEIGHT` invocations works on the pixel whose coordinates are the
workgroup index times the workgroup extent plus the local index. -/
def Invocation.pixel (i : Invocation) : Nat × Nat :=
  (i.groupX * WORKGROUP_WIDTH + i.localX, i.groupY * WORKGROUP_HEIGHT + i.localY)

/-- The invocations of a dispatch of `nx` by `ny` workgroups. -/
def Invocation.inDispatch (nx ny : Nat) (i : Invocation) : Prop :=
  i.groupX < nx ∧ i.groupY < ny ∧ i.localX < WORKGROUP_WIDTH ∧ i.localY < WORKGROUP_HEIGHT

/-- The trace of a render loop according to the specification: the batches
`0, 1, ..., n - 1` one after the other, each one recorded, submitted and waited
for before the next one starts. -/
def referenceRenderTrace (batch : Nat → List HostCall) (n : Nat) : List HostCall :=
  (List.range n).flatMap batch

/-- A mesh of one triangle on three vertices whose last index is 7. -/
def outOfRangeReader : ObjReader :=
  ⟨true, [⟨0⟩, ⟨0⟩, ⟨0⟩, ⟨1065353216⟩, ⟨0⟩, ⟨0⟩, ⟨0⟩, ⟨1065353216⟩, ⟨0⟩],
   [⟨[⟨0⟩, ⟨1⟩, ⟨7⟩]⟩]⟩

/-- A mesh of one triangle on three vertices whose last index is -1. -/
def negativeIndexReader : ObjReader :=
  ⟨true, [⟨0⟩, ⟨0⟩, ⟨0⟩, ⟨1065353216⟩, ⟨0⟩, ⟨0⟩, ⟨0⟩, ⟨1065353216⟩, ⟨0⟩],
   [⟨[⟨0⟩, ⟨1⟩, ⟨-1⟩]⟩]⟩

/-- A well-formed mesh: one triangle on three vertices. -/
def triangleReader : ObjReader :=
  ⟨true, [⟨0⟩, ⟨0⟩, ⟨0⟩, ⟨1065353216⟩, ⟨0⟩, ⟨0⟩, ⟨0⟩, ⟨1065353216⟩, ⟨0⟩],
   [⟨[⟨0⟩, ⟨1⟩, ⟨2⟩]⟩]⟩

/-- Malformed scene data, in the words of the specification: some index of a
mesh refers to a vertex out of range, `vertex_index < 0` or `vertex_index >=
objVertices.size() / 3`. -/
def ObjReader.hasIndexOutOfRange (reader : ObjReader) : Bool :=
  reader.shapes.any fun (shape : ShapeT) =>
    shape.mesh_indices.any fun (index : IndexT) =>
      decide (index.vertex_index < 0)
        || decide (((reader.vertices.length / 3 : Nat) : Int) ≤ index.vertex_index)

/-! ## The remaining materials -/

/-- GLSL `clamp(x, minVal, maxVal)` on `float`: `min(max(x, minVal), maxVal)`,
where `max(x, y)` is `y` if `x < y` and `x` otherwise, and `min(x, y)` is `y`
if `y < x` and `x` otherwise. -/
def GLSL.clampFloat {α : Type} [LT α] [DecidableRel (fun a b : α => a < b)]
    (x minVal maxVal : α) : α :=
  let m := if x < minVal then minVal else x
  if maxVal < m then maxVal else m

/-- GLSL `clamp(x, minVal, maxVal)` on `vec3`: component by component. -/
def GLSL.clamp {α : Type} [LT α] [DecidableRel (fun a b : α => a < b)]
    (x minVal maxVal : Vec3 α) : Vec3 α :=
  ⟨GLSL.clampFloat x.x minVal.x maxVal.x, GLSL.clampFloat x.y minVal.y maxVal.y,
   GLSL.clampFloat x.z minVal.z maxVal.z⟩

namespace RtPipeline1

variable {α : Type} [Add α] [Sub α] [Mul α] [Div α] [Neg α] [LT α] [LE α] [OfScientific α]
  [DecidableRel (fun a b : α => a < b)] [DecidableRel (fun a b : α => a ≤ b)]
  [GLSLBuiltins α] [GLSLConversions α]

/-- Diffuse reflection off a 70% reflective surface. -/
def material0 (indices : List Nat) (vertices : List (Vec3 α)) (rayQuery : RayQuery α)
    (rngState : Nat) : Option (ReturnedInfo α × Nat) := do
  let hitInfo ← getObjectHitInfo indices vertices rayQuery
  let color : Vec3 α := vec3 0.7
  let rayOrigin := offsetPositionAlongNormal hitInfo.worldPosition hitInfo.worldNormal
  let bounce := diffuseReflection hitInfo.worldNormal rngState
  pure (⟨color, rayOrigin, bounce.1⟩, bounce.2)

/-- A diffuse surface with faces colored according to their world-space
normal. -/
def material2 (indices : List Nat) (vertices : List (Vec3 α)) (rayQuery : RayQuery α)
    (rngState : Nat) : Option (ReturnedInfo α × Nat) := do
  let hitInfo ← getObjectHitInfo indices vertices rayQuery
  let color : Vec3 α := vec3 0.5 + (0.5 : α) * hitInfo.worldNormal
  let rayOrigin := offsetPositionAlongNormal hitInfo.worldPosition hitInfo.worldNormal
  let bounce := diffuseReflection hitInfo.worldNormal rngState
  pure (⟨color, rayOrigin, bounce.1⟩, bounce.2)

/-- A diffuse material where the color of each triangle is determined by its
primitive ID (the index of the triangle in the BLAS). The primitive ID is an
`int` that is never negative; its conversion to `float` is that of the
unsigned value. -/
def material7 (indices : List Nat) (vertices : List (Vec3 α)) (rayQuery : RayQuery α)
    (rngState : Nat) : Option (ReturnedInfo α × Nat) := do
  let hitInfo ← getObjectHitInfo indices vertices rayQuery
  let primitiveID : α := GLSLConversions.ofUInt rayQuery.intersectionPrimitiveIndex
  let color : Vec3 α :=
    GLSL.clamp ⟨primitiveID / 36.0, primitiveID / 9.0, primitiveID / 18.0⟩ (vec3 0.0) (vec3 1.0)
  let rayOrigin := offsetPositionAlongNormal hitInfo.worldPosition hitInfo.worldNormal
  let bounce := diffuseReflection hitInfo.worldNormal rngState
  pure (⟨color, rayOrigin, bounce.1⟩, bounce.2)

end RtPipeline1

/-! ## Further reference definitions -/

/-- All three components of a colour lie in `[0, 1]`. -/
def inUnitCube (c : Vec3 ℝ) : Prop :=
  0 ≤ c.x ∧ c.x ≤ 1 ∧ 0 ≤ c.y ∧ c.y ≤ 1 ∧ 0 ≤ c.z ∧ c.z ≤ 1

/-- Modelled from the spec: the path integrator is not among the sources. On
a hit it "multiplies the accumulated color by the returned reflectance",
component by component. -/
def shade (accumulated reflectance : Vec3 ℝ) : Vec3 ℝ :=
  ⟨accumulated.x * reflectance.x, accumulated.y * reflectance.y,
   accumulated.z * reflectance.z⟩

/-- The instances of the materials chapter according to the specification:
one for every pair `(x, y)` with `-10 <= x <= 10` and `-10 <= y <= 10`, in
row-major order of `x` then `y`, each with custom index 0, BLAS 0 and mask
`0xFF`. -/
def referenceInstances : List AccelerationStructureInstance :=
  (List.range 21).flatMap fun (i : Nat) =>
    (List.range 21).map fun (j : Nat) => ⟨(i : Int) - 10, (j : Int) - 10, 0, 0, 0xFF⟩

/-- The first XOR-shift of the output permutation, applied to a stepped state
`t`: `(t >> ((t >> 28) + 4)) ^ t`. -/
def referenceXorShift (t : Nat) : Nat := (t >>> ((t >>> 28) + 4)) ^^^ t

/-- The perturbation of the geometric normal at the world position `p`. -/
noncomputable def referencePerturbation (p : Vec3 ℝ) : Vec3 ℝ :=
  (0.03 : ℝ) * (⟨Real.sin (80 * p.x), Real.sin (80 * p.y), Real.sin (80 * p.z)⟩ : Vec3 ℝ)

/-! ## Theorems -/


/-! ### Machine integers -/

theorem u32_lt (n : Nat) : u32 n < 4294967296 := Nat.mod_lt _ (by decide)

theorem u32_of_lt {n : Nat} (h : n < 4294967296) : u32 n = n := Nat.mod_eq_of_lt h

theorem rng_shift_lt (t : Nat) (h : t < 4294967296) : (t >>> 28) + 4 < 4294967296 := by
  rw [Nat.shiftRight_eq_div_pow]
  have : t / 2 ^ 28 < 16 := by
    rw [Nat.div_lt_iff_lt_mul (by norm_num)]
    omega
  omega

theorem rng_state_eq (s : Nat) : u32 (u32 (s * 747796405) + 1) = referenceStep s := by
  unfold u32 referenceStep
  omega

theorem rng_word_eq (t : Nat) (h : t < 4294967296) :
    (let word := u32 (((t >>> u32 ((t >>> 28) + 4)) ^^^ t) * 277803737)
     (word >>> 22) ^^^ word) = referenceOutput t := by
  simp only [u32_of_lt (rng_shift_lt t h), referenceOutput]
  rfl

theorem referenceStep_lt (s : Nat) : referenceStep s < 4294967296 := Nat.mod_lt _ (by decide)

theorem referenceOutput_lt (t : Nat) : referenceOutput t < 4294967296 := by
  unfold referenceOutput
  have hw : (((t >>> ((t >>> 28) + 4)) ^^^ t) * 277803737) % 2 ^ 32 < 2 ^ 32 :=
    Nat.mod_lt _ (by norm_num)
  have hs : ((((t >>> ((t >>> 28) + 4)) ^^^ t) * 277803737) % 2 ^ 32) >>> 22 < 2 ^ 32 :=
    by
    rw [Nat.shiftRight_eq_div_pow]
    exact lt_of_le_of_lt (Nat.div_le_self _ _) hw
  exact Nat.xor_lt_two_pow hs hw

theorem rt1_rng_eq (s : Nat) :
    RtPipeline1.stepAndOutputRNGFloat ℝ s
      = ((referenceOutput (referenceStep s) : ℝ) / 4294967295, referenceStep s) := by
  have h := rng_word_eq (referenceStep s) (referenceStep_lt s)
  simp only [RtPipeline1.stepAndOutputRNGFloat, rng_state_eq, GLSLConversions.ofUInt] at h ⊢
  rw [h]
  norm_num

theorem rt2_rng_eq (s : Nat) :
    RtPipeline2.stepAndOutputRNGFloat ℝ s
      = ((referenceOutput (referenceStep s) : ℝ) / 4294967295, referenceStep s) := by
  have h := rng_word_eq (referenceStep s) (referenceStep_lt s)
  simp only [RtPipeline2.stepAndOutputRNGFloat, rng_state_eq, GLSLConversions.ofUInt] at h ⊢
  rw [h]
  norm_num

/-! ### The random number generator -/

/-- C1: in exact arithmetic `stepAndOutputRNGFloat`, in both copies of
`shaderCommon.h`, is the reference generator: the new state is
`(s * 747796405 + 1) mod 2^32` and the value is `w / 4294967295`, where `w` is
the XOR-shift / multiply / XOR-shift permutation of the stepped state. Both
are functions of `s` alone. -/
theorem stepAndOutputRNGFloat_eq_reference (s : Nat) :
    (RtPipeline1.stepAndOutputRNGFloat ℝ s).2 = (s * 747796405 + 1) % 2 ^ 32
    ∧ (RtPipeline1.stepAndOutputRNGFloat ℝ s).1
        = (referenceOutput ((s * 747796405 + 1) % 2 ^ 32) : ℝ) / 4294967295
    ∧ RtPipeline2.stepAndOutputRNGFloat ℝ s = RtPipeline1.stepAndOutputRNGFloat ℝ s := by
  rw [rt2_rng_eq, rt1_rng_eq]
  exact ⟨rfl, rfl, rfl⟩

/-! ### The intersection resolver -/

section Resolver

variable {indices : List Nat} {vertices : List (Vec3 ℝ)}

theorem vec3_add_x (a b : Vec3 ℝ) : (a + b).x = a.x + b.x := rfl
theorem vec3_add_y (a b : Vec3 ℝ) : (a + b).y = a.y + b.y := rfl
theorem vec3_add_z (a b : Vec3 ℝ) : (a + b).z = a.z + b.z := rfl
theorem vec3_sub_x (a b : Vec3 ℝ) : (a - b).x = a.x - b.x := rfl
theorem vec3_sub_y (a b : Vec3 ℝ) : (a - b).y = a.y - b.y := rfl
theorem vec3_sub_z (a b : Vec3 ℝ) : (a - b).z = a.z - b.z := rfl
theorem vec3_neg_x (a : Vec3 ℝ) : (-a).x = -a.x := rfl
theorem vec3_neg_y (a : Vec3 ℝ) : (-a).y = -a.y := rfl
theorem vec3_neg_z (a : Vec3 ℝ) : (-a).z = -a.z := rfl
theorem vec3_smul_x (k : ℝ) (a : Vec3 ℝ) : (k * a).x = k * a.x := rfl
theorem vec3_smul_y (k : ℝ) (a : Vec3 ℝ) : (k * a).y = k * a.y := rfl
theorem vec3_smul_z (k : ℝ) (a : Vec3 ℝ) : (k * a).z = k * a.z := rfl
theorem vec3_muls_x (a : Vec3 ℝ) (k : ℝ) : (a * k).x = a.x * k := rfl
theorem vec3_muls_y (a : Vec3 ℝ) (k : ℝ) : (a * k).y = a.y * k := rfl
theorem vec3_muls_z (a : Vec3 ℝ) (k : ℝ) : (a * k).z = a.z * k := rfl
theorem vec3_divs_x (a : Vec3 ℝ) (k : ℝ) : (a / k).x = a.x / k := rfl
theorem vec3_divs_y (a : Vec3 ℝ) (k : ℝ) : (a / k).y = a.y / k := rfl
theorem vec3_divs_z (a : Vec3 ℝ) (k : ℝ) : (a / k).z = a.z / k := rfl

/-- The value of the ray-query resolver once the triangle has been fetched. -/
theorem rt1_getObjectHitInfo_of_fetch {rq : RayQuery ℝ} {v0 v1 v2 : Vec3 ℝ}
    (hf : fetchTriangle indices vertices rq.intersectionPrimitiveIndex = some (v0, v1, v2)) :
    RtPipeline1.getObjectHitInfo indices vertices rq = some
      ⟨v0 * (RtPipeline1.hitBarycentrics rq.intersectionBarycentrics).x
          + v1 * (RtPipeline1.hitBarycentrics rq.intersectionBarycentrics).y
          + v2 * (RtPipeline1.hitBarycentrics rq.intersectionBarycentrics).z,
       rq.intersectionObjectToWorld
          * vec4 (v0 * (RtPipeline1.hitBarycentrics rq.intersectionBarycentrics).x
            + v1 * (RtPipeline1.hitBarycentrics rq.intersectionBarycentrics).y
            + v2 * (RtPipeline1.hitBarycentrics rq.intersectionBarycentrics).z) 1.0,
       faceforward
          (GLSL.normalize (cross (v1 - v0) (v2 - v0) * rq.intersectionWorldToObject).xyz)
          rq.worldRayDirection
          (GLSL.normalize (cross (v1 - v0) (v2 - v0) * rq.intersectionWorldToObject).xyz)⟩ := by
  unfold fetchTriangle at hf
  unfold RtPipeline1.getObjectHitInfo
  cases h0 : indices[3 * rq.intersectionPrimitiveIndex + 0]? <;>
  cases h1 : indices[3 * rq.intersectionPrimitiveIndex + 1]? <;>
  cases h2 : indices[3 * rq.intersectionPrimitiveIndex + 2]? <;>
  simp only [h0, h1, h2] at hf <;> try cases hf
  rename_i i0 i1 i2
  cases g0 : vertices[i0]? <;> cases g1 : vertices[i1]? <;> cases g2 : vertices[i2]? <;>
  simp only [g0, g1, g2] at hf <;> try cases hf
  simp only [Nat.add_zero] at h0
  simp [h0, h1, h2, g0, g1, g2]

/-- The value of the closest-hit resolver once the triangle has been fetched. -/
theorem rt3_getObjectHitInfo_of_fetch {gl : ClosestHitInputs ℝ} {v0 v1 v2 : Vec3 ℝ}
    (hf : fetchTriangle indices vertices gl.gl_PrimitiveID = some (v0, v1, v2)) :
    RtPipeline3.getObjectHitInfo indices vertices gl = some
      ⟨v0 * (RtPipeline3.hitBarycentrics gl.attributes).x
          + v1 * (RtPipeline3.hitBarycentrics gl.attributes).y
          + v2 * (RtPipeline3.hitBarycentrics gl.attributes).z,
       gl.gl_ObjectToWorldEXT
          * vec4 (v0 * (RtPipeline3.hitBarycentrics gl.attributes).x
            + v1 * (RtPipeline3.hitBarycentrics gl.attributes).y
            + v2 * (RtPipeline3.hitBarycentrics gl.attributes).z) 1.0,
       faceforward
          (GLSL.normalize (cross (v1 - v0) (v2 - v0) * gl.gl_WorldToObjectEXT).xyz)
          gl.gl_WorldRayDirectionEXT
          (GLSL.normalize (cross (v1 - v0) (v2 - v0) * gl.gl_WorldToObjectEXT).xyz),
       none⟩ := by
  unfold fetchTriangle at hf
  unfold RtPipeline3.getObjectHitInfo
  cases h0 : indices[3 * gl.gl_PrimitiveID + 0]? <;>
  cases h1 : indices[3 * gl.gl_PrimitiveID + 1]? <;>
  cases h2 : indices[3 * gl.gl_PrimitiveID + 2]? <;>
  simp only [h0, h1, h2] at hf <;> try cases hf
  rename_i i0 i1 i2
  cases g0 : vertices[i0]? <;> cases g1 : vertices[i1]? <;> cases g2 : vertices[i2]? <;>
  simp only [g0, g1, g2] at hf <;> try cases hf
  simp only [Nat.add_zero] at h0
  simp [h0, h1, h2, g0, g1, g2]

theorem vec3_mulMat_xyz (v : Vec3 ℝ) (m : Mat4x3 ℝ) :
    (v * m).xyz = ⟨dot v m.c0, dot v m.c1, dot v m.c2⟩ := rfl

theorem mat_mul_vec4 (m : Mat4x3 ℝ) (p : Vec3 ℝ) (w : ℝ) :
    m * vec4 p w = m.c0 * p.x + m.c1 * p.y + m.c2 * p.z + m.c3 * w := rfl

theorem lit_zero : (0.0 : ℝ) = 0 := by norm_num
theorem lit_one : (1.0 : ℝ) = 1 := by norm_num
theorem lit_two : (2.0 : ℝ) = 2 := by norm_num

theorem glsl_dot_neg_left (a b : Vec3 ℝ) : dot (-a) b = -dot a b := by
  simp only [dot, vec3_neg_x, vec3_neg_y, vec3_neg_z]
  ring

theorem glsl_dot_comm (a b : Vec3 ℝ) : dot a b = dot b a := by
  simp only [dot]
  ring

theorem glsl_dot_self_nonneg (a : Vec3 ℝ) : 0 ≤ dot a a := by
  simp only [dot]
  nlinarith [mul_self_nonneg a.x, mul_self_nonneg a.y, mul_self_nonneg a.z]

theorem glsl_dot_divs_left (a b : Vec3 ℝ) (k : ℝ) : dot (a / k) b = dot a b / k := by
  simp only [dot, vec3_divs_x, vec3_divs_y, vec3_divs_z]
  ring

theorem glsl_dot_divs_right (a b : Vec3 ℝ) (k : ℝ) : dot a (b / k) = dot a b / k := by
  simp only [dot, vec3_divs_x, vec3_divs_y, vec3_divs_z]
  ring

/-- The fix-up `faceforward(N, I, N)` never leaves a normal on the side of the
incoming direction. -/
theorem glsl_faceforward_self_dot_le (N I : Vec3 ℝ) : dot (faceforward N I N) I ≤ 0 := by
  unfold faceforward
  rw [lit_zero]
  split
  · next h => exact le_of_lt h
  · next h =>
    rw [glsl_dot_neg_left]
    linarith [not_lt.mp h]

theorem glsl_faceforward_cases (N I R : Vec3 ℝ) : faceforward N I R = N ∨ faceforward N I R = -N := by
  unfold faceforward
  split
  · exact Or.inl rfl
  · exact Or.inr rfl

theorem glsl_length_neg (a : Vec3 ℝ) : GLSL.length (-a) = GLSL.length a := by
  simp only [GLSL.length, dot, vec3_neg_x, vec3_neg_y, vec3_neg_z]
  congr 1
  ring

theorem glsl_length_faceforward (N I R : Vec3 ℝ) :
    GLSL.length (faceforward N I R) = GLSL.length N := by
  rcases glsl_faceforward_cases N I R with h | h <;> rw [h]
  exact glsl_length_neg N

theorem glsl_length_pos_iff (a : Vec3 ℝ) : 0 < GLSL.length a ↔ a ≠ ⟨0, 0, 0⟩ := by
  unfold GLSL.length
  show 0 < Real.sqrt (dot a a) ↔ _
  rw [Real.sqrt_pos]
  constructor
  · intro h he
    rw [he] at h
    simp [dot] at h
  · intro h
    rcases lt_or_eq_of_le (glsl_dot_self_nonneg a) with hlt | heq
    · exact hlt
    · exfalso
      apply h
      simp only [dot] at heq
      have hx : a.x = 0 := by nlinarith [mul_self_nonneg a.x, mul_self_nonneg a.y, mul_self_nonneg a.z]
      have hy : a.y = 0 := by nlinarith [mul_self_nonneg a.x, mul_self_nonneg a.y, mul_self_nonneg a.z]
      have hz : a.z = 0 := by nlinarith [mul_self_nonneg a.x, mul_self_nonneg a.y, mul_self_nonneg a.z]
      ext <;> assumption

/-- Normalising a non-zero vector gives a unit vector. -/
theorem glsl_length_normalize {a : Vec3 ℝ} (h : a ≠ ⟨0, 0, 0⟩) :
    GLSL.length (normalize a) = 1 := by
  have hp := (glsl_length_pos_iff a).mpr h
  have hl : GLSL.length a * GLSL.length a = dot a a := by
    unfold GLSL.length
    exact Real.mul_self_sqrt (glsl_dot_self_nonneg a)
  unfold GLSL.normalize
  have : dot (a / GLSL.length a) (a / GLSL.length a) = 1 := by
    rw [glsl_dot_divs_left, glsl_dot_divs_right, ← hl]
    field_simp
  show Real.sqrt (dot (a / GLSL.length a) (a / GLSL.length a)) = 1
  rw [this, Real.sqrt_one]

/-- Normalising the zero vector divides zero by zero. -/
theorem glsl_normalize_zero : GLSL.normalize (⟨0, 0, 0⟩ : Vec3 ℝ) = ⟨0, 0, 0⟩ := by
  unfold GLSL.normalize
  ext <;> simp [vec3_divs_x, vec3_divs_y, vec3_divs_z]

theorem glsl_length_zero : GLSL.length (⟨0, 0, 0⟩ : Vec3 ℝ) = 0 := by
  show Real.sqrt (dot (⟨0, 0, 0⟩ : Vec3 ℝ) ⟨0, 0, 0⟩) = 0
  simp [dot]

/-- The row-vector product `n * W`, cut to `xyz`, is `transpose(W) * n` for
the linear part of `W`. -/
theorem glsl_mulMat_eq_transpose (n : Vec3 ℝ) (W : Mat4x3 ℝ) :
    (n * W).xyz = Vec3.ofFun (W.linear.transpose.mulVec n.toFun) := by
  rw [vec3_mulMat_xyz]
  ext <;>
  simp [Matrix.mulVec, Matrix.dotProduct, Fin.sum_univ_three, Mat4x3.linear, Vec3.toFun,
    Vec3.ofFun, dot] <;> ring

theorem glsl_linear_mul_entries {W M : Mat4x3 ℝ} (h : W.linear * M.linear = 1) :
    (W.c0.x * M.c0.x + W.c1.x * M.c0.y + W.c2.x * M.c0.z = 1
      ∧ W.c0.x * M.c1.x + W.c1.x * M.c1.y + W.c2.x * M.c1.z = 0
      ∧ W.c0.x * M.c2.x + W.c1.x * M.c2.y + W.c2.x * M.c2.z = 0)
    ∧ (W.c0.y * M.c0.x + W.c1.y * M.c0.y + W.c2.y * M.c0.z = 0
      ∧ W.c0.y * M.c1.x + W.c1.y * M.c1.y + W.c2.y * M.c1.z = 1
      ∧ W.c0.y * M.c2.x + W.c1.y * M.c2.y + W.c2.y * M.c2.z = 0)
    ∧ (W.c0.z * M.c0.x + W.c1.z * M.c0.y + W.c2.z * M.c0.z = 0
      ∧ W.c0.z * M.c1.x + W.c1.z * M.c1.y + W.c2.z * M.c1.z = 0
      ∧ W.c0.z * M.c2.x + W.c1.z * M.c2.y + W.c2.z * M.c2.z = 1) := by
  have e := fun i j => congrFun (congrFun h i) j
  have e00 := e 0 0
  have e01 := e 0 1
  have e02 := e 0 2
  have e10 := e 1 0
  have e11 := e 1 1
  have e12 := e 1 2
  have e20 := e 2 0
  have e21 := e 2 1
  have e22 := e 2 2
  simp [Matrix.mul_apply, Fin.sum_univ_three, Mat4x3.linear] at e00 e01 e02 e10 e11 e12 e20 e21 e22
  exact ⟨⟨e00, e01, e02⟩, ⟨e10, e11, e12⟩, ⟨e20, e21, e22⟩⟩

/-- The transformed normal against a transformed direction: when `W` inverts
`M`, `dot(transpose(W) n, M e) = dot(n, e)`. -/
theorem glsl_dot_transformed {W M : Mat4x3 ℝ} (h : W.linear * M.linear = 1) (n e : Vec3 ℝ) :
    dot (n * W).xyz (Vec3.ofFun (M.linear.mulVec e.toFun)) = dot n e := by
  obtain ⟨⟨h00, h01, h02⟩, ⟨h10, h11, h12⟩, ⟨h20, h21, h22⟩⟩ := glsl_linear_mul_entries h
  rw [vec3_mulMat_xyz]
  simp [Matrix.mulVec, Matrix.dotProduct, Fin.sum_univ_three, Mat4x3.linear, Vec3.toFun,
    Vec3.ofFun, dot]
  linear_combination (n.x * e.x) * h00 + (n.x * e.y) * h01 + (n.x * e.z) * h02
    + (n.y * e.x) * h10 + (n.y * e.y) * h11 + (n.y * e.z) * h12
    + (n.z * e.x) * h20 + (n.z * e.y) * h21 + (n.z * e.z) * h22

theorem glsl_cross_dot_left (a b : Vec3 ℝ) : dot (cross a b) a = 0 := by
  simp only [dot, cross]
  ring

theorem glsl_cross_dot_right (a b : Vec3 ℝ) : dot (cross a b) b = 0 := by
  simp only [dot, cross]
  ring

/-- A normal that is normalised and flipped stays orthogonal to whatever the
un-normalised normal was orthogonal to. -/
theorem glsl_resolved_normal_orthogonal (u d e : Vec3 ℝ) (h : dot u e = 0) :
    dot (faceforward (GLSL.normalize u) d (GLSL.normalize u)) e = 0 := by
  have hn : dot (GLSL.normalize u) e = 0 := by
    unfold GLSL.normalize
    rw [glsl_dot_divs_left, h, zero_div]
  rcases glsl_faceforward_cases (GLSL.normalize u) d (GLSL.normalize u) with hc | hc <;> rw [hc]
  · exact hn
  · rw [glsl_dot_neg_left, hn, neg_zero]

end Resolver

section ResolverClaims

variable (indices : List Nat) (vertices : List (Vec3 ℝ))

theorem sample_fetch :
    fetchTriangle sampleIndices sampleVertices 0
      = some ((⟨0, 0, 0⟩ : Vec3 ℝ), (⟨1, 0, 0⟩ : Vec3 ℝ), (⟨0, 1, 0⟩ : Vec3 ℝ)) := by
  simp [fetchTriangle, sampleIndices, sampleVertices]

theorem collinear_fetch :
    fetchTriangle sampleIndices collinearVertices 0
      = some ((⟨0, 0, 0⟩ : Vec3 ℝ), (⟨1, 0, 0⟩ : Vec3 ℝ), (⟨2, 0, 0⟩ : Vec3 ℝ)) := by
  simp [fetchTriangle, sampleIndices, collinearVertices]

/-- C3: for every hit whose triangle is fetched, and every incoming ray
direction, the `worldNormal` returned by `getObjectHitInfo` (ray-query and
closest-hit versions) satisfies `dot(worldNormal, rayDirection) <= 0`. -/
theorem getObjectHitInfo_normal_opposes_ray (rq : RayQuery ℝ) (gl : ClosestHitInputs ℝ)
    (t t3 : Vec3 ℝ × Vec3 ℝ × Vec3 ℝ)
    (hf : fetchTriangle indices vertices rq.intersectionPrimitiveIndex = some t)
    (hf3 : fetchTriangle indices vertices gl.gl_PrimitiveID = some t3) :
    (∃ h, RtPipeline1.getObjectHitInfo indices vertices rq = some h
        ∧ dot h.worldNormal rq.worldRayDirection ≤ 0)
    ∧ (∃ h, RtPipeline3.getObjectHitInfo indices vertices gl = some h
        ∧ dot h.worldNormal gl.gl_WorldRayDirectionEXT ≤ 0) := by
  obtain ⟨v0, v1, v2⟩ := t
  obtain ⟨w0, w1, w2⟩ := t3
  exact ⟨⟨_, rt1_getObjectHitInfo_of_fetch hf, glsl_faceforward_self_dot_le _ _⟩,
    ⟨_, rt3_getObjectHitInfo_of_fetch hf3, glsl_faceforward_self_dot_le _ _⟩⟩

/-- Witness for C3: the sample hit. -/
theorem getObjectHitInfo_normal_opposes_ray_witness :
    (∃ h, RtPipeline1.getObjectHitInfo sampleIndices sampleVertices sampleRayQuery = some h
        ∧ dot h.worldNormal sampleRayQuery.worldRayDirection ≤ 0)
    ∧ (∃ h, RtPipeline3.getObjectHitInfo sampleIndices sampleVertices sampleClosestHit = some h
        ∧ dot h.worldNormal sampleClosestHit.gl_WorldRayDirectionEXT ≤ 0) :=
  getObjectHitInfo_normal_opposes_ray sampleIndices sampleVertices sampleRayQuery
    sampleClosestHit _ _ sample_fetch sample_fetch

/-- C4, as stated, fails: for the triangle with the collinear vertices
`(0,0,0), (1,0,0), (2,0,0)` the geometric normal is the zero vector, which
`normalize` cannot bring to length 1 (GLSL leaves the result undefined; the
exact reading divides zero by zero and keeps the zero vector). -/
theorem getObjectHitInfo_normal_not_unit_collinear :
    ∃ h, RtPipeline1.getObjectHitInfo sampleIndices collinearVertices sampleRayQuery = some h
      ∧ (cross ((⟨1, 0, 0⟩ : Vec3 ℝ) - (⟨0, 0, 0⟩ : Vec3 ℝ))
            ((⟨2, 0, 0⟩ : Vec3 ℝ) - (⟨0, 0, 0⟩ : Vec3 ℝ))
          * sampleRayQuery.intersectionWorldToObject).xyz = ⟨0, 0, 0⟩
      ∧ GLSL.length h.worldNormal ≠ 1 := by
  have hz : (cross ((⟨1, 0, 0⟩ : Vec3 ℝ) - (⟨0, 0, 0⟩ : Vec3 ℝ))
            ((⟨2, 0, 0⟩ : Vec3 ℝ) - (⟨0, 0, 0⟩ : Vec3 ℝ))
      * sampleRayQuery.intersectionWorldToObject).xyz = ⟨0, 0, 0⟩ := by
    rw [vec3_mulMat_xyz]
    ext <;>
    simp [sampleRayQuery, identityTransform, cross, dot, vec3_sub_x, vec3_sub_y, vec3_sub_z]
  refine ⟨_, rt1_getObjectHitInfo_of_fetch collinear_fetch, hz, ?_⟩
  show GLSL.length (faceforward _ _ _) ≠ 1
  rw [glsl_length_faceforward, hz, glsl_normalize_zero, glsl_length_zero]
  norm_num

/-- C4, amended: whenever the transformed geometric normal
`(cross(v1 - v0, v2 - v0) * worldToObject).xyz` is not the zero vector, the
`worldNormal` returned by `getObjectHitInfo` has Euclidean length 1. -/
theorem getObjectHitInfo_normal_unit (rq : RayQuery ℝ) (v0 v1 v2 : Vec3 ℝ)
    (hf : fetchTriangle indices vertices rq.intersectionPrimitiveIndex = some (v0, v1, v2))
    (hn : (cross (v1 - v0) (v2 - v0) * rq.intersectionWorldToObject).xyz ≠ ⟨0, 0, 0⟩) :
    ∃ h, RtPipeline1.getObjectHitInfo indices vertices rq = some h
      ∧ GLSL.length h.worldNormal = 1 := by
  refine ⟨_, rt1_getObjectHitInfo_of_fetch hf, ?_⟩
  show GLSL.length (faceforward _ _ _) = 1
  rw [glsl_length_faceforward, glsl_length_normalize hn]

/-- Witness for the amended C4: the sample hit, whose normal is `(0, 0, 1)`. -/
theorem getObjectHitInfo_normal_unit_witness :
    ∃ h, RtPipeline1.getObjectHitInfo sampleIndices sampleVertices sampleRayQuery = some h
      ∧ GLSL.length h.worldNormal = 1 :=
  getObjectHitInfo_normal_unit sampleIndices sampleVertices sampleRayQuery _ _ _ sample_fetch
    (by
      rw [vec3_mulMat_xyz]
      intro h
      have := congrArg Vec3.z h
      simp [sampleRayQuery, identityTransform, cross, dot, vec3_sub_x, vec3_sub_y,
        vec3_sub_z] at this)

/-- C5: `getObjectHitInfo` (ray-query and closest-hit versions) transforms the
geometric normal by the inverse transpose of the object-to-world transform:
the un-normalised world normal is `transpose(W) * cross(v1 - v0, v2 - v0)` for
the world-to-object linear part `W`, and when `W` is the inverse of the
object-to-world linear part `M` the returned `worldNormal` is orthogonal to
both world-space edges `M (v1 - v0)` and `M (v2 - v0)`. -/
theorem getObjectHitInfo_normal_inverse_transpose (rq : RayQuery ℝ) (gl : ClosestHitInputs ℝ)
    (v0 v1 v2 w0 w1 w2 : Vec3 ℝ)
    (hf : fetchTriangle indices vertices rq.intersectionPrimitiveIndex = some (v0, v1, v2))
    (hf3 : fetchTriangle indices vertices gl.gl_PrimitiveID = some (w0, w1, w2))
    (hinv : rq.intersectionWorldToObject.linear * rq.intersectionObjectToWorld.linear = 1)
    (hinv3 : gl.gl_WorldToObjectEXT.linear * gl.gl_ObjectToWorldEXT.linear = 1) :
    (∃ h, RtPipeline1.getObjectHitInfo indices vertices rq = some h
      ∧ h.worldNormal
          = faceforward
              (GLSL.normalize (Vec3.ofFun (rq.intersectionWorldToObject.linear.transpose.mulVec
                (cross (v1 - v0) (v2 - v0)).toFun)))
              rq.worldRayDirection
              (GLSL.normalize (Vec3.ofFun (rq.intersectionWorldToObject.linear.transpose.mulVec
                (cross (v1 - v0) (v2 - v0)).toFun)))
      ∧ dot h.worldNormal
          (Vec3.ofFun (rq.intersectionObjectToWorld.linear.mulVec (v1 - v0).toFun)) = 0
      ∧ dot h.worldNormal
          (Vec3.ofFun (rq.intersectionObjectToWorld.linear.mulVec (v2 - v0).toFun)) = 0)
    ∧ (∃ h, RtPipeline3.getObjectHitInfo indices vertices gl = some h
      ∧ h.worldNormal
          = faceforward
              (GLSL.normalize (Vec3.ofFun (gl.gl_WorldToObjectEXT.linear.transpose.mulVec
                (cross (w1 - w0) (w2 - w0)).toFun)))
              gl.gl_WorldRayDirectionEXT
              (GLSL.normalize (Vec3.ofFun (gl.gl_WorldToObjectEXT.linear.transpose.mulVec
                (cross (w1 - w0) (w2 - w0)).toFun)))
      ∧ dot h.worldNormal
          (Vec3.ofFun (gl.gl_ObjectToWorldEXT.linear.mulVec (w1 - w0).toFun)) = 0
      ∧ dot h.worldNormal
          (Vec3.ofFun (gl.gl_ObjectToWorldEXT.linear.mulVec (w2 - w0).toFun)) = 0) := by
  refine ⟨⟨_, rt1_getObjectHitInfo_of_fetch hf, ?_, ?_, ?_⟩,
    ⟨_, rt3_getObjectHitInfo_of_fetch hf3, ?_, ?_, ?_⟩⟩
  · show faceforward _ _ _ = _
    rw [glsl_mulMat_eq_transpose]
  · exact glsl_resolved_normal_orthogonal _ _ _
      ((glsl_dot_transformed hinv _ _).trans (glsl_cross_dot_left _ _))
  · exact glsl_resolved_normal_orthogonal _ _ _
      ((glsl_dot_transformed hinv _ _).trans (glsl_cross_dot_right _ _))
  · show faceforward _ _ _ = _
    rw [glsl_mulMat_eq_transpose]
  · exact glsl_resolved_normal_orthogonal _ _ _
      ((glsl_dot_transformed hinv3 _ _).trans (glsl_cross_dot_left _ _))
  · exact glsl_resolved_normal_orthogonal _ _ _
      ((glsl_dot_transformed hinv3 _ _).trans (glsl_cross_dot_right _ _))

theorem stretch_inverse : stretchInverse.linear * stretchTransform.linear = 1 := by
  ext i j
  fin_cases i <;> fin_cases j <;>
  simp [Matrix.mul_apply, Fin.sum_univ_three, Mat4x3.linear, stretchInverse, stretchTransform,
    Matrix.vecHead, Matrix.vecTail]

/-- Witness for C5: the sample triangle in a stretched and translated
instance. -/
theorem getObjectHitInfo_normal_inverse_transpose_witness :
    (∃ h, RtPipeline1.getObjectHitInfo sampleIndices sampleVertices stretchedRayQuery = some h
      ∧ h.worldNormal
          = faceforward
              (GLSL.normalize (Vec3.ofFun (stretchInverse.linear.transpose.mulVec
                (cross ((⟨1, 0, 0⟩ : Vec3 ℝ) - (⟨0, 0, 0⟩ : Vec3 ℝ))
                  ((⟨0, 1, 0⟩ : Vec3 ℝ) - (⟨0, 0, 0⟩ : Vec3 ℝ))).toFun)))
              stretchedRayQuery.worldRayDirection
              (GLSL.normalize (Vec3.ofFun (stretchInverse.linear.transpose.mulVec
                (cross ((⟨1, 0, 0⟩ : Vec3 ℝ) - (⟨0, 0, 0⟩ : Vec3 ℝ))
                  ((⟨0, 1, 0⟩ : Vec3 ℝ) - (⟨0, 0, 0⟩ : Vec3 ℝ))).toFun)))
      ∧ dot h.worldNormal (Vec3.ofFun (stretchTransform.linear.mulVec
          ((⟨1, 0, 0⟩ : Vec3 ℝ) - (⟨0, 0, 0⟩ : Vec3 ℝ)).toFun)) = 0
      ∧ dot h.worldNormal (Vec3.ofFun (stretchTransform.linear.mulVec
          ((⟨0, 1, 0⟩ : Vec3 ℝ) - (⟨0, 0, 0⟩ : Vec3 ℝ)).toFun)) = 0)
    ∧ (∃ h, RtPipeline3.getObjectHitInfo sampleIndices sampleVertices stretchedClosestHit = some h
      ∧ h.worldNormal
          = faceforward
              (GLSL.normalize (Vec3.ofFun (stretchInverse.linear.transpose.mulVec
                (cross ((⟨1, 0, 0⟩ : Vec3 ℝ) - (⟨0, 0, 0⟩ : Vec3 ℝ))
                  ((⟨0, 1, 0⟩ : Vec3 ℝ) - (⟨0, 0, 0⟩ : Vec3 ℝ))).toFun)))
              stretchedClosestHit.gl_WorldRayDirectionEXT
              (GLSL.normalize (Vec3.ofFun (stretchInverse.linear.transpose.mulVec
                (cross ((⟨1, 0, 0⟩ : Vec3 ℝ) - (⟨0, 0, 0⟩ : Vec3 ℝ))
                  ((⟨0, 1, 0⟩ : Vec3 ℝ) - (⟨0, 0, 0⟩ : Vec3 ℝ))).toFun)))
      ∧ dot h.worldNormal (Vec3.ofFun (stretchTransform.linear.mulVec
          ((⟨1, 0, 0⟩ : Vec3 ℝ) - (⟨0, 0, 0⟩ : Vec3 ℝ)).toFun)) = 0
      ∧ dot h.worldNormal (Vec3.ofFun (stretchTransform.linear.mulVec
          ((⟨0, 1, 0⟩ : Vec3 ℝ) - (⟨0, 0, 0⟩ : Vec3 ℝ)).toFun)) = 0) :=
  getObjectHitInfo_normal_inverse_transpose sampleIndices sampleVertices stretchedRayQuery
    stretchedClosestHit _ _ _ _ _ _ sample_fetch sample_fetch stretch_inverse stretch_inverse

theorem rt1_barycentrics (b : Vec2 ℝ) :
    RtPipeline1.hitBarycentrics b = ⟨1 - b.x - b.y, b.x, b.y⟩ := by
  simp only [RtPipeline1.hitBarycentrics, lit_one]

theorem rt3_barycentrics (b : Vec2 ℝ) :
    RtPipeline3.hitBarycentrics b = ⟨1 - b.x - b.y, b.x, b.y⟩ := by
  simp only [RtPipeline3.hitBarycentrics, lit_one]

theorem rt1_getObjectHitInfo_none {rq : RayQuery ℝ}
    (hf : fetchTriangle indices vertices rq.intersectionPrimitiveIndex = none) :
    RtPipeline1.getObjectHitInfo indices vertices rq = none := by
  unfold fetchTriangle at hf
  unfold RtPipeline1.getObjectHitInfo
  cases h0 : indices[3 * rq.intersectionPrimitiveIndex + 0]? <;>
  cases h1 : indices[3 * rq.intersectionPrimitiveIndex + 1]? <;>
  cases h2 : indices[3 * rq.intersectionPrimitiveIndex + 2]? <;>
  simp only [h0, h1, h2] at hf <;> simp only [Nat.add_zero] at h0 <;>
  try simp [h0, h1, h2]
  rename_i i0 i1 i2
  cases g0 : vertices[i0]? <;> cases g1 : vertices[i1]? <;> cases g2 : vertices[i2]? <;>
  simp only [g0, g1, g2] at hf <;> try simp [g0, g1, g2]
  cases hf

theorem rt3_getObjectHitInfo_none {gl : ClosestHitInputs ℝ}
    (hf : fetchTriangle indices vertices gl.gl_PrimitiveID = none) :
    RtPipeline3.getObjectHitInfo indices vertices gl = none := by
  unfold fetchTriangle at hf
  unfold RtPipeline3.getObjectHitInfo
  cases h0 : indices[3 * gl.gl_PrimitiveID + 0]? <;>
  cases h1 : indices[3 * gl.gl_PrimitiveID + 1]? <;>
  cases h2 : indices[3 * gl.gl_PrimitiveID + 2]? <;>
  simp only [h0, h1, h2] at hf <;> simp only [Nat.add_zero] at h0 <;>
  try simp [h0, h1, h2]
  rename_i i0 i1 i2
  cases g0 : vertices[i0]? <;> cases g1 : vertices[i1]? <;> cases g2 : vertices[i2]? <;>
  simp only [g0, g1, g2] at hf <;> try simp [g0, g1, g2]
  cases hf

/-- C6: in `getObjectHitInfo` (ray-query and closest-hit versions) the weights
`y` and `z` are the two barycentric inputs of the hit, the third weight is
`x = 1 - y - z`, the three weights sum to 1, and these are the weights with
which the resolver combines the vertices of the fetched triangle. -/
theorem hitBarycentrics_sum_one (b : Vec2 ℝ) (rq : RayQuery ℝ) (gl : ClosestHitInputs ℝ) :
    ((RtPipeline1.hitBarycentrics b).y = b.x ∧ (RtPipeline1.hitBarycentrics b).z = b.y
      ∧ (RtPipeline1.hitBarycentrics b).x
          = 1 - (RtPipeline1.hitBarycentrics b).y - (RtPipeline1.hitBarycentrics b).z
      ∧ (RtPipeline1.hitBarycentrics b).x + (RtPipeline1.hitBarycentrics b).y
          + (RtPipeline1.hitBarycentrics b).z = 1)
    ∧ ((RtPipeline3.hitBarycentrics b).y = b.x ∧ (RtPipeline3.hitBarycentrics b).z = b.y
      ∧ (RtPipeline3.hitBarycentrics b).x
          = 1 - (RtPipeline3.hitBarycentrics b).y - (RtPipeline3.hitBarycentrics b).z
      ∧ (RtPipeline3.hitBarycentrics b).x + (RtPipeline3.hitBarycentrics b).y
          + (RtPipeline3.hitBarycentrics b).z = 1)
    ∧ (RtPipeline1.getObjectHitInfo indices vertices rq).map (fun h => h.objectPosition)
        = (fetchTriangle indices vertices rq.intersectionPrimitiveIndex).map
            (fun (t : Vec3 ℝ × Vec3 ℝ × Vec3 ℝ) =>
              (t.1 * (RtPipeline1.hitBarycentrics rq.intersectionBarycentrics).x
              + t.2.1 * (RtPipeline1.hitBarycentrics rq.intersectionBarycentrics).y
              + t.2.2 * (RtPipeline1.hitBarycentrics rq.intersectionBarycentrics).z : Vec3 ℝ))
    ∧ (RtPipeline3.getObjectHitInfo indices vertices gl).map (fun h => h.objectPosition)
        = (fetchTriangle indices vertices gl.gl_PrimitiveID).map
            (fun (t : Vec3 ℝ × Vec3 ℝ × Vec3 ℝ) =>
              (t.1 * (RtPipeline3.hitBarycentrics gl.attributes).x
              + t.2.1 * (RtPipeline3.hitBarycentrics gl.attributes).y
              + t.2.2 * (RtPipeline3.hitBarycentrics gl.attributes).z : Vec3 ℝ)) := by
  refine ⟨?_, ?_, ?_, ?_⟩
  · rw [rt1_barycentrics]
    refine ⟨rfl, rfl, rfl, ?_⟩
    ring
  · rw [rt3_barycentrics]
    refine ⟨rfl, rfl, rfl, ?_⟩
    ring
  · cases hf : fetchTriangle indices vertices rq.intersectionPrimitiveIndex with
    | none => rw [rt1_getObjectHitInfo_none indices vertices hf]; rfl
    | some t =>
      obtain ⟨a, b, c⟩ := t
      rw [rt1_getObjectHitInfo_of_fetch hf]
      rfl
  · cases hf : fetchTriangle indices vertices gl.gl_PrimitiveID with
    | none => rw [rt3_getObjectHitInfo_none indices vertices hf]; rfl
    | some t =>
      obtain ⟨a, b, c⟩ := t
      rw [rt3_getObjectHitInfo_of_fetch hf]
      rfl

theorem affine_eq (M : Mat4x3 ℝ) (o : Vec3 ℝ) : M * vec4 o 1.0 = affineApply M o := by
  rw [mat_mul_vec4, lit_one]
  ext <;>
  simp only [affineApply, vec3_add_x, vec3_add_y, vec3_add_z, vec3_muls_x, vec3_muls_y,
    vec3_muls_z] <;> ring

/-- C7: `getObjectHitInfo` (ray-query and closest-hit versions) computes the
positions of the reference resolver: the triangle of primitive `p` is read
through `indices[3*p + k]` and `vertices[i_k]`, `objectPosition` is
`v0*(1 - b.y - b.z) + v1*b.y + v2*b.z`, `worldPosition` is its image under the
object-to-world affine transform, and the resolver fails exactly when a fetch
falls outside a buffer. The hit at barycentrics `(0,0)` is `v0`, at `(1,0)` it
is `v1`, at `(0,1)` it is `v2`. -/
theorem getObjectHitInfo_positions (rq : RayQuery ℝ) (gl : ClosestHitInputs ℝ)
    (v0 v1 v2 : Vec3 ℝ) :
    (RtPipeline1.getObjectHitInfo indices vertices rq).map
        (fun h => (h.objectPosition, h.worldPosition))
      = referencePositions indices vertices rq.intersectionPrimitiveIndex
          rq.intersectionBarycentrics rq.intersectionObjectToWorld
    ∧ (RtPipeline3.getObjectHitInfo indices vertices gl).map
        (fun h => (h.objectPosition, h.worldPosition))
      = referencePositions indices vertices gl.gl_PrimitiveID gl.attributes
          gl.gl_ObjectToWorldEXT
    ∧ referenceObjectPosition v0 v1 v2 ⟨0, 0⟩ = v0
    ∧ referenceObjectPosition v0 v1 v2 ⟨1, 0⟩ = v1
    ∧ referenceObjectPosition v0 v1 v2 ⟨0, 1⟩ = v2 := by
  refine ⟨?_, ?_, ?_, ?_, ?_⟩
  · unfold referencePositions
    cases hf : fetchTriangle indices vertices rq.intersectionPrimitiveIndex with
    | none => rw [rt1_getObjectHitInfo_none indices vertices hf]; rfl
    | some t =>
      obtain ⟨a, b, c⟩ := t
      rw [rt1_getObjectHitInfo_of_fetch hf]
      simp only [Option.map_some', rt1_barycentrics, affine_eq, referenceObjectPosition]
  · unfold referencePositions
    cases hf : fetchTriangle indices vertices gl.gl_PrimitiveID with
    | none => rw [rt3_getObjectHitInfo_none indices vertices hf]; rfl
    | some t =>
      obtain ⟨a, b, c⟩ := t
      rw [rt3_getObjectHitInfo_of_fetch hf]
      simp only [Option.map_some', rt3_barycentrics, affine_eq, referenceObjectPosition]
  · ext <;> simp [referenceObjectPosition, vec3_add_x, vec3_add_y, vec3_add_z, vec3_muls_x,
      vec3_muls_y, vec3_muls_z]
  · ext <;> simp [referenceObjectPosition, vec3_add_x, vec3_add_y, vec3_add_z, vec3_muls_x,
      vec3_muls_y, vec3_muls_z]
  · ext <;> simp [referenceObjectPosition, vec3_add_x, vec3_add_y, vec3_add_z, vec3_muls_x,
      vec3_muls_y, vec3_muls_z]

/-! ### The mirror material -/

theorem glsl_reflect_eq (d n : Vec3 ℝ) : reflect d n = d - (2 * dot d n) * n := by
  unfold reflect
  rw [lit_two, glsl_dot_comm n d]

theorem rt1_material1_of_hit {rq : RayQuery ℝ} {rngState : Nat} {h : RtPipeline1.HitInfo ℝ}
    (hh : RtPipeline1.getObjectHitInfo indices vertices rq = some h) :
    RtPipeline1.material1 indices vertices rq rngState
      = some (⟨vec3 0.7, RtPipeline1.offsetPositionAlongNormal h.worldPosition h.worldNormal,
          reflect rq.worldRayDirection h.worldNormal⟩, rngState) := by
  unfold RtPipeline1.material1
  rw [hh]
  rfl

/-- C10: the mirror material `material1` obeys the reflection law: for every
hit whose triangle is fetched, with incoming direction `d` and resolver
normal `n`, the returned direction is `d - 2*dot(d, n)*n`, the returned
colour is `(0.7, 0.7, 0.7)` and the returned origin is
`offsetPositionAlongNormal(worldPosition, n)`. -/
theorem material1_reflection_law (rq : RayQuery ℝ) (rngState : Nat)
    (t : Vec3 ℝ × Vec3 ℝ × Vec3 ℝ)
    (hf : fetchTriangle indices vertices rq.intersectionPrimitiveIndex = some t) :
    ∃ h r, RtPipeline1.getObjectHitInfo indices vertices rq = some h
      ∧ RtPipeline1.material1 indices vertices rq rngState = some (r, rngState)
      ∧ r.rayDirection
          = rq.worldRayDirection - (2 * dot rq.worldRayDirection h.worldNormal) * h.worldNormal
      ∧ r.color = ⟨0.7, 0.7, 0.7⟩
      ∧ r.rayOrigin = RtPipeline1.offsetPositionAlongNormal h.worldPosition h.worldNormal := by
  obtain ⟨v0, v1, v2⟩ := t
  have hh := rt1_getObjectHitInfo_of_fetch hf
  exact ⟨_, _, hh, rt1_material1_of_hit indices vertices hh, glsl_reflect_eq _ _, rfl, rfl⟩

/-- Witness for C10: the sample hit. -/
theorem material1_reflection_law_witness :
    ∃ h r, RtPipeline1.getObjectHitInfo sampleIndices sampleVertices sampleRayQuery = some h
      ∧ RtPipeline1.material1 sampleIndices sampleVertices sampleRayQuery 5 = some (r, 5)
      ∧ r.rayDirection
          = sampleRayQuery.worldRayDirection
            - (2 * dot sampleRayQuery.worldRayDirection h.worldNormal) * h.worldNormal
      ∧ r.color = ⟨0.7, 0.7, 0.7⟩
      ∧ r.rayOrigin = RtPipeline1.offsetPositionAlongNormal h.worldPosition h.worldNormal :=
  material1_reflection_law sampleIndices sampleVertices sampleRayQuery 5 _ sample_fetch

end ResolverClaims

/-! ### Rounding to binary32 -/

theorem bitLenAux_lt (fuel n : Nat) (h : n ≤ fuel) : n < 2 ^ bitLenAux fuel n := by
  induction fuel generalizing n with
  | zero =>
    have : n = 0 := by omega
    subst this
    simp [bitLenAux]
  | succ k ih =>
    unfold bitLenAux
    split
    · next h0 => subst h0; simp
    · next h0 =>
      have h1 : n / 2 ≤ k := by omega
      have := ih (n / 2) h1
      rw [pow_succ]
      omega

theorem bitLenAux_ge (fuel n : Nat) (h : n ≤ fuel) (hn : 0 < n) :
    2 ^ (bitLenAux fuel n - 1) ≤ n := by
  induction fuel generalizing n with
  | zero => omega
  | succ k ih =>
    unfold bitLenAux
    rw [if_neg (by omega)]
    simp only [Nat.add_sub_cancel]
    by_cases h2 : n / 2 = 0
    · rw [h2]
      cases k <;> simp [bitLenAux] <;> omega
    · have h1 : n / 2 ≤ k := by omega
      have := ih (n / 2) h1 (by omega)
      have hk : bitLenAux k (n / 2) ≠ 0 := by
        cases k with
        | zero => omega
        | succ j => unfold bitLenAux; rw [if_neg h2]; omega
      obtain ⟨j, hj⟩ := Nat.exists_eq_succ_of_ne_zero hk
      rw [hj] at this ⊢
      simp only [Nat.succ_eq_add_one, Nat.add_sub_cancel] at this
      rw [Nat.succ_eq_add_one, pow_succ]
      omega

theorem bitLen_lt (n : Nat) : n < 2 ^ bitLen n := bitLenAux_lt n n le_rfl

theorem bitLen_ge (n : Nat) (hn : 0 < n) : 2 ^ (bitLen n - 1) ≤ n := bitLenAux_ge n n le_rfl hn

/-- Value of a pattern written as `d * 2^23 + q`, with `q` the significand:
`q * 2^d`, whenever `q` is a valid significand for that exponent. -/
theorem magValue_pattern (d q : Nat) (hq : q ≤ 16777216) (hd : d = 0 ∨ 8388608 ≤ q) :
    magValue (d * 8388608 + q) = q * 2 ^ d := by
  unfold magValue
  by_cases h24 : q = 16777216
  · subst h24
    have h1 : (d * 8388608 + 16777216) / 8388608 = d + 2 := by omega
    have h2 : (d * 8388608 + 16777216) % 8388608 = 0 := by omega
    rw [h1, h2, if_neg (by omega)]
    simp only [Nat.add_sub_cancel, Nat.add_zero, show d + 2 - 1 = d + 1 by omega, pow_succ]
    ring
  · by_cases h23 : 8388608 ≤ q
    · have h1 : (d * 8388608 + q) / 8388608 = d + 1 := by omega
      have h2 : (d * 8388608 + q) % 8388608 = q - 8388608 := by omega
      rw [h1, h2, if_neg (by omega)]
      simp only [Nat.add_sub_cancel]
      have h3 : 8388608 + (q - 8388608) = q := by omega
      rw [h3]
    · have hd0 : d = 0 := by omega
      subst hd0
      have h1 : (0 * 8388608 + q) / 8388608 = 0 := by omega
      have h2 : (0 * 8388608 + q) % 8388608 = q := by omega
      rw [h1, h2, if_pos rfl]
      simp

/-- Every pattern splits into an exponent shift and a significand. -/
theorem pattern_split (m : Nat) :
    ∃ d q, m = d * 8388608 + q ∧ q < 16777216 ∧ (d = 0 ∨ 8388608 ≤ q)
      ∧ d = m / 8388608 - 1 := by
  by_cases h : m / 8388608 = 0
  · exact ⟨0, m, by omega, by omega, Or.inl rfl, by omega⟩
  · exact ⟨m / 8388608 - 1, m % 8388608 + 8388608, by omega, by omega, Or.inr (by omega), rfl⟩

/-- The step from a pattern to the next one is one unit in the last place. -/
theorem magValue_succ (m : Nat) : magValue (m + 1) = magValue m + 2 ^ (m / 8388608 - 1) := by
  obtain ⟨d, q, hm, hq, hd, hde⟩ := pattern_split m
  rw [← hde, hm, magValue_pattern d q (by omega) hd, Nat.add_assoc,
    magValue_pattern d (q + 1) (by omega) (by omega)]
  ring

theorem magValue_lt_succ (m : Nat) : magValue m < magValue (m + 1) := by
  rw [magValue_succ]
  have : 0 < 2 ^ (m / 8388608 - 1) := Nat.pow_pos (by norm_num)
  omega

theorem magValue_strictMono : StrictMono magValue := strictMono_nat_of_lt_succ magValue_lt_succ

theorem magValue_lt_iff {a b : Nat} : magValue a < magValue b ↔ a < b :=
  magValue_strictMono.lt_iff_lt

theorem magValue_le_iff {a b : Nat} : magValue a ≤ magValue b ↔ a ≤ b :=
  magValue_strictMono.le_iff_le

/-- Below `1/32` neighbouring patterns are at most `2^-29` apart. -/
theorem magValue_succ_le_near (m : Nat) (h : m < 1023410176) :
    magValue (m + 1) ≤ magValue m + 2 ^ 120 := by
  rw [magValue_succ]
  have : m / 8388608 - 1 ≤ 120 := by omega
  have := Nat.pow_le_pow_right (show 0 < 2 by norm_num) this
  omega

theorem roundShift_cases (n shift : Nat) :
    roundShift n shift = n / 2 ^ shift ∨ roundShift n shift = n / 2 ^ shift + 1 := by
  unfold roundShift
  simp only
  split
  · exact Or.inl rfl
  · split
    · exact Or.inr rfl
    · split
      · exact Or.inl rfl
      · exact Or.inr rfl

theorem roundShift_exact (n shift : Nat) (h : n % 2 ^ shift = 0) :
    roundShift n shift = n / 2 ^ shift := by
  unfold roundShift
  simp only [h]
  rw [if_pos]
  have : 0 < 2 ^ shift := Nat.pow_pos (by norm_num)
  omega

/-- The shift chosen by `roundMagRaw` leaves a quotient of at most 24 bits,
and of exactly 24 bits when the value is above the subnormal range. -/
theorem roundMag_shift_spec (n s : Nat) :
    ∃ shift, shift = (if bitLen n ≤ 24 + s then s else bitLen n - 24)
      ∧ s ≤ shift ∧ n / 2 ^ shift < 16777216
      ∧ (shift - s = 0 ∨ 8388608 ≤ n / 2 ^ shift) := by
  refine ⟨_, rfl, ?_, ?_, ?_⟩
  · split <;> omega
  · split
    · next h =>
      rw [Nat.div_lt_iff_lt_mul (Nat.pow_pos (by norm_num))]
      calc n < 2 ^ bitLen n := bitLen_lt n
        _ ≤ 2 ^ (24 + s) := Nat.pow_le_pow_right (by norm_num) h
        _ = 16777216 * 2 ^ s := by rw [pow_add]; norm_num
    · next h =>
      rw [Nat.div_lt_iff_lt_mul (Nat.pow_pos (by norm_num))]
      calc n < 2 ^ bitLen n := bitLen_lt n
        _ = 2 ^ (24 + (bitLen n - 24)) := by congr 1; omega
        _ = 16777216 * 2 ^ (bitLen n - 24) := by rw [pow_add]; norm_num
  · split
    · exact Or.inl (by omega)
    · next h =>
      right
      rw [Nat.le_div_iff_mul_le (Nat.pow_pos (by norm_num))]
      have hn : 0 < n := by
        rcases Nat.eq_zero_or_pos n with h0 | h0
        · subst h0
          simp [bitLen, bitLenAux] at h
        · exact h0
      calc 8388608 * 2 ^ (bitLen n - 24) = 2 ^ (23 + (bitLen n - 24)) := by
            rw [pow_add]; norm_num
        _ = 2 ^ (bitLen n - 1) := by congr 1; omega
        _ ≤ n := bitLen_ge n hn

/-- The bracket of `roundMagRaw`: a pattern `lo` whose value is the largest
binary32 magnitude not above `n * 2^-s`, the result being `lo` or its
successor, and `lo` itself when `n * 2^-s` is representable. -/
theorem roundMagRaw_bracket (n s : Nat) :
    ∃ lo, magValue lo * 2 ^ s ≤ n ∧ n < magValue (lo + 1) * 2 ^ s
      ∧ (roundMagRaw n s = lo ∨ roundMagRaw n s = lo + 1)
      ∧ (n = magValue lo * 2 ^ s → roundMagRaw n s = lo) := by
  obtain ⟨shift, hshift, hs, hq, hd⟩ := roundMag_shift_spec n s
  have hraw : roundMagRaw n s = (shift - s) * 8388608 + roundShift n shift := by
    unfold roundMagRaw
    simp only [← hshift]
  have hpow : 2 ^ (shift - s) * 2 ^ s = 2 ^ shift := by
    rw [← pow_add]
    congr 1
    omega
  have hpos : 0 < 2 ^ shift := Nat.pow_pos (by norm_num)
  have hlo : magValue ((shift - s) * 8388608 + n / 2 ^ shift) = n / 2 ^ shift * 2 ^ (shift - s) :=
    magValue_pattern _ _ (by omega) hd
  have hhi : magValue ((shift - s) * 8388608 + n / 2 ^ shift + 1)
      = (n / 2 ^ shift + 1) * 2 ^ (shift - s) := by
    rw [Nat.add_assoc]
    exact magValue_pattern _ _ (by omega) (by omega)
  refine ⟨(shift - s) * 8388608 + n / 2 ^ shift, ?_, ?_, ?_, ?_⟩
  · rw [hlo, Nat.mul_assoc, hpow]
    exact Nat.div_mul_le_self n _
  · rw [hhi, Nat.mul_assoc, hpow]
    have := Nat.lt_mul_div_succ n hpos
    rw [Nat.mul_comm] at this
    exact this
  · rw [hraw]
    rcases roundShift_cases n shift with h | h <;> rw [h]
    · exact Or.inl rfl
    · exact Or.inr (by omega)
  · intro he
    rw [hlo, Nat.mul_assoc, hpow] at he
    rw [hraw, roundShift_exact n shift]
    rw [he]
    exact Nat.mul_mod_left _ _

/-- Rounding never goes below a representable magnitude that the exact value
reaches. -/
theorem roundMagRaw_ge (n s w : Nat) (h : magValue w * 2 ^ s ≤ n) : w ≤ roundMagRaw n s := by
  obtain ⟨lo, -, hhi, hr, -⟩ := roundMagRaw_bracket n s
  have hlt : magValue w * 2 ^ s < magValue (lo + 1) * 2 ^ s := lt_of_le_of_lt h hhi
  have hw : w < lo + 1 := magValue_lt_iff.mp (Nat.lt_of_mul_lt_mul_right hlt)
  rcases hr with hr | hr <;> omega

/-- Rounding never goes above a representable magnitude that bounds the exact
value. -/
theorem roundMagRaw_le (n s w : Nat) (h : n ≤ magValue w * 2 ^ s) : roundMagRaw n s ≤ w := by
  obtain ⟨lo, hlo, -, hr, hex⟩ := roundMagRaw_bracket n s
  have hpos : 0 < 2 ^ s := Nat.pow_pos (by norm_num)
  have hle : magValue lo * 2 ^ s ≤ magValue w * 2 ^ s := le_trans hlo h
  have hlw : lo ≤ w := magValue_le_iff.mp (Nat.le_of_mul_le_mul_right hle hpos)
  rcases Nat.lt_or_ge lo w with hlt | hge
  · rcases hr with hr | hr <;> omega
  · have hweq : w = lo := by omega
    subst hweq
    rw [hex (le_antisymm h hlo)]

theorem roundMag_le_inf (n s : Nat) : roundMag n s ≤ 2139095040 := by
  unfold roundMag
  split <;> omega

theorem roundMag_ge (n s w : Nat) (hw : w ≤ 2139095040) (h : magValue w * 2 ^ s ≤ n) :
    w ≤ roundMag n s := by
  have := roundMagRaw_ge n s w h
  unfold roundMag
  split <;> omega

theorem roundMag_le (n s w : Nat) (h : n ≤ magValue w * 2 ^ s) : roundMag n s ≤ w := by
  have := roundMagRaw_le n s w h
  unfold roundMag
  split <;> omega

theorem ratioQuarters_ge (a b W : Nat) (hb : 0 < b) (h : W * b ≤ a) :
    W * 2 ^ 2 ≤ ratioQuarters a b := by
  unfold ratioQuarters
  have : 2 * W ≤ 2 * a / b := by
    rw [Nat.le_div_iff_mul_le hb]
    nlinarith
  omega

theorem ratioQuarters_le (a b W : Nat) (h : a ≤ W * b) :
    ratioQuarters a b ≤ W * 2 ^ 2 := by
  unfold ratioQuarters
  have h1 : 2 * a / b ≤ 2 * W := by
    apply Nat.div_le_of_le_mul
    nlinarith
  rcases Nat.lt_or_ge (2 * a / b) (2 * W) with hlt | hge
  · split <;> omega
  · have heq : 2 * a / b = 2 * W := by omega
    have h2 : 2 * W * b ≤ 2 * a := by
      rw [← heq]
      exact Nat.div_mul_le_self _ _
    have h3 : 2 * a = b * (2 * W) := by nlinarith
    rw [if_pos (by rw [h3]; exact Nat.mul_mod_right _ _)]
    omega

/-- The quotient in quarter units depends on the ratio only. -/
theorem ratioQuarters_scale (k a b : Nat) (hk : 0 < k) :
    ratioQuarters (k * a) (k * b) = ratioQuarters a b := by
  unfold ratioQuarters
  have h1 : 2 * (k * a) = k * (2 * a) := by ring
  rw [h1, Nat.mul_div_mul_left _ _ hk, Nat.mul_mod_mul_left]
  have h2 : (k * (2 * a % b) = 0) ↔ (2 * a % b = 0) := by
    constructor
    · intro h
      rcases Nat.mul_eq_zero.mp h with h | h
      · omega
      · exact h
    · intro h
      rw [h]
      rfl
  simp only [h2]

namespace F32

theorem sign_cases (x : F32) : x.sign = 0 ∨ x.sign = 1 := by
  unfold sign
  omega

theorem mag_lt (x : F32) : x.mag < 2147483648 := Nat.mod_lt _ (by norm_num)

theorem scaled_of_sign_zero {x : F32} (h : x.sign = 0) : x.scaled = (magValue x.mag : Int) := by
  unfold scaled scaledAbs
  rw [if_neg (by omega)]

theorem scaled_of_sign_one {x : F32} (h : x.sign = 1) : x.scaled = -(magValue x.mag : Int) := by
  unfold scaled scaledAbs
  rw [if_pos h]

theorem ofRatio_sign (neg : Bool) (a b : Nat) :
    (ofRatio neg a b).sign = if neg then 1 else 0 := by
  have := roundMag_le_inf (ratioQuarters a b) 2
  unfold ofRatio sign
  cases neg <;> simp <;> omega

theorem ofRatio_mag (neg : Bool) (a b : Nat) :
    (ofRatio neg a b).mag = roundMag (ratioQuarters a b) 2 := by
  have := roundMag_le_inf (ratioQuarters a b) 2
  unfold ofRatio mag
  cases neg <;> simp <;> omega

theorem ofRatio_scaled (neg : Bool) (a b : Nat) :
    (ofRatio neg a b).scaled
      = if neg then -(magValue (roundMag (ratioQuarters a b) 2) : Int)
        else (magValue (roundMag (ratioQuarters a b) 2) : Int) := by
  cases neg
  · rw [scaled_of_sign_zero (by rw [ofRatio_sign]; rfl), ofRatio_mag]
    rfl
  · rw [scaled_of_sign_one (by rw [ofRatio_sign]; rfl), ofRatio_mag]
    rfl

/-- Rounding a ratio never goes below a representable value that the ratio
reaches. -/
theorem ofRatio_scaled_ge (neg : Bool) (a b : Nat) (hb : 0 < b) (w : F32)
    (hw : w.mag ≤ 2139095040)
    (h : w.scaled * (b : Int) ≤ (if neg then -(a : Int) else (a : Int))) :
    w.scaled ≤ (ofRatio neg a b).scaled := by
  rw [ofRatio_scaled]
  have hbz : (0 : Int) < (b : Int) := by exact_mod_cast hb
  rcases sign_cases w with hs | hs
  · rw [scaled_of_sign_zero hs] at h ⊢
    cases neg
    · simp only [Bool.false_eq_true, if_false] at h ⊢
      have h' : magValue w.mag * b ≤ a := by exact_mod_cast h
      have := roundMag_ge _ 2 w.mag hw (ratioQuarters_ge a b _ hb h')
      exact_mod_cast magValue_le_iff.mpr this
    · simp only [if_true] at h ⊢
      have h1 : (0 : Int) ≤ (magValue w.mag : Int) * (b : Int) := by positivity
      have h2 : (0 : Int) ≤ (a : Int) := by positivity
      have ha : a = 0 := by omega
      have hm : magValue w.mag = 0 := by
        have : (magValue w.mag : Int) * (b : Int) = 0 := by omega
        rcases mul_eq_zero.mp this with h3 | h3
        · exact_mod_cast h3
        · omega
      subst ha
      have hr : roundMag (ratioQuarters 0 b) 2 ≤ 0 :=
        roundMag_le _ 2 0 (by simp [ratioQuarters, magValue])
      have hr0 : roundMag (ratioQuarters 0 b) 2 = 0 := by omega
      rw [hr0, hm]
      simp [magValue]
  · rw [scaled_of_sign_one hs] at h ⊢
    cases neg
    · simp only [Bool.false_eq_true, if_false] at h ⊢
      have h1 : (0 : Int) ≤ (magValue (roundMag (ratioQuarters a b) 2) : Int) := by positivity
      have h2 : (0 : Int) ≤ (magValue w.mag : Int) := by positivity
      omega
    · simp only [if_true] at h ⊢
      have h' : a ≤ magValue w.mag * b := by
        have : (a : Int) ≤ (magValue w.mag : Int) * (b : Int) := by linarith
        exact_mod_cast this
      have := roundMag_le _ 2 w.mag (ratioQuarters_le a b _ h')
      have := magValue_le_iff.mpr this
      omega

/-- Rounding a ratio never goes above a representable value that bounds the
ratio. -/
theorem ofRatio_scaled_le (neg : Bool) (a b : Nat) (hb : 0 < b) (w : F32)
    (hw : w.mag ≤ 2139095040)
    (h : (if neg then -(a : Int) else (a : Int)) ≤ w.scaled * (b : Int)) :
    (ofRatio neg a b).scaled ≤ w.scaled := by
  rw [ofRatio_scaled]
  have hbz : (0 : Int) < (b : Int) := by exact_mod_cast hb
  rcases sign_cases w with hs | hs
  · rw [scaled_of_sign_zero hs] at h ⊢
    cases neg
    · simp only [Bool.false_eq_true, if_false] at h ⊢
      have h' : a ≤ magValue w.mag * b := by exact_mod_cast h
      have := roundMag_le _ 2 w.mag (ratioQuarters_le a b _ h')
      exact_mod_cast magValue_le_iff.mpr this
    · simp only [if_true] at h ⊢
      have h1 : (0 : Int) ≤ (magValue (roundMag (ratioQuarters a b) 2) : Int) := by positivity
      have h2 : (0 : Int) ≤ (magValue w.mag : Int) := by positivity
      omega
  · rw [scaled_of_sign_one hs] at h ⊢
    cases neg
    · simp only [Bool.false_eq_true, if_false] at h ⊢
      have h1 : (0 : Int) ≤ (magValue w.mag : Int) * (b : Int) := by positivity
      have h2 : (0 : Int) ≤ (a : Int) := by positivity
      have ha : a = 0 := by linarith
      have hm : magValue w.mag = 0 := by
        have : (magValue w.mag : Int) * (b : Int) = 0 := by linarith
        rcases mul_eq_zero.mp this with h3 | h3
        · exact_mod_cast h3
        · omega
      subst ha
      have hr : roundMag (ratioQuarters 0 b) 2 ≤ 0 :=
        roundMag_le _ 2 0 (by simp [ratioQuarters, magValue])
      have hr0 : roundMag (ratioQuarters 0 b) 2 = 0 := by omega
      rw [hr0, hm]
      simp [magValue]
    · simp only [if_true] at h ⊢
      have h' : magValue w.mag * b ≤ a := by
        have : (magValue w.mag : Int) * (b : Int) ≤ (a : Int) := by linarith
        exact_mod_cast this
      have := roundMag_ge _ 2 w.mag hw (ratioQuarters_ge a b _ hb h')
      have := magValue_le_iff.mpr this
      omega

end F32

namespace F32

theorem isFinite_iff (x : F32) : x.isFinite = true ↔ x.mag < 2139095040 := by
  unfold isFinite
  exact decide_eq_true_iff

theorem isNaN_of_finite {x : F32} (h : x.isFinite = true) : x.isNaN = false := by
  rw [isFinite_iff] at h
  unfold isNaN
  exact decide_eq_false (by omega)

theorem isInf_of_finite {x : F32} (h : x.isFinite = true) : x.isInf = false := by
  rw [isFinite_iff] at h
  unfold isInf
  exact decide_eq_false (by omega)

theorem add_def (x y : F32) : x + y = add x y := rfl

theorem mul_def (x y : F32) : x * y = mul x y := rfl

theorem neg_def (x : F32) : -x = neg x := rfl

theorem zero_scaled (b : Bool) : (zero b).scaled = 0 := by
  cases b <;> simp [zero, scaled, scaledAbs, mag, sign, magValue]

theorem add_of_finite {x y : F32} (hx : x.isFinite = true) (hy : y.isFinite = true) :
    add x y = if x.scaled + y.scaled = 0 then zero (decide (x.sign = 1 ∧ y.sign = 1))
      else ofRatio (decide (x.scaled + y.scaled < 0)) (x.scaled + y.scaled).natAbs 1 := by
  unfold add
  simp only [isNaN_of_finite hx, isNaN_of_finite hy, isInf_of_finite hx, isInf_of_finite hy,
    Bool.or_self, Bool.false_eq_true, if_false]

/-- Addition never rounds below a representable value that the exact sum
reaches. -/
theorem add_scaled_ge {x y : F32} (hx : x.isFinite = true) (hy : y.isFinite = true) (w : F32)
    (hw : w.mag ≤ 2139095040) (h : w.scaled ≤ x.scaled + y.scaled) :
    w.scaled ≤ (x + y).scaled := by
  rw [add_def, add_of_finite hx hy]
  split
  · next h0 =>
    rw [zero_scaled]
    omega
  · apply ofRatio_scaled_ge _ _ _ (by norm_num) w hw
    by_cases hneg : x.scaled + y.scaled < 0
    · simp only [hneg, decide_True, if_true]
      omega
    · simp only [hneg, decide_False, Bool.false_eq_true, if_false]
      omega

/-- Addition never rounds above a representable value that bounds the exact
sum. -/
theorem add_scaled_le {x y : F32} (hx : x.isFinite = true) (hy : y.isFinite = true) (w : F32)
    (hw : w.mag ≤ 2139095040) (h : x.scaled + y.scaled ≤ w.scaled) :
    (x + y).scaled ≤ w.scaled := by
  rw [add_def, add_of_finite hx hy]
  split
  · next h0 =>
    rw [zero_scaled]
    omega
  · apply ofRatio_scaled_le _ _ _ (by norm_num) w hw
    by_cases hneg : x.scaled + y.scaled < 0
    · simp only [hneg, decide_True, if_true]
      omega
    · simp only [hneg, decide_False, Bool.false_eq_true, if_false]
      omega

theorem mul_of_finite {x y : F32} (hx : x.isFinite = true) (hy : y.isFinite = true) :
    mul x y = ofRatio (decide (x.sign ≠ y.sign)) (x.scaledAbs * y.scaledAbs) (2 ^ 149) := by
  unfold mul
  simp only [isNaN_of_finite hx, isNaN_of_finite hy, isInf_of_finite hx, isInf_of_finite hy,
    Bool.or_self, Bool.false_eq_true, if_false]

theorem signed_product (x y : F32) :
    (if decide (x.sign ≠ y.sign) = true then -((x.scaledAbs * y.scaledAbs : Nat) : Int)
      else ((x.scaledAbs * y.scaledAbs : Nat) : Int)) = x.scaled * y.scaled := by
  unfold scaled
  rcases sign_cases x with hx | hx <;> rcases sign_cases y with hy | hy <;>
  simp [hx, hy]

/-- Multiplication never rounds below a representable value that the exact
product reaches. -/
theorem mul_scaled_ge {x y : F32} (hx : x.isFinite = true) (hy : y.isFinite = true) (w : F32)
    (hw : w.mag ≤ 2139095040) (h : w.scaled * 2 ^ 149 ≤ x.scaled * y.scaled) :
    w.scaled ≤ (x * y).scaled := by
  rw [mul_def, mul_of_finite hx hy]
  apply ofRatio_scaled_ge _ _ _ (by positivity) w hw
  rw [signed_product]
  exact_mod_cast h

/-- Multiplication never rounds above a representable value that bounds the
exact product. -/
theorem mul_scaled_le {x y : F32} (hx : x.isFinite = true) (hy : y.isFinite = true) (w : F32)
    (hw : w.mag ≤ 2139095040) (h : x.scaled * y.scaled ≤ w.scaled * 2 ^ 149) :
    (x * y).scaled ≤ w.scaled := by
  rw [mul_def, mul_of_finite hx hy]
  apply ofRatio_scaled_le _ _ _ (by positivity) w hw
  rw [signed_product]
  exact_mod_cast h

theorem abs_scaled (x : F32) : |x.scaled| = (magValue x.mag : Int) := by
  rcases sign_cases x with hs | hs
  · rw [scaled_of_sign_zero hs]
    exact abs_of_nonneg (by positivity)
  · rw [scaled_of_sign_one hs, abs_neg]
    exact abs_of_nonneg (by positivity)

/-- A value between two finite bounds is finite. -/
theorem isFinite_of_abs_le {x : F32} (w : F32) (hw : w.mag < 2139095040)
    (h : |x.scaled| ≤ |w.scaled|) : x.isFinite = true := by
  rw [abs_scaled, abs_scaled] at h
  rw [isFinite_iff]
  have : magValue x.mag ≤ magValue w.mag := by exact_mod_cast h
  have := magValue_le_iff.mp this
  omega

end F32

/-! ### The offset, coordinate by coordinate -/

theorem rt1_offset_components {α : Type} [Add α] [Mul α] [Div α] [Neg α] [LT α] [LE α]
    [OfScientific α] [DecidableRel (fun a b : α => a < b)]
    [DecidableRel (fun a b : α => a ≤ b)] [GLSLConversions α] (p n : Vec3 α) :
    RtPipeline1.offsetPositionAlongNormal p n
      = ⟨offsetComponent p.x n.x, offsetComponent p.y n.y, offsetComponent p.z n.z⟩ := rfl

theorem rt3_offset_components {α : Type} [Add α] [Mul α] [Div α] [Neg α] [LT α] [LE α]
    [OfScientific α] [DecidableRel (fun a b : α => a < b)]
    [DecidableRel (fun a b : α => a ≤ b)] [GLSLConversions α] (p n : Vec3 α) :
    RtPipeline3.offsetPositionAlongNormal p n
      = ⟨offsetComponent p.x n.x, offsetComponent p.y n.y, offsetComponent p.z n.z⟩ := rfl

namespace F32

set_option maxRecDepth 8000 in
theorem lit_256 : (256.0 : F32) = ⟨1132462080⟩ := by decide

set_option maxRecDepth 8000 in
theorem lit_origin : (1.0 : F32) / 32.0 = ⟨1023410176⟩ := by decide

set_option maxRecDepth 8000 in
theorem lit_floatScale : (1.0 : F32) / 65536.0 = ⟨931135488⟩ := by decide

set_option maxRecDepth 8000 in
theorem lit_floatScale_pattern : (1.0 : F32) / ⟨1199570944⟩ = ⟨931135488⟩ := by decide

set_option maxRecDepth 8000 in
theorem lit_0 : (0.0 : F32) = ⟨0⟩ := by decide

set_option maxRecDepth 8000 in
theorem lit_65536 : (65536.0 : F32) = ⟨1199570944⟩ := by decide

set_option maxRecDepth 8000 in
theorem lit_thirtysecond : (0.03125 : F32) = ⟨1023410176⟩ := by decide

end F32

namespace F32

theorem lt_iff (x y : F32) :
    x < y ↔ (x.isNaN = false ∧ y.isNaN = false ∧ x.scaled < y.scaled) := Iff.rfl

theorem le_iff (x y : F32) :
    x ≤ y ↔ (x.isNaN = false ∧ y.isNaN = false ∧ x.scaled ≤ y.scaled) := Iff.rfl

theorem div_def (x y : F32) : x / y = div x y := rfl

theorem i32_add_neg (a b : Int) : i32 (a + i32 (-b)) = i32 (a - b) := by
  unfold i32
  omega

/-- Multiplying by `2^-16` and dividing by `65536` round the same quotient. -/
theorem mul_floatScale_eq_div (m : F32) :
    (⟨931135488⟩ : F32) * m = m / (⟨1199570944⟩ : F32) := by
  have hx1 : (⟨931135488⟩ : F32).isNaN = false := by decide
  have hx2 : (⟨931135488⟩ : F32).isInf = false := by decide
  have hx3 : (⟨931135488⟩ : F32).mag = 931135488 := by decide
  have hx4 : (⟨931135488⟩ : F32).sign = 0 := by decide
  have hx5 : (⟨931135488⟩ : F32).scaledAbs = 2 ^ 133 * 1 := by
    norm_num [scaledAbs, mag, magValue]
  have hy1 : (⟨1199570944⟩ : F32).isNaN = false := by decide
  have hy2 : (⟨1199570944⟩ : F32).isInf = false := by decide
  have hy3 : (⟨1199570944⟩ : F32).mag = 1199570944 := by decide
  have hy4 : (⟨1199570944⟩ : F32).sign = 0 := by decide
  have hy5 : (⟨1199570944⟩ : F32).scaledAbs = 2 ^ 149 * 2 ^ 16 := by
    norm_num [scaledAbs, mag, magValue]
  have hs : decide ((0 : Nat) ≠ m.sign) = decide (m.sign ≠ 0) := by
    rcases sign_cases m with h | h <;> simp [h]
  rw [mul_def, div_def]
  unfold mul div
  rw [hx1, hx2, hx3, hx4, hx5, hy1, hy2, hy3, hy4, hy5]
  by_cases hn : m.isNaN = true
  · simp [hn]
  · by_cases hi : m.isInf = true
    · have hm : m.mag ≠ 0 := by
        unfold isInf at hi
        have := of_decide_eq_true hi
        omega
      simp [hn, hi, hm, hs]
    · simp only [hn, hi, Bool.or_false, Bool.false_or, Bool.false_eq_true, if_false, hs]
      have h1 : ratioQuarters (2 ^ 133 * 1 * m.scaledAbs) (2 ^ 149)
          = ratioQuarters m.scaledAbs (2 ^ 16) := by
        have : (2 : Nat) ^ 149 = 2 ^ 133 * 2 ^ 16 := by norm_num
        rw [this, Nat.mul_one]
        exact ratioQuarters_scale _ _ _ (by positivity)
      have h2 : ratioQuarters (m.scaledAbs * 2 ^ 149) (2 ^ 149 * 2 ^ 16)
          = ratioQuarters m.scaledAbs (2 ^ 16) := by
        rw [Nat.mul_comm m.scaledAbs]
        exact ratioQuarters_scale _ _ _ (by positivity)
      unfold ofRatio
      rw [h1, h2]
      simp

end F32

/-- One coordinate of the offset follows the hybrid rule of the
specification. -/
theorem offsetComponent_reference (c m : F32) : ReferenceOffset c m (offsetComponent c m) := by
  unfold ReferenceOffset offsetComponent
  simp only [F32.lit_origin, F32.lit_thirtysecond, F32.lit_floatScale, F32.lit_65536,
    F32.lit_floatScale_pattern, F32.lit_0]
  refine ⟨?_, ?_, ?_⟩
  · intro h
    rw [if_pos h, F32.mul_floatScale_eq_div]
  · intro h h0
    have hlt : ¬ c < (⟨0⟩ : F32) := by
      rw [F32.lt_iff]
      rw [F32.le_iff] at h0
      obtain ⟨-, -, h1⟩ := h0
      intro h2
      omega
    rw [if_neg h, if_neg hlt]
  · intro h h0
    rw [if_neg h, if_pos h0, F32.i32_add_neg]

/-- C8: each coordinate of `offsetPositionAlongNormal` (both copies, over
binary32 bit patterns) is the hybrid offset of the specification for that
coordinate of the position and of the normal: `c + m / 65536` when
`abs(c) < 1/32`, and otherwise the float whose pattern is
`floatBitsToInt(c) + of_i` for `c >= 0` and `floatBitsToInt(c) - of_i` for
`c < 0`, with `of_i = trunc(256 * m)`. -/
theorem offsetPositionAlongNormal_eq_reference (p n : Vec3 F32) :
    (ReferenceOffset p.x n.x (RtPipeline1.offsetPositionAlongNormal p n).x
      ∧ ReferenceOffset p.y n.y (RtPipeline1.offsetPositionAlongNormal p n).y
      ∧ ReferenceOffset p.z n.z (RtPipeline1.offsetPositionAlongNormal p n).z)
    ∧ (ReferenceOffset p.x n.x (RtPipeline3.offsetPositionAlongNormal p n).x
      ∧ ReferenceOffset p.y n.y (RtPipeline3.offsetPositionAlongNormal p n).y
      ∧ ReferenceOffset p.z n.z (RtPipeline3.offsetPositionAlongNormal p n).z) := by
  rw [rt1_offset_components, rt3_offset_components]
  exact ⟨⟨offsetComponent_reference _ _, offsetComponent_reference _ _,
    offsetComponent_reference _ _⟩, ⟨offsetComponent_reference _ _,
    offsetComponent_reference _ _, offsetComponent_reference _ _⟩⟩


/-! ### Direction of the offset -/

namespace F32

theorem magValue_zero : magValue 0 = 0 := by norm_num [magValue]
theorem magValue_pattern_one : magValue 1 = 1 := by norm_num [magValue]
theorem magValue_2pm24 : magValue 864026624 = 2 ^ 125 := by norm_num [magValue]
theorem magValue_2pm16 : magValue 931135488 = 2 ^ 133 := by norm_num [magValue]
theorem magValue_2pm8 : magValue 998244352 = 2 ^ 141 := by norm_num [magValue]
theorem magValue_2pm5 : magValue 1023410176 = 2 ^ 144 := by norm_num [magValue]
theorem magValue_2pm4 : magValue 1031798784 = 2 ^ 145 := by norm_num [magValue]
theorem magValue_2p0 : magValue 1065353216 = 2 ^ 149 := by norm_num [magValue]
theorem magValue_2p8 : magValue 1132462080 = 2 ^ 157 := by norm_num [magValue]

theorem magValue_pos {m : Nat} (h : 0 < m) : 0 < magValue m := by
  have := magValue_lt_iff.mpr h
  rw [magValue_zero] at this
  exact this

theorem pattern_sign_zero {b : Nat} (hb : b < 2147483648) : (⟨b⟩ : F32).sign = 0 := by
  unfold sign
  simp only
  omega

theorem pattern_mag {b : Nat} (hb : b < 2147483648) : (⟨b⟩ : F32).mag = b := by
  unfold mag
  simp only
  omega

theorem pattern_scaled {b : Nat} (hb : b < 2147483648) :
    (⟨b⟩ : F32).scaled = (magValue b : Int) := by
  rw [scaled_of_sign_zero (pattern_sign_zero hb), pattern_mag hb]

theorem neg_pattern_sign {b : Nat} (hb : b < 2147483648) :
    (⟨2147483648 + b⟩ : F32).sign = 1 := by
  unfold sign
  simp only
  omega

theorem neg_pattern_mag {b : Nat} (hb : b < 2147483648) : (⟨2147483648 + b⟩ : F32).mag = b := by
  unfold mag
  simp only
  omega

theorem neg_pattern_scaled {b : Nat} (hb : b < 2147483648) :
    (⟨2147483648 + b⟩ : F32).scaled = -(magValue b : Int) := by
  rw [scaled_of_sign_one (neg_pattern_sign hb), neg_pattern_mag hb]

theorem mul_sign {x y : F32} (hx : x.isFinite = true) (hy : y.isFinite = true)
    (hxs : x.sign = 0) : (x * y).sign = y.sign := by
  rw [mul_def, mul_of_finite hx hy, ofRatio_sign, hxs]
  rcases sign_cases y with h | h <;> simp [h]

theorem mul_mag {x y : F32} (hx : x.isFinite = true) (hy : y.isFinite = true) :
    (x * y).mag = roundMag (ratioQuarters (magValue x.mag * magValue y.mag) (2 ^ 149)) 2 := by
  rw [mul_def, mul_of_finite hx hy, ofRatio_mag]
  rfl

theorem mul_mag_ge {x y : F32} (hx : x.isFinite = true) (hy : y.isFinite = true) (w : Nat)
    (hw : w ≤ 2139095040) (h : magValue w * 2 ^ 149 ≤ magValue x.mag * magValue y.mag) :
    w ≤ (x * y).mag := by
  rw [mul_mag hx hy]
  exact roundMag_ge _ 2 w hw (ratioQuarters_ge _ _ _ (by positivity) h)

theorem mul_mag_le {x y : F32} (hx : x.isFinite = true) (hy : y.isFinite = true) (w : Nat)
    (h : magValue x.mag * magValue y.mag ≤ magValue w * 2 ^ 149) :
    (x * y).mag ≤ w := by
  rw [mul_mag hx hy]
  exact roundMag_le _ 2 w (ratioQuarters_le _ _ _ h)

/-- The integer offset `of_i = int(256.0 * m)` of a normal coordinate with
`|m| <= 1`: at most 256 in size, of the sign of `m`, and not zero once
`|m| >= 1/256`. -/
theorem normal_offset_int (m : F32) (hm : m.mag ≤ 1065353216) :
    ∃ q : Nat, q ≤ 256 ∧ (998244352 ≤ m.mag → 1 ≤ q)
      ∧ GLSLConversions.toInt ((256.0 : F32) * m)
          = if m.sign = 1 then -(q : Int) else (q : Int) := by
  have hmf : m.isFinite = true := (isFinite_iff m).mpr (by omega)
  have hkf : (⟨1132462080⟩ : F32).isFinite = true := by decide
  have hkm : (⟨1132462080⟩ : F32).mag = 1132462080 := by decide
  have hks : (⟨1132462080⟩ : F32).sign = 0 := by decide
  have hM : magValue m.mag ≤ 2 ^ 149 := by
    rw [← magValue_2p0]
    exact magValue_le_iff.mpr hm
  rw [lit_256]
  have hup : ((⟨1132462080⟩ : F32) * m).mag ≤ 1132462080 := by
    apply mul_mag_le hkf hmf
    rw [hkm, magValue_2p8]
    exact Nat.mul_le_mul_left _ hM
  have htf : ((⟨1132462080⟩ : F32) * m).isFinite = true := (isFinite_iff _).mpr (by omega)
  have hts := mul_sign hkf hmf hks
  have hV : magValue ((⟨1132462080⟩ : F32) * m).mag ≤ 2 ^ 157 := by
    rw [← magValue_2p8]
    exact magValue_le_iff.mpr hup
  refine ⟨magValue ((⟨1132462080⟩ : F32) * m).mag / 2 ^ 149, ?_, ?_, ?_⟩
  · apply Nat.div_le_of_le_mul
    calc magValue ((⟨1132462080⟩ : F32) * m).mag ≤ 2 ^ 157 := hV
      _ = 2 ^ 149 * 256 := by norm_num
  · intro hbig
    have hlo : 1065353216 ≤ ((⟨1132462080⟩ : F32) * m).mag := by
      apply mul_mag_ge hkf hmf _ (by norm_num)
      rw [hkm, magValue_2p8, magValue_2p0]
      have : 2 ^ 141 ≤ magValue m.mag := by
        rw [← magValue_2pm8]
        exact magValue_le_iff.mpr hbig
      calc 2 ^ 149 * 2 ^ 149 = 2 ^ 157 * 2 ^ 141 := by norm_num
        _ ≤ 2 ^ 157 * magValue m.mag := Nat.mul_le_mul_left _ this
    have : 2 ^ 149 ≤ magValue ((⟨1132462080⟩ : F32) * m).mag := by
      rw [← magValue_2p0]
      exact magValue_le_iff.mpr hlo
    exact (Nat.one_le_div_iff (by positivity)).mpr this
  · show (if ((⟨1132462080⟩ : F32) * m).isFinite = true
      then i32 ((⟨1132462080⟩ : F32) * m).trunc else 0) = _
    rw [if_pos htf]
    have hq : magValue ((⟨1132462080⟩ : F32) * m).mag / 2 ^ 149 ≤ 256 := by
      apply Nat.div_le_of_le_mul
      calc magValue ((⟨1132462080⟩ : F32) * m).mag ≤ 2 ^ 157 := hV
        _ = 2 ^ 149 * 256 := by norm_num
    unfold trunc scaledAbs
    rw [hts]
    generalize magValue ((⟨1132462080⟩ : F32) * m).mag / 2 ^ 149 = q at hq
    unfold i32
    split <;> omega

end F32

namespace F32

theorem lt_zero_iff {c : F32} (hc : c.isFinite = true) :
    c < (⟨0⟩ : F32) ↔ (c.sign = 1 ∧ 0 < c.mag) := by
  rw [lt_iff]
  have h0 : (⟨0⟩ : F32).isNaN = false := by decide
  have h1 : (⟨0⟩ : F32).scaled = 0 := by decide
  rw [isNaN_of_finite hc, h0, h1]
  simp only [true_and]
  rcases sign_cases c with hs | hs
  · rw [scaled_of_sign_zero hs]
    constructor
    · intro h
      have : (0 : Int) ≤ (magValue c.mag : Int) := Nat.cast_nonneg _
      omega
    · intro h
      omega
  · rw [scaled_of_sign_one hs]
    constructor
    · intro h
      refine ⟨hs, ?_⟩
      rcases Nat.eq_zero_or_pos c.mag with h0 | h0
      · rw [h0, magValue_zero] at h
        omega
      · exact h0
    · intro h
      have := magValue_pos h.2
      omega

theorem neg_sign_mag (c : F32) :
    (-c).mag = c.mag ∧ (-c).sign = 1 - c.sign := by
  rw [neg_def]
  unfold neg
  rcases sign_cases c with hs | hs
  · rw [if_neg (by omega)]
    unfold sign mag at *
    simp only
    omega
  · rw [if_pos hs]
    unfold sign mag at *
    simp only
    omega

/-- The test `abs(c) < 1/32` of the offset, on bit patterns. -/
theorem abs_lt_origin_iff {c : F32} (hc : c.isFinite = true) :
    GLSL.abs c < (⟨1023410176⟩ : F32) ↔ c.mag < 1023410176 := by
  have ho1 : (⟨1023410176⟩ : F32).isNaN = false := by decide
  have ho2 : (⟨1023410176⟩ : F32).scaled = ((2 ^ 144 : Nat) : Int) := by
    rw [pattern_scaled (by norm_num), magValue_2pm5]
  have h0 : (⟨0⟩ : F32).isNaN = false := by decide
  have h1 : (⟨0⟩ : F32).scaled = 0 := by decide
  have hmag : (magValue c.mag : Int) < ((2 ^ 144 : Nat) : Int) ↔ c.mag < 1023410176 := by
    rw [Int.ofNat_lt, ← magValue_2pm5, magValue_lt_iff]
  unfold GLSL.abs
  rw [lit_0]
  by_cases hle : (⟨0⟩ : F32) ≤ c
  · rw [if_pos hle, lt_iff, isNaN_of_finite hc, ho1, ho2]
    rw [le_iff, h1] at hle
    simp only [true_and]
    rcases sign_cases c with hs | hs
    · rw [scaled_of_sign_zero hs]
      exact hmag
    · rw [scaled_of_sign_one hs] at hle ⊢
      have hz : magValue c.mag = 0 := by
        have : (0 : Int) ≤ (magValue c.mag : Int) := Nat.cast_nonneg _
        omega
      have hm0 : c.mag = 0 := by
        rcases Nat.eq_zero_or_pos c.mag with h | h
        · exact h
        · have := magValue_pos h
          omega
      rw [hm0, magValue_zero]
      constructor
      · intro
        norm_num
      · intro
        have : (0 : Int) < ((2 ^ 144 : Nat) : Int) := Int.ofNat_lt.mpr (by positivity)
        simp
  · rw [if_neg hle]
    have hfn : (-c).isFinite = true := by
      rw [isFinite_iff, (neg_sign_mag c).1]
      exact (isFinite_iff c).mp hc
    rw [lt_iff, isNaN_of_finite hfn, ho1, ho2]
    simp only [true_and]
    rw [le_iff, h0, isNaN_of_finite hc, h1] at hle
    simp only [true_and, not_le] at hle
    have hs : c.sign = 1 := by
      rcases sign_cases c with hs | hs
      · rw [scaled_of_sign_zero hs] at hle
        have : (0 : Int) ≤ (magValue c.mag : Int) := Nat.cast_nonneg _
        omega
      · exact hs
    have hns : (-c).sign = 0 := by
      rw [(neg_sign_mag c).2, hs]
    rw [scaled_of_sign_zero hns, (neg_sign_mag c).1]
    exact hmag

/-- The integer branch: the pattern moves by `of` steps away from zero for a
non-negative coordinate and by `of` steps toward zero for a negative one, so
the value moves in the direction of the sign of `of` in both cases. -/
theorem int_branch (c : F32) (off : Int) (hc1 : 1023410176 ≤ c.mag)
    (hc2 : c.mag + 256 < 2139095040) (ho1 : -256 ≤ off) (ho2 : off ≤ 256) :
    ∃ r : F32, r = GLSLConversions.intBitsToFloat
        (i32 (GLSLConversions.floatBitsToInt c + (if c < (⟨0⟩ : F32) then i32 (-off) else off)))
      ∧ r.isFinite = true
      ∧ (0 ≤ off → c.scaled ≤ r.scaled) ∧ (0 < off → c.scaled < r.scaled)
      ∧ (off ≤ 0 → r.scaled ≤ c.scaled) ∧ (off < 0 → r.scaled < c.scaled) := by
  have hcf : c.isFinite = true := (isFinite_iff c).mpr (by omega)
  have hr : (GLSLConversions.intBitsToFloat
      (i32 (GLSLConversions.floatBitsToInt c + (if c < (⟨0⟩ : F32) then i32 (-off) else off)))
        : F32)
      = F32.mk (i32 (i32 (c.bits : Int) + (if c < (⟨0⟩ : F32) then i32 (-off) else off))
          % 4294967296).toNat := rfl
  refine ⟨_, rfl, ?_⟩
  rw [hr]
  rcases sign_cases c with hs | hs
  · have hlt : ¬ c < (⟨0⟩ : F32) := by
      rw [lt_zero_iff hcf]
      omega
    rw [if_neg hlt]
    have hbits : (i32 (i32 (c.bits : Int) + off) % 4294967296).toNat
        = (c.mag + off).toNat := by
      unfold sign at hs
      unfold mag at hc1 hc2 ⊢
      unfold i32
      omega
    rw [hbits]
    obtain ⟨k, hk⟩ : ∃ k : Nat, (c.mag + off).toNat = k := ⟨_, rfl⟩
    have hk31 : k < 2147483648 := by omega
    rw [hk, isFinite_iff, pattern_mag hk31, pattern_scaled hk31, scaled_of_sign_zero hs]
    refine ⟨by omega, ?_, ?_, ?_, ?_⟩
    · intro h
      exact_mod_cast magValue_le_iff.mpr (show c.mag ≤ k by omega)
    · intro h
      exact_mod_cast magValue_lt_iff.mpr (show c.mag < k by omega)
    · intro h
      exact_mod_cast magValue_le_iff.mpr (show k ≤ c.mag by omega)
    · intro h
      exact_mod_cast magValue_lt_iff.mpr (show k < c.mag by omega)
  · have hlt : c < (⟨0⟩ : F32) := by
      rw [lt_zero_iff hcf]
      omega
    rw [if_pos hlt]
    have hbits : (i32 (i32 (c.bits : Int) + i32 (-off)) % 4294967296).toNat
        = 2147483648 + (c.mag - off).toNat := by
      unfold sign at hs
      unfold mag at hc1 hc2 ⊢
      unfold i32
      omega
    rw [hbits]
    obtain ⟨k, hk⟩ : ∃ k : Nat, (c.mag - off).toNat = k := ⟨_, rfl⟩
    have hk31 : k < 2147483648 := by omega
    rw [hk, isFinite_iff, neg_pattern_mag hk31, neg_pattern_scaled hk31, scaled_of_sign_one hs]
    refine ⟨by omega, ?_, ?_, ?_, ?_⟩
    · intro h
      have := magValue_le_iff.mpr (show k ≤ c.mag by omega)
      omega
    · intro h
      have := magValue_lt_iff.mpr (show k < c.mag by omega)
      omega
    · intro h
      have := magValue_le_iff.mpr (show c.mag ≤ k by omega)
      omega
    · intro h
      have := magValue_lt_iff.mpr (show c.mag < k by omega)
      omega

end F32

namespace F32

/-- Near the origin there is a representable value just above `c`, at most
`2^-29` away. -/
theorem exists_next_up (c : F32) (hc : c.mag < 1023410176) :
    ∃ w : F32, w.mag ≤ 2139095040 ∧ c.scaled < w.scaled ∧ w.scaled ≤ c.scaled + 2 ^ 120 := by
  rcases sign_cases c with hs | hs
  · have h31 : c.mag + 1 < 2147483648 := by omega
    refine ⟨⟨c.mag + 1⟩, ?_, ?_, ?_⟩
    · rw [pattern_mag h31]
      omega
    · rw [pattern_scaled h31, scaled_of_sign_zero hs]
      exact_mod_cast magValue_lt_succ c.mag
    · rw [pattern_scaled h31, scaled_of_sign_zero hs]
      exact_mod_cast magValue_succ_le_near c.mag hc
  · rcases Nat.eq_zero_or_pos c.mag with h0 | h0
    · refine ⟨⟨1⟩, by decide, ?_, ?_⟩
      · rw [@pattern_scaled 1 (by norm_num), scaled_of_sign_one hs, h0, magValue_zero,
          magValue_pattern_one]
        norm_num
      · rw [@pattern_scaled 1 (by norm_num), scaled_of_sign_one hs, h0, magValue_zero,
          magValue_pattern_one]
        norm_num
    · obtain ⟨k, hk⟩ : ∃ k, c.mag = k + 1 := ⟨c.mag - 1, by omega⟩
      have h31 : k < 2147483648 := by omega
      have h1 := magValue_lt_succ k
      have h2 := magValue_succ_le_near k (by omega)
      refine ⟨⟨2147483648 + k⟩, ?_, ?_, ?_⟩
      · rw [neg_pattern_mag h31]
        omega
      · rw [neg_pattern_scaled h31, scaled_of_sign_one hs, hk]
        omega
      · rw [neg_pattern_scaled h31, scaled_of_sign_one hs, hk]
        omega

/-- Near the origin there is a representable value just below `c`, at most
`2^-29` away. -/
theorem exists_next_down (c : F32) (hc : c.mag < 1023410176) :
    ∃ w : F32, w.mag ≤ 2139095040 ∧ w.scaled < c.scaled ∧ c.scaled - 2 ^ 120 ≤ w.scaled := by
  rcases sign_cases c with hs | hs
  · rcases Nat.eq_zero_or_pos c.mag with h0 | h0
    · refine ⟨⟨2147483648 + 1⟩, by decide, ?_, ?_⟩
      · rw [@neg_pattern_scaled 1 (by norm_num), scaled_of_sign_zero hs, h0, magValue_zero,
          magValue_pattern_one]
        norm_num
      · rw [@neg_pattern_scaled 1 (by norm_num), scaled_of_sign_zero hs, h0, magValue_zero,
          magValue_pattern_one]
        norm_num
    · obtain ⟨k, hk⟩ : ∃ k, c.mag = k + 1 := ⟨c.mag - 1, by omega⟩
      have h31 : k < 2147483648 := by omega
      have h1 := magValue_lt_succ k
      have h2 := magValue_succ_le_near k (by omega)
      refine ⟨⟨k⟩, ?_, ?_, ?_⟩
      · rw [pattern_mag h31]
        omega
      · rw [pattern_scaled h31, scaled_of_sign_zero hs, hk]
        omega
      · rw [pattern_scaled h31, scaled_of_sign_zero hs, hk]
        omega
  · have h31 : c.mag + 1 < 2147483648 := by omega
    have h1 := magValue_lt_succ c.mag
    have h2 := magValue_succ_le_near c.mag hc
    refine ⟨⟨2147483648 + (c.mag + 1)⟩, ?_, ?_, ?_⟩
    · rw [neg_pattern_mag h31]
      omega
    · rw [neg_pattern_scaled h31, scaled_of_sign_one hs]
      omega
    · rw [neg_pattern_scaled h31, scaled_of_sign_one hs]
      omega

/-- The floating-point branch: `c + 2^-16 * m` does not move against the sign
of `m`, and moves once `|m| >= 1/256`. -/
theorem float_branch (c m : F32) (hc : c.mag < 1023410176) (hm : m.mag ≤ 1065353216) :
    (c + (⟨931135488⟩ : F32) * m).isFinite = true
    ∧ (m.sign = 0 → c.scaled ≤ (c + (⟨931135488⟩ : F32) * m).scaled)
    ∧ (m.sign = 0 → 998244352 ≤ m.mag → c.scaled < (c + (⟨931135488⟩ : F32) * m).scaled)
    ∧ (m.sign = 1 → (c + (⟨931135488⟩ : F32) * m).scaled ≤ c.scaled)
    ∧ (m.sign = 1 → 998244352 ≤ m.mag → (c + (⟨931135488⟩ : F32) * m).scaled < c.scaled) := by
  have hcf : c.isFinite = true := (isFinite_iff c).mpr (by omega)
  have hmf : m.isFinite = true := (isFinite_iff m).mpr (by omega)
  have hkf : (⟨931135488⟩ : F32).isFinite = true := by decide
  have hkm : (⟨931135488⟩ : F32).mag = 931135488 := by decide
  have hks : (⟨931135488⟩ : F32).sign = 0 := by decide
  have hM : magValue m.mag ≤ 2 ^ 149 := by
    rw [← magValue_2p0]
    exact magValue_le_iff.mpr hm
  have hC : magValue c.mag < 2 ^ 144 := by
    rw [← magValue_2pm5]
    exact magValue_lt_iff.mpr hc
  have htm : ((⟨931135488⟩ : F32) * m).mag ≤ 931135488 := by
    apply mul_mag_le hkf hmf
    rw [hkm, magValue_2pm16]
    exact Nat.mul_le_mul_left _ hM
  have hts := mul_sign hkf hmf hks
  have htf : ((⟨931135488⟩ : F32) * m).isFinite = true := (isFinite_iff _).mpr (by omega)
  have hT : magValue ((⟨931135488⟩ : F32) * m).mag ≤ 2 ^ 133 := by
    rw [← magValue_2pm16]
    exact magValue_le_iff.mpr htm
  have hbig : 998244352 ≤ m.mag → 2 ^ 125 ≤ magValue ((⟨931135488⟩ : F32) * m).mag := by
    intro hb
    rw [← magValue_2pm24]
    apply magValue_le_iff.mpr
    apply mul_mag_ge hkf hmf _ (by norm_num)
    rw [hkm, magValue_2pm16, magValue_2pm24]
    have : 2 ^ 141 ≤ magValue m.mag := by
      rw [← magValue_2pm8]
      exact magValue_le_iff.mpr hb
    calc 2 ^ 125 * 2 ^ 149 = 2 ^ 133 * 2 ^ 141 := by norm_num
      _ ≤ 2 ^ 133 * magValue m.mag := Nat.mul_le_mul_left _ this
  generalize (⟨931135488⟩ : F32) * m = t at htm hts htf hT hbig
  have hcabs := abs_scaled c
  have htabs := abs_scaled t
  have hc1 : -(2 ^ 144 : Int) < c.scaled ∧ c.scaled < 2 ^ 144 := by
    have : (magValue c.mag : Int) < 2 ^ 144 := by exact_mod_cast hC
    rw [← hcabs] at this
    exact abs_lt.mp this
  have ht1 : -(2 ^ 133 : Int) ≤ t.scaled ∧ t.scaled ≤ 2 ^ 133 := by
    have : (magValue t.mag : Int) ≤ 2 ^ 133 := by exact_mod_cast hT
    rw [← htabs] at this
    exact abs_le.mp this
  have hfin : (c + t).isFinite = true := by
    have hw1 : (⟨1031798784⟩ : F32).scaled = 2 ^ 145 := by
      rw [@pattern_scaled 1031798784 (by norm_num), magValue_2pm4]
      norm_num
    have hw2 : (⟨2147483648 + 1031798784⟩ : F32).scaled = -(2 ^ 145) := by
      rw [@neg_pattern_scaled 1031798784 (by norm_num), magValue_2pm4]
      norm_num
    have hup := add_scaled_le hcf htf (⟨1031798784⟩ : F32) (by decide)
      (by rw [hw1]; omega)
    have hdn := add_scaled_ge hcf htf (⟨2147483648 + 1031798784⟩ : F32) (by decide)
      (by rw [hw2]; omega)
    apply isFinite_of_abs_le (⟨1031798784⟩ : F32) (by decide)
    rw [hw1] at hup ⊢
    rw [hw2] at hdn
    rw [abs_le]
    constructor
    · have : |(2 ^ 145 : Int)| = 2 ^ 145 := abs_of_nonneg (by positivity)
      omega
    · have : |(2 ^ 145 : Int)| = 2 ^ 145 := abs_of_nonneg (by positivity)
      omega
  refine ⟨hfin, ?_, ?_, ?_, ?_⟩
  · intro hs
    apply add_scaled_ge hcf htf c (by have := (isFinite_iff c).mp hcf; omega)
    rw [scaled_of_sign_zero (hts.trans hs)]
    omega
  · intro hs hb
    obtain ⟨w, hw, hw1, hw2⟩ := exists_next_up c hc
    have h1 := hbig hb
    have h2 : w.scaled ≤ (c + t).scaled := by
      apply add_scaled_ge hcf htf w hw
      rw [scaled_of_sign_zero (hts.trans hs)]
      omega
    omega
  · intro hs
    apply add_scaled_le hcf htf c (by have := (isFinite_iff c).mp hcf; omega)
    rw [scaled_of_sign_one (hts.trans hs)]
    omega
  · intro hs hb
    obtain ⟨w, hw, hw1, hw2⟩ := exists_next_down c hc
    have h1 := hbig hb
    have h2 : (c + t).scaled ≤ w.scaled := by
      apply add_scaled_le hcf htf w hw
      rw [scaled_of_sign_one (hts.trans hs)]
      omega
    omega

end F32

/-- One coordinate of the offset, for a coordinate `c` more than 256 patterns
below infinity and a normal coordinate with `|m| <= 1`: the result is finite,
does not move against the sign of `m`, and moves once `|m| >= 1/256`. -/
theorem offsetComponent_direction (c m : F32) (hc : c.mag + 256 < 2139095040)
    (hm : m.mag ≤ 1065353216) :
    (offsetComponent c m).isFinite = true
    ∧ (m.sign = 0 → c.scaled ≤ (offsetComponent c m).scaled)
    ∧ (m.sign = 0 → 998244352 ≤ m.mag → c.scaled < (offsetComponent c m).scaled)
    ∧ (m.sign = 1 → (offsetComponent c m).scaled ≤ c.scaled)
    ∧ (m.sign = 1 → 998244352 ≤ m.mag → (offsetComponent c m).scaled < c.scaled) := by
  have hcf : c.isFinite = true := (F32.isFinite_iff c).mpr (by omega)
  unfold offsetComponent
  simp only [F32.lit_origin, F32.lit_floatScale, F32.lit_0]
  by_cases hnear : c.mag < 1023410176
  · rw [if_pos ((F32.abs_lt_origin_iff hcf).mpr hnear)]
    exact F32.float_branch c m hnear hm
  · rw [if_neg (fun h => hnear ((F32.abs_lt_origin_iff hcf).mp h))]
    obtain ⟨q, hq1, hq2, hq3⟩ := F32.normal_offset_int m hm
    rw [hq3]
    rcases F32.sign_cases m with hs | hs
    · have hof : (if m.sign = 1 then -(q : Int) else (q : Int)) = (q : Int) :=
        if_neg (by omega)
      rw [hof]
      obtain ⟨r, hr, hfin, h1, h2, -, -⟩ :=
        F32.int_branch c (q : Int) (by omega) hc (by omega) (by omega)
      rw [← hr]
      refine ⟨hfin, fun _ => h1 (by omega), fun _ hb => h2 ?_, fun h => ?_, fun h => ?_⟩
      · have := hq2 hb
        omega
      · omega
      · omega
    · have hof : (if m.sign = 1 then -(q : Int) else (q : Int)) = -(q : Int) :=
        if_pos hs
      rw [hof]
      obtain ⟨r, hr, hfin, -, -, h3, h4⟩ :=
        F32.int_branch c (-(q : Int)) (by omega) hc (by omega) (by omega)
      rw [← hr]
      refine ⟨hfin, fun h => ?_, fun h => ?_, fun _ => h3 (by omega), fun _ hb => h4 ?_⟩
      · omega
      · omega
      · have := hq2 hb
        omega

/-- One coordinate of the offset contributes a non-negative term to
`dot(offset - p, n)`, and a positive one once `|m| >= 1/256`. -/
theorem offsetComponent_term (c m : F32) (hc : c.mag + 256 < 2139095040)
    (hm : m.mag ≤ 1065353216) :
    (offsetComponent c m).isFinite = true
    ∧ 0 ≤ ((offsetComponent c m).scaled - c.scaled) * m.scaled
    ∧ (998244352 ≤ m.mag → 0 < ((offsetComponent c m).scaled - c.scaled) * m.scaled) := by
  obtain ⟨hfin, h1, h2, h3, h4⟩ := offsetComponent_direction c m hc hm
  refine ⟨hfin, ?_, ?_⟩
  · rcases F32.sign_cases m with hs | hs
    · rw [F32.scaled_of_sign_zero hs]
      exact mul_nonneg (by have := h1 hs; omega) (Nat.cast_nonneg _)
    · rw [F32.scaled_of_sign_one hs]
      exact mul_nonneg_of_nonpos_of_nonpos (by have := h3 hs; omega)
        (by have : (0 : Int) ≤ (magValue m.mag : Int) := Nat.cast_nonneg _; omega)
  · intro hb
    have hpos : (0 : Int) < (magValue m.mag : Int) := by
      exact_mod_cast F32.magValue_pos (show 0 < m.mag by omega)
    rcases F32.sign_cases m with hs | hs
    · rw [F32.scaled_of_sign_zero hs]
      exact mul_pos (by have := h2 hs hb; omega) hpos
    · rw [F32.scaled_of_sign_one hs]
      exact mul_pos_of_neg_of_neg (by have := h4 hs hb; omega) (by omega)

/-- The same coordinate offset along the negated normal coordinate contributes
a non-positive term, and a negative one once `|m| >= 1/256`. -/
theorem offsetComponent_neg_term (c m : F32) (hc : c.mag + 256 < 2139095040)
    (hm : m.mag ≤ 1065353216) :
    (offsetComponent c (-m)).isFinite = true
    ∧ ((offsetComponent c (-m)).scaled - c.scaled) * m.scaled ≤ 0
    ∧ (998244352 ≤ m.mag → ((offsetComponent c (-m)).scaled - c.scaled) * m.scaled < 0) := by
  obtain ⟨hmag, hsign⟩ := F32.neg_sign_mag m
  obtain ⟨hfin, h1, h2⟩ := offsetComponent_term c (-m) hc (by rw [hmag]; exact hm)
  have hneg : (-m).scaled = -m.scaled := by
    rcases F32.sign_cases m with hs | hs
    · rw [F32.scaled_of_sign_one (by rw [hsign, hs]), F32.scaled_of_sign_zero hs, hmag]
    · rw [F32.scaled_of_sign_zero (by rw [hsign, hs]), F32.scaled_of_sign_one hs, hmag]
      omega
  rw [hneg, hmag] at h2
  rw [hneg] at h1
  refine ⟨hfin, by linarith, fun hb => by have := h2 hb; linarith⟩

namespace F32

theorem abs_toRat (x : F32) : |x.toRat| = (magValue x.mag : ℚ) / 2 ^ 149 := by
  unfold toRat
  rw [abs_div, abs_of_pos (show (0 : ℚ) < 2 ^ 149 by positivity)]
  congr 1
  have := abs_scaled x
  exact_mod_cast this

/-- A coordinate of size at most 1 has a pattern at most that of `1.0`. -/
theorem mag_le_of_abs_le_one {x : F32} (h : |x.toRat| ≤ 1) : x.mag ≤ 1065353216 := by
  rw [abs_toRat, div_le_one (by positivity)] at h
  have h2 : magValue x.mag ≤ 2 ^ 149 := by exact_mod_cast h
  rw [← magValue_2p0] at h2
  exact magValue_le_iff.mp h2

/-- A coordinate of size at least `1/256` has a pattern at least that of
`2^-8`. -/
theorem mag_ge_of_abs_ge {x : F32} (h : 1 / 256 ≤ |x.toRat|) : 998244352 ≤ x.mag := by
  rw [abs_toRat, div_le_div_iff₀ (by norm_num) (by positivity)] at h
  have h2 : (2 : ℚ) ^ 141 * 256 ≤ (magValue x.mag : ℚ) * 256 := by
    calc (2 : ℚ) ^ 141 * 256 = 1 * 2 ^ 149 := by norm_num
      _ ≤ (magValue x.mag : ℚ) * 256 := h
  have h3 : (2 : ℚ) ^ 141 ≤ (magValue x.mag : ℚ) := le_of_mul_le_mul_right h2 (by norm_num)
  have h4 : 2 ^ 141 ≤ magValue x.mag := by exact_mod_cast h3
  rw [← magValue_2pm8] at h4
  exact magValue_le_iff.mp h4

theorem term_toRat (a c m : F32) :
    (a.toRat - c.toRat) * m.toRat
      = (((a.scaled - c.scaled) * m.scaled : Int) : ℚ) / 2 ^ 298 := by
  unfold toRat
  push_cast
  have : (2 : ℚ) ^ 298 = 2 ^ 149 * 2 ^ 149 := by norm_num
  rw [this]
  field_simp

theorem term_toRat_nonneg {a c m : F32} (h : 0 ≤ (a.scaled - c.scaled) * m.scaled) :
    0 ≤ (a.toRat - c.toRat) * m.toRat := by
  rw [term_toRat]
  exact div_nonneg (by exact_mod_cast h) (by positivity)

theorem term_toRat_pos {a c m : F32} (h : 0 < (a.scaled - c.scaled) * m.scaled) :
    0 < (a.toRat - c.toRat) * m.toRat := by
  rw [term_toRat]
  exact div_pos (by exact_mod_cast h) (by positivity)

theorem term_toRat_nonpos {a c m : F32} (h : (a.scaled - c.scaled) * m.scaled ≤ 0) :
    (a.toRat - c.toRat) * m.toRat ≤ 0 := by
  rw [term_toRat]
  exact div_nonpos_of_nonpos_of_nonneg (by exact_mod_cast h) (by positivity)

theorem term_toRat_neg {a c m : F32} (h : (a.scaled - c.scaled) * m.scaled < 0) :
    (a.toRat - c.toRat) * m.toRat < 0 := by
  rw [term_toRat]
  exact div_neg_of_neg_of_pos (by exact_mod_cast h) (by positivity)

theorem dot_vecToRat (a p n : Vec3 F32) :
    dot (vecToRat a - vecToRat p) (vecToRat n)
      = (a.x.toRat - p.x.toRat) * n.x.toRat + (a.y.toRat - p.y.toRat) * n.y.toRat
        + (a.z.toRat - p.z.toRat) * n.z.toRat := rfl

theorem vecToRat_ne_of_dot_ne {a p n : Vec3 F32}
    (h : dot (vecToRat a - vecToRat p) (vecToRat n) ≠ 0) : vecToRat a ≠ vecToRat p := by
  intro he
  apply h
  rw [dot_vecToRat]
  have hx := congrArg Vec3.x he
  have hy := congrArg Vec3.y he
  have hz := congrArg Vec3.z he
  simp only [vecToRat] at hx hy hz
  rw [hx, hy, hz]
  ring

end F32

/-- The offset along `n`: a positive dot product with `n`. -/
theorem offset_dot_pos (p n : Vec3 F32)
    (hpx : p.x.mag + 256 < 2139095040) (hpy : p.y.mag + 256 < 2139095040)
    (hpz : p.z.mag + 256 < 2139095040)
    (hnx : n.x.mag ≤ 1065353216) (hny : n.y.mag ≤ 1065353216) (hnz : n.z.mag ≤ 1065353216)
    (hbig : 998244352 ≤ n.x.mag ∨ 998244352 ≤ n.y.mag ∨ 998244352 ≤ n.z.mag) :
    F32.vecFinite (RtPipeline1.offsetPositionAlongNormal p n)
    ∧ 0 < dot (F32.vecToRat (RtPipeline1.offsetPositionAlongNormal p n) - F32.vecToRat p)
        (F32.vecToRat n) := by
  obtain ⟨fx, x1, x2⟩ := offsetComponent_term p.x n.x hpx hnx
  obtain ⟨fy, y1, y2⟩ := offsetComponent_term p.y n.y hpy hny
  obtain ⟨fz, z1, z2⟩ := offsetComponent_term p.z n.z hpz hnz
  rw [rt1_offset_components]
  refine ⟨⟨fx, fy, fz⟩, ?_⟩
  rw [F32.dot_vecToRat]
  have tx := F32.term_toRat_nonneg x1
  have ty := F32.term_toRat_nonneg y1
  have tz := F32.term_toRat_nonneg z1
  rcases hbig with hb | hb | hb
  · have := F32.term_toRat_pos (x2 hb)
    linarith
  · have := F32.term_toRat_pos (y2 hb)
    linarith
  · have := F32.term_toRat_pos (z2 hb)
    linarith

/-- The offset along `-n`: a negative dot product with `n`. -/
theorem offset_dot_neg (p n : Vec3 F32)
    (hpx : p.x.mag + 256 < 2139095040) (hpy : p.y.mag + 256 < 2139095040)
    (hpz : p.z.mag + 256 < 2139095040)
    (hnx : n.x.mag ≤ 1065353216) (hny : n.y.mag ≤ 1065353216) (hnz : n.z.mag ≤ 1065353216)
    (hbig : 998244352 ≤ n.x.mag ∨ 998244352 ≤ n.y.mag ∨ 998244352 ≤ n.z.mag) :
    F32.vecFinite (RtPipeline1.offsetPositionAlongNormal p (-n))
    ∧ dot (F32.vecToRat (RtPipeline1.offsetPositionAlongNormal p (-n)) - F32.vecToRat p)
        (F32.vecToRat n) < 0 := by
  obtain ⟨fx, x1, x2⟩ := offsetComponent_neg_term p.x n.x hpx hnx
  obtain ⟨fy, y1, y2⟩ := offsetComponent_neg_term p.y n.y hpy hny
  obtain ⟨fz, z1, z2⟩ := offsetComponent_neg_term p.z n.z hpz hnz
  rw [rt1_offset_components]
  refine ⟨⟨fx, fy, fz⟩, ?_⟩
  rw [F32.dot_vecToRat]
  have tx := F32.term_toRat_nonpos x1
  have ty := F32.term_toRat_nonpos y1
  have tz := F32.term_toRat_nonpos z1
  show ((offsetComponent p.x (-n.x)).toRat - p.x.toRat) * n.x.toRat
    + ((offsetComponent p.y (-n.y)).toRat - p.y.toRat) * n.y.toRat
    + ((offsetComponent p.z (-n.z)).toRat - p.z.toRat) * n.z.toRat < 0
  rcases hbig with hb | hb | hb
  · have := F32.term_toRat_neg (x2 hb)
    linarith
  · have := F32.term_toRat_neg (y2 hb)
    linarith
  · have := F32.term_toRat_neg (z2 hb)
    linarith

/-! ### Opposite sides -/

set_option maxRecDepth 100000 in
/-- C9, as stated, fails: the position `(FLT_MAX, 0, 0)` is finite and
`(1, 0, 0)` is a unit normal, and the integer branch adds 256 to the pattern
`0x7F7FFFFF` of `FLT_MAX`, which gives the NaN pattern `0x7F8000FF`; the
offset is not a point on either side of the position. -/
theorem offsetPositionAlongNormal_not_opposite_near_max :
    F32.vecFinite (⟨⟨2139095039⟩, ⟨0⟩, ⟨0⟩⟩ : Vec3 F32)
    ∧ dot (F32.vecToRat ⟨⟨1065353216⟩, ⟨0⟩, ⟨0⟩⟩) (F32.vecToRat ⟨⟨1065353216⟩, ⟨0⟩, ⟨0⟩⟩) = 1
    ∧ (RtPipeline1.offsetPositionAlongNormal (⟨⟨2139095039⟩, ⟨0⟩, ⟨0⟩⟩ : Vec3 F32)
        ⟨⟨1065353216⟩, ⟨0⟩, ⟨0⟩⟩).x = ⟨2139095295⟩
    ∧ (⟨2139095295⟩ : F32).isNaN = true
    ∧ ¬ OffsetsOnOppositeSides ⟨⟨2139095039⟩, ⟨0⟩, ⟨0⟩⟩ ⟨⟨1065353216⟩, ⟨0⟩, ⟨0⟩⟩ := by
  have hx : (RtPipeline1.offsetPositionAlongNormal (⟨⟨2139095039⟩, ⟨0⟩, ⟨0⟩⟩ : Vec3 F32)
      ⟨⟨1065353216⟩, ⟨0⟩, ⟨0⟩⟩).x = ⟨2139095295⟩ := by decide
  refine ⟨⟨by decide, by decide, by decide⟩, ?_, hx, by decide, ?_⟩
  · have h1 : (⟨1065353216⟩ : F32).toRat = 1 := by
      unfold F32.toRat
      rw [@F32.pattern_scaled 1065353216 (by norm_num), F32.magValue_2p0]
      norm_num
    have h0 : (⟨0⟩ : F32).toRat = 0 := by
      unfold F32.toRat
      rw [@F32.pattern_scaled 0 (by norm_num), F32.magValue_zero]
      norm_num
    simp only [dot, F32.vecToRat, h1, h0]
    norm_num
  · intro h
    have hf := h.1.1
    rw [hx] at hf
    exact absurd hf (by decide)

/-- C9, amended: for every position whose coordinates are each more than 256
patterns below the pattern of infinity, and every normal with all coordinates
of size at most 1 and one of size at least `1/256` (every unit normal is
such), the offsets along `n` and along `-n` are finite points with
`dot(offset(p, n) - p, n) > 0` and `dot(offset(p, -n) - p, n) < 0`, and each
differs from `p` in some coordinate; this covers positions near the origin
and far from it, with binary32 values modelled by their bit patterns and
round-to-nearest-even arithmetic. -/
theorem offsetPositionAlongNormal_opposite_sides (p n : Vec3 F32)
    (hpx : p.x.mag + 256 < 2139095040) (hpy : p.y.mag + 256 < 2139095040)
    (hpz : p.z.mag + 256 < 2139095040)
    (hnx : |n.x.toRat| ≤ 1) (hny : |n.y.toRat| ≤ 1) (hnz : |n.z.toRat| ≤ 1)
    (hbig : 1 / 256 ≤ |n.x.toRat| ∨ 1 / 256 ≤ |n.y.toRat| ∨ 1 / 256 ≤ |n.z.toRat|) :
    OffsetsOnOppositeSides p n := by
  have hmx := F32.mag_le_of_abs_le_one hnx
  have hmy := F32.mag_le_of_abs_le_one hny
  have hmz := F32.mag_le_of_abs_le_one hnz
  have hb : 998244352 ≤ n.x.mag ∨ 998244352 ≤ n.y.mag ∨ 998244352 ≤ n.z.mag := by
    rcases hbig with h | h | h
    · exact Or.inl (F32.mag_ge_of_abs_ge h)
    · exact Or.inr (Or.inl (F32.mag_ge_of_abs_ge h))
    · exact Or.inr (Or.inr (F32.mag_ge_of_abs_ge h))
  obtain ⟨f1, d1⟩ := offset_dot_pos p n hpx hpy hpz hmx hmy hmz hb
  obtain ⟨f2, d2⟩ := offset_dot_neg p n hpx hpy hpz hmx hmy hmz hb
  exact ⟨f1, f2, d1, d2, F32.vecToRat_ne_of_dot_ne (ne_of_gt d1),
    F32.vecToRat_ne_of_dot_ne (ne_of_lt d2)⟩

/-- A unit normal (exact values) satisfies the conditions on the normal of the
amended C9. -/
theorem unit_normal_conditions (n : Vec3 F32)
    (h : dot (F32.vecToRat n) (F32.vecToRat n) = 1) :
    (|n.x.toRat| ≤ 1 ∧ |n.y.toRat| ≤ 1 ∧ |n.z.toRat| ≤ 1)
    ∧ (1 / 256 ≤ |n.x.toRat| ∨ 1 / 256 ≤ |n.y.toRat| ∨ 1 / 256 ≤ |n.z.toRat|) := by
  have h' : n.x.toRat * n.x.toRat + n.y.toRat * n.y.toRat + n.z.toRat * n.z.toRat = 1 := h
  refine ⟨⟨?_, ?_, ?_⟩, ?_⟩
  · rw [abs_le]
    constructor <;> nlinarith [mul_self_nonneg n.y.toRat, mul_self_nonneg n.z.toRat,
      mul_self_nonneg (n.x.toRat - 1), mul_self_nonneg (n.x.toRat + 1)]
  · rw [abs_le]
    constructor <;> nlinarith [mul_self_nonneg n.x.toRat, mul_self_nonneg n.z.toRat,
      mul_self_nonneg (n.y.toRat - 1), mul_self_nonneg (n.y.toRat + 1)]
  · rw [abs_le]
    constructor <;> nlinarith [mul_self_nonneg n.x.toRat, mul_self_nonneg n.y.toRat,
      mul_self_nonneg (n.z.toRat - 1), mul_self_nonneg (n.z.toRat + 1)]
  · by_contra hc
    push_neg at hc
    obtain ⟨hx, hy, hz⟩ := hc
    have sx : n.x.toRat * n.x.toRat < 1 / 3 := by
      have := abs_lt.mp hx
      nlinarith [this.1, this.2]
    have sy : n.y.toRat * n.y.toRat < 1 / 3 := by
      have := abs_lt.mp hy
      nlinarith [this.1, this.2]
    have sz : n.z.toRat * n.z.toRat < 1 / 3 := by
      have := abs_lt.mp hz
      nlinarith [this.1, this.2]
    linarith

/-- Witness for the amended C9: the position `(-0.02, 100, -3e10)` and the
normal `(-0.3, 0.9, 0.31)`, rounded to binary32. -/
theorem offsetPositionAlongNormal_opposite_sides_witness :
    OffsetsOnOppositeSides samplePosition sampleNormal :=
  offsetPositionAlongNormal_opposite_sides samplePosition sampleNormal
    (by decide) (by decide) (by decide)
    (by norm_num [sampleNormal, F32.toRat, F32.scaled, F32.sign, F32.scaledAbs, F32.mag,
      magValue, abs_le])
    (by norm_num [sampleNormal, F32.toRat, F32.scaled, F32.sign, F32.scaledAbs, F32.mag,
      magValue, abs_le])
    (by norm_num [sampleNormal, F32.toRat, F32.scaled, F32.sign, F32.scaledAbs, F32.mag,
      magValue, abs_le])
    (Or.inl (by norm_num [sampleNormal, F32.toRat, F32.scaled, F32.sign, F32.scaledAbs,
      F32.mag, magValue, le_abs]))

set_option maxRecDepth 100000 in
/-- The offsets of the sample position along the sample normal and along its
negation, evaluated on bit patterns: `(-0.0200046, 100.00175, -29999839232)`
and `(-0.0199954, 99.99825, -30000162816)`. -/
theorem offsetPositionAlongNormal_sample :
    RtPipeline1.offsetPositionAlongNormal samplePosition sampleNormal
      = ⟨⟨3164856484⟩, ⟨1120403686⟩, ⟨3504309287⟩⟩
    ∧ RtPipeline1.offsetPositionAlongNormal samplePosition (-sampleNormal)
      = ⟨⟨3164851568⟩, ⟨1120403226⟩, ⟨3504309445⟩⟩ := by
  constructor <;> decide

/-! ### The random value in binary32 -/

namespace F32

theorem magValue_2p32 : magValue 1333788672 = 2 ^ 181 := by norm_num [magValue]

set_option maxRecDepth 8000 in
theorem lit_rng_divisor : (4294967295.0 : F32) = ⟨1333788672⟩ := by decide

theorem ofUInt_def (u : Nat) :
    (GLSLConversions.ofUInt u : F32) = ofRatio false (u * 2 ^ 149) 1 := rfl

/-- The conversion `float(u)` of a 32-bit word is at most `2^32`. -/
theorem ofUInt_bounds (u : Nat) (hu : u < 4294967296) :
    (GLSLConversions.ofUInt u : F32).sign = 0
    ∧ (GLSLConversions.ofUInt u : F32).mag ≤ 1333788672 := by
  rw [ofUInt_def, ofRatio_sign, ofRatio_mag]
  refine ⟨rfl, ?_⟩
  apply roundMag_le
  apply ratioQuarters_le
  rw [magValue_2p32, Nat.mul_one]
  calc u * 2 ^ 149 ≤ 4294967296 * 2 ^ 149 := Nat.mul_le_mul_right _ (by omega)
    _ = 2 ^ 181 := by norm_num

theorem div_of_finite {x y : F32} (hx : x.isFinite = true) (hy : y.isFinite = true)
    (hy0 : y.mag ≠ 0) :
    div x y = ofRatio (decide (x.sign ≠ y.sign)) (x.scaledAbs * 2 ^ 149) y.scaledAbs := by
  unfold div
  simp only [isNaN_of_finite hx, isNaN_of_finite hy, isInf_of_finite hx, isInf_of_finite hy,
    Bool.or_self, Bool.false_eq_true, if_false, hy0]

/-- The quotient of a 32-bit word, converted to binary32, by the binary32
divisor `4294967295.0f` is a finite value between 0 and 1. -/
theorem rng_quotient_bounds (u : Nat) (hu : u < 4294967296) :
    ((GLSLConversions.ofUInt u : F32) / 4294967295.0).isFinite = true
    ∧ 0 ≤ ((GLSLConversions.ofUInt u : F32) / 4294967295.0).toRat
    ∧ ((GLSLConversions.ofUInt u : F32) / 4294967295.0).toRat ≤ 1 := by
  obtain ⟨hxs, hxm⟩ := ofUInt_bounds u hu
  have hxf : (GLSLConversions.ofUInt u : F32).isFinite = true := (isFinite_iff _).mpr (by omega)
  have hyf : (⟨1333788672⟩ : F32).isFinite = true := by decide
  have hym : (⟨1333788672⟩ : F32).mag = 1333788672 := by decide
  have hys : (⟨1333788672⟩ : F32).sign = 0 := by decide
  have hX : magValue (GLSLConversions.ofUInt u : F32).mag ≤ 2 ^ 181 := by
    rw [← magValue_2p32]
    exact magValue_le_iff.mpr hxm
  rw [lit_rng_divisor, div_def, div_of_finite hxf hyf (by rw [hym]; norm_num)]
  have hsign : (ofRatio (decide ((GLSLConversions.ofUInt u : F32).sign
      ≠ (⟨1333788672⟩ : F32).sign))
      ((GLSLConversions.ofUInt u : F32).scaledAbs * 2 ^ 149)
      (⟨1333788672⟩ : F32).scaledAbs).sign = 0 := by
    rw [ofRatio_sign, hxs, hys]
    rfl
  have hmag : (ofRatio (decide ((GLSLConversions.ofUInt u : F32).sign
      ≠ (⟨1333788672⟩ : F32).sign))
      ((GLSLConversions.ofUInt u : F32).scaledAbs * 2 ^ 149)
      (⟨1333788672⟩ : F32).scaledAbs).mag ≤ 1065353216 := by
    rw [ofRatio_mag]
    apply roundMag_le
    apply ratioQuarters_le
    unfold scaledAbs
    rw [hym, magValue_2p32, magValue_2p0]
    calc magValue (GLSLConversions.ofUInt u : F32).mag * 2 ^ 149
        ≤ 2 ^ 181 * 2 ^ 149 := Nat.mul_le_mul_right _ hX
      _ = 2 ^ 149 * 2 ^ 181 := Nat.mul_comm _ _
  generalize ofRatio (decide ((GLSLConversions.ofUInt u : F32).sign
      ≠ (⟨1333788672⟩ : F32).sign))
      ((GLSLConversions.ofUInt u : F32).scaledAbs * 2 ^ 149)
      (⟨1333788672⟩ : F32).scaledAbs = v at hsign hmag
  have hV : magValue v.mag ≤ 2 ^ 149 := by
    rw [← magValue_2p0]
    exact magValue_le_iff.mpr hmag
  refine ⟨(isFinite_iff v).mpr (by omega), ?_, ?_⟩
  · unfold toRat
    rw [scaled_of_sign_zero hsign]
    positivity
  · unfold toRat
    rw [scaled_of_sign_zero hsign, div_le_one (by positivity)]
    exact_mod_cast hV

end F32

theorem rt1_rng_f32 (s : Nat) :
    (RtPipeline1.stepAndOutputRNGFloat F32 s).1
      = (GLSLConversions.ofUInt (referenceOutput (referenceStep s)) : F32) / 4294967295.0 := by
  have h := rng_word_eq (referenceStep s) (referenceStep_lt s)
  simp only [RtPipeline1.stepAndOutputRNGFloat, rng_state_eq] at h ⊢
  rw [h]

/-- C2: for every state the value returned by `stepAndOutputRNGFloat` lies in
the closed interval `[0, 1]`: in exact arithmetic `0 <= w / 4294967295 <= 1`
for the output word `w`, and the binary32 value computed by the shader is a
finite number between 0 and 1 as well. -/
theorem stepAndOutputRNGFloat_mem_unit (s : Nat) :
    (0 ≤ (RtPipeline1.stepAndOutputRNGFloat ℝ s).1
      ∧ (RtPipeline1.stepAndOutputRNGFloat ℝ s).1 ≤ 1)
    ∧ ((RtPipeline1.stepAndOutputRNGFloat F32 s).1.isFinite = true
      ∧ 0 ≤ (RtPipeline1.stepAndOutputRNGFloat F32 s).1.toRat
      ∧ (RtPipeline1.stepAndOutputRNGFloat F32 s).1.toRat ≤ 1) := by
  have h := referenceOutput_lt (referenceStep s)
  constructor
  · rw [rt1_rng_eq]
    have h2 : (referenceOutput (referenceStep s) : ℝ) ≤ 4294967295 := by
      exact_mod_cast Nat.lt_succ_iff.mp h
    constructor
    · positivity
    · rw [div_le_one (by norm_num)]
      exact h2
  · rw [rt1_rng_f32]
    exact F32.rng_quotient_bounds _ h


/-! ### Diffuse sampling -/

theorem rt1_k_pi_eq : (RtPipeline1.k_pi : ℝ) = 314159265 / 100000000 := by
  unfold RtPipeline1.k_pi
  norm_num

theorem rt2_k_pi_eq : (RtPipeline2.k_pi : ℝ) = (RtPipeline1.k_pi : ℝ) := rfl

/-- The shader's constant for pi is within `10^-8` of pi. -/
theorem rt1_k_pi_near_pi : |(RtPipeline1.k_pi : ℝ) - Real.pi| < 1 / 10 ^ 8 := by
  rw [rt1_k_pi_eq, abs_lt]
  have h1 := Real.pi_gt_d20
  have h2 := Real.pi_lt_d20
  constructor <;> norm_num at h1 h2 ⊢ <;> linarith

theorem rt1_diffuse_eq (normal : Vec3 ℝ) (s : Nat) :
    RtPipeline1.diffuseReflection normal s
      = (referenceDiffuse RtPipeline1.k_pi normal
          (RtPipeline1.stepAndOutputRNGFloat ℝ s).1
          (RtPipeline1.stepAndOutputRNGFloat ℝ (RtPipeline1.stepAndOutputRNGFloat ℝ s).2).1,
         (RtPipeline1.stepAndOutputRNGFloat ℝ (RtPipeline1.stepAndOutputRNGFloat ℝ s).2).2) := by
  unfold RtPipeline1.diffuseReflection referenceDiffuse sphereOffset
  simp only [lit_two, lit_one]
  rfl

theorem rt3_diffuse_eq (normal : Vec3 ℝ) (s : Nat) :
    RtPipeline3.diffuseReflection normal s = RtPipeline1.diffuseReflection normal s := by
  unfold RtPipeline3.diffuseReflection RtPipeline1.diffuseReflection
  rw [rt2_rng_eq, rt1_rng_eq]
  simp only [rt2_rng_eq, rt1_rng_eq, rt2_k_pi_eq]

/-- C11: `diffuseReflection` (both copies, exact arithmetic) is the reference
parametrisation: with `r1` and `r2` the first and second value obtained by
stepping the generator from `s`, the result is
`normalize(normal + (r*cos(theta), r*sin(theta), u))` for
`theta = 2*k_pi*r1`, `u = 2*r2 - 1`, `r = sqrt(1 - u*u)`, and the state
afterwards is `s` stepped twice. The value of pi is the shader's constant
`k_pi = 3.14159265`, within `10^-8` of pi. -/
theorem diffuseReflection_eq_reference (normal : Vec3 ℝ) (s : Nat) :
    RtPipeline1.diffuseReflection normal s
      = (referenceDiffuse RtPipeline1.k_pi normal
          (RtPipeline1.stepAndOutputRNGFloat ℝ s).1
          (RtPipeline1.stepAndOutputRNGFloat ℝ (RtPipeline1.stepAndOutputRNGFloat ℝ s).2).1,
         (RtPipeline1.stepAndOutputRNGFloat ℝ (RtPipeline1.stepAndOutputRNGFloat ℝ s).2).2)
    ∧ (RtPipeline1.diffuseReflection normal s).2 = referenceStep (referenceStep s)
    ∧ RtPipeline3.diffuseReflection normal s = RtPipeline1.diffuseReflection normal s
    ∧ |(RtPipeline1.k_pi : ℝ) - Real.pi| < 1 / 10 ^ 8 := by
  refine ⟨rt1_diffuse_eq normal s, ?_, rt3_diffuse_eq normal s, rt1_k_pi_near_pi⟩
  rw [rt1_diffuse_eq]
  simp only [rt1_rng_eq]

theorem rt1_rng_value_mem (s : Nat) :
    0 ≤ (RtPipeline1.stepAndOutputRNGFloat ℝ s).1
    ∧ (RtPipeline1.stepAndOutputRNGFloat ℝ s).1 ≤ 1 := by
  rw [rt1_rng_eq]
  have h := referenceOutput_lt (referenceStep s)
  have h2 : (referenceOutput (referenceStep s) : ℝ) ≤ 4294967295 := by
    exact_mod_cast Nat.lt_succ_iff.mp h
  constructor
  · positivity
  · rw [div_le_one (by norm_num)]
    exact h2

/-- The point picked by the reference parametrisation lies on the unit
sphere, whatever the angle, once `r2` is in `[0, 1]`. -/
theorem sphereOffset_dot_self (pi r1 r2 : ℝ) (h0 : 0 ≤ r2) (h1 : r2 ≤ 1) :
    dot (sphereOffset pi r1 r2) (sphereOffset pi r1 r2) = 1 := by
  have hu : 0 ≤ 1 - (2 * r2 - 1) * (2 * r2 - 1) := by nlinarith
  have hr := Real.mul_self_sqrt hu
  have hcs := Real.cos_sq_add_sin_sq (2 * pi * r1)
  simp only [sphereOffset, dot]
  generalize Real.sqrt (1 - (2 * r2 - 1) * (2 * r2 - 1)) = r at hr
  generalize Real.cos (2 * pi * r1) = c at hcs
  generalize Real.sin (2 * pi * r1) = sn at hcs
  have : r * c * (r * c) + r * sn * (r * sn) = r * r * (c ^ 2 + sn ^ 2) := by ring
  rw [this, hcs, hr]
  ring

theorem glsl_dot_add_left (a b c : Vec3 ℝ) : dot (a + b) c = dot a c + dot b c := by
  simp only [dot, vec3_add_x, vec3_add_y, vec3_add_z]
  ring

theorem glsl_dot_add_right (a b c : Vec3 ℝ) : dot a (b + c) = dot a b + dot a c := by
  simp only [dot, vec3_add_x, vec3_add_y, vec3_add_z]
  ring

theorem glsl_dot_self_of_length_one {a : Vec3 ℝ} (h : GLSL.length a = 1) : dot a a = 1 := by
  have h2 : Real.sqrt (dot a a) = 1 := h
  have h3 := Real.mul_self_sqrt (glsl_dot_self_nonneg a)
  rw [h2] at h3
  linarith

/-- A unit normal plus a point of the unit sphere, normalised: a unit vector
in the hemisphere of the normal, unless the sum vanishes. -/
theorem glsl_normalize_sum_hemisphere {n o : Vec3 ℝ} (hn : dot n n = 1) (ho : dot o o = 1)
    (hv : n + o ≠ ⟨0, 0, 0⟩) :
    GLSL.length (GLSL.normalize (n + o)) = 1 ∧ 0 ≤ dot (GLSL.normalize (n + o)) n := by
  refine ⟨glsl_length_normalize hv, ?_⟩
  have hp := (glsl_length_pos_iff (n + o)).mpr hv
  unfold GLSL.normalize
  rw [glsl_dot_divs_left]
  apply div_nonneg _ (le_of_lt hp)
  have h1 := glsl_dot_self_nonneg (n + o)
  rw [glsl_dot_add_left, glsl_dot_add_right, glsl_dot_add_right, hn, ho,
    glsl_dot_comm o n] at h1
  rw [glsl_dot_add_left, hn, glsl_dot_comm o n]
  linarith

/-- The unit normal `(0, 0, 1)`. -/
theorem upNormal_length : GLSL.length (⟨0, 0, 1⟩ : Vec3 ℝ) = 1 := by
  show Real.sqrt (dot (⟨0, 0, 1⟩ : Vec3 ℝ) ⟨0, 0, 1⟩) = 1
  simp [dot]

theorem rng_second_zero :
    (RtPipeline1.stepAndOutputRNGFloat ℝ
      (RtPipeline1.stepAndOutputRNGFloat ℝ 1977226522).2).1 = 0 := by
  simp only [rt1_rng_eq]
  have : referenceOutput (referenceStep (referenceStep 1977226522)) = 0 := by decide
  rw [this]
  simp

/-- C12, as stated, fails: from the state 1977226522 the second random number
is 0, so `u = -1`, `r = 0` and the sampled point is `(0, 0, -1)`; for the unit
normal `(0, 0, 1)` the sum is the zero vector, which `normalize` cannot bring
to length 1 (GLSL leaves the result undefined; the exact reading divides zero
by zero and keeps the zero vector). -/
theorem diffuseReflection_not_unit_opposite :
    GLSL.length (⟨0, 0, 1⟩ : Vec3 ℝ) = 1
    ∧ (⟨0, 0, 1⟩ : Vec3 ℝ) + sphereOffset RtPipeline1.k_pi
        (RtPipeline1.stepAndOutputRNGFloat ℝ 1977226522).1
        (RtPipeline1.stepAndOutputRNGFloat ℝ
          (RtPipeline1.stepAndOutputRNGFloat ℝ 1977226522).2).1 = ⟨0, 0, 0⟩
    ∧ GLSL.length (RtPipeline1.diffuseReflection (⟨0, 0, 1⟩ : Vec3 ℝ) 1977226522).1 ≠ 1 := by
  have hz : (⟨0, 0, 1⟩ : Vec3 ℝ) + sphereOffset RtPipeline1.k_pi
        (RtPipeline1.stepAndOutputRNGFloat ℝ 1977226522).1
        (RtPipeline1.stepAndOutputRNGFloat ℝ
          (RtPipeline1.stepAndOutputRNGFloat ℝ 1977226522).2).1 = ⟨0, 0, 0⟩ := by
    rw [rng_second_zero]
    ext <;> simp [sphereOffset, vec3_add_x, vec3_add_y, vec3_add_z]
  refine ⟨upNormal_length, hz, ?_⟩
  rw [rt1_diffuse_eq]
  show GLSL.length (GLSL.normalize _) ≠ 1
  rw [hz, glsl_normalize_zero, glsl_length_zero]
  norm_num

/-- C12, amended: for every unit normal `n` and every RNG state for which
`n` plus the sampled point of the unit sphere is not the zero vector, the
direction returned by `diffuseReflection` has unit length and lies in the
hemisphere of `n`: `dot(direction, n) >= 0` (exact real arithmetic). -/
theorem diffuseReflection_unit_hemisphere (n : Vec3 ℝ) (s : Nat)
    (hn : GLSL.length n = 1)
    (hv : n + sphereOffset RtPipeline1.k_pi
        (RtPipeline1.stepAndOutputRNGFloat ℝ s).1
        (RtPipeline1.stepAndOutputRNGFloat ℝ
          (RtPipeline1.stepAndOutputRNGFloat ℝ s).2).1 ≠ ⟨0, 0, 0⟩) :
    GLSL.length (RtPipeline1.diffuseReflection n s).1 = 1
    ∧ 0 ≤ dot (RtPipeline1.diffuseReflection n s).1 n := by
  rw [rt1_diffuse_eq]
  obtain ⟨h0, h1⟩ := rt1_rng_value_mem (RtPipeline1.stepAndOutputRNGFloat ℝ s).2
  exact glsl_normalize_sum_hemisphere (glsl_dot_self_of_length_one hn)
    (sphereOffset_dot_self _ _ _ h0 h1) hv

theorem rng_second_of_five :
    (RtPipeline1.stepAndOutputRNGFloat ℝ
      (RtPipeline1.stepAndOutputRNGFloat ℝ 5).2).1 = 2252888190 / 4294967295 := by
  simp only [rt1_rng_eq]
  have : referenceOutput (referenceStep (referenceStep 5)) = 2252888190 := by decide
  rw [this]
  norm_num

/-- Witness for the amended C12: the normal `(0, 0, 1)` and the state 5. -/
theorem diffuseReflection_unit_hemisphere_witness :
    GLSL.length (RtPipeline1.diffuseReflection (⟨0, 0, 1⟩ : Vec3 ℝ) 5).1 = 1
    ∧ 0 ≤ dot (RtPipeline1.diffuseReflection (⟨0, 0, 1⟩ : Vec3 ℝ) 5).1 ⟨0, 0, 1⟩ :=
  diffuseReflection_unit_hemisphere ⟨0, 0, 1⟩ 5 upNormal_length (by
    rw [rng_second_of_five]
    intro h
    have hz := congrArg Vec3.z h
    simp only [sphereOffset, vec3_add_z] at hz
    norm_num at hz)

/-! ### The stochastic materials -/

section MaterialClaims

variable (indices : List Nat) (vertices : List (Vec3 ℝ))

theorem lit_080 : (80.0 : ℝ) = 80 := by norm_num

theorem glsl_dot_sub_smul (d n : Vec3 ℝ) (k : ℝ) :
    dot (d - k * n) n = dot d n - k * dot n n := by
  simp only [dot, vec3_sub_x, vec3_sub_y, vec3_sub_z, vec3_smul_x, vec3_smul_y, vec3_smul_z]
  ring

/-- The last step of `material6`: a direction with `dot(d, n) <= 0` is
replaced by its reflection about the unit normal `n`, and the result never
points against `n`. -/
theorem glsl_reflect_fix_nonneg (d n : Vec3 ℝ) (hn : dot n n = 1) :
    0 ≤ dot (if dot d n ≤ 0 then d - (2 * dot d n) * n else d) n := by
  split
  · next h =>
    rw [glsl_dot_sub_smul, hn]
    linarith
  · next h =>
    exact le_of_lt (not_le.mp h)

theorem rt1_material6_of_hit {rq : RayQuery ℝ} {rngState : Nat} {h : RtPipeline1.HitInfo ℝ}
    (hh : RtPipeline1.getObjectHitInfo indices vertices rq = some h) :
    RtPipeline1.material6 indices vertices rq rngState
      = some (⟨vec3 0.7, RtPipeline1.offsetPositionAlongNormal h.worldPosition h.worldNormal,
          if dot (referenceShadedBounce rq.worldRayDirection
                (referenceShadingNormal h.worldNormal h.worldPosition) rngState).1
              h.worldNormal ≤ 0
          then (referenceShadedBounce rq.worldRayDirection
                (referenceShadingNormal h.worldNormal h.worldPosition) rngState).1
            - (2 * dot (referenceShadedBounce rq.worldRayDirection
                (referenceShadingNormal h.worldNormal h.worldPosition) rngState).1
                h.worldNormal) * h.worldNormal
          else (referenceShadedBounce rq.worldRayDirection
                (referenceShadingNormal h.worldNormal h.worldPosition) rngState).1⟩,
        (referenceShadedBounce rq.worldRayDirection
          (referenceShadingNormal h.worldNormal h.worldPosition) rngState).2) := by
  unfold RtPipeline1.material6 referenceShadedBounce referenceShadingNormal
  rw [hh]
  simp only [lit_zero, lit_080, glsl_reflect_eq]
  rfl

/-- C13: for every resolved hit with unit geometric normal `n` and every RNG
state, `material6` returns a direction with `dot(rayDirection, n) >= 0`: the
direction drawn from the shading normal is replaced by its reflection
`direction - 2*dot(direction, n)*n` when `dot(direction, n) <= 0`, and is
returned unchanged otherwise. -/
theorem material6_not_into_surface (rq : RayQuery ℝ) (rngState : Nat)
    (h : RtPipeline1.HitInfo ℝ)
    (hh : RtPipeline1.getObjectHitInfo indices vertices rq = some h)
    (hn : GLSL.length h.worldNormal = 1) :
    ∃ r s, RtPipeline1.material6 indices vertices rq rngState = some (r, s)
      ∧ r.rayDirection
          = (if dot (referenceShadedBounce rq.worldRayDirection
                (referenceShadingNormal h.worldNormal h.worldPosition) rngState).1
              h.worldNormal ≤ 0
            then (referenceShadedBounce rq.worldRayDirection
                  (referenceShadingNormal h.worldNormal h.worldPosition) rngState).1
              - (2 * dot (referenceShadedBounce rq.worldRayDirection
                  (referenceShadingNormal h.worldNormal h.worldPosition) rngState).1
                  h.worldNormal) * h.worldNormal
            else (referenceShadedBounce rq.worldRayDirection
                  (referenceShadingNormal h.worldNormal h.worldPosition) rngState).1)
      ∧ 0 ≤ dot r.rayDirection h.worldNormal :=
  ⟨_, _, rt1_material6_of_hit indices vertices hh, rfl,
    glsl_reflect_fix_nonneg _ _ (glsl_dot_self_of_length_one hn)⟩

/-- The sample hit is resolved, with a unit normal. -/
theorem sample_hit_resolved :
    ∃ h, RtPipeline1.getObjectHitInfo sampleIndices sampleVertices sampleRayQuery = some h
      ∧ GLSL.length h.worldNormal = 1 := by
  refine ⟨_, rt1_getObjectHitInfo_of_fetch sample_fetch, ?_⟩
  show GLSL.length (faceforward _ _ _) = 1
  rw [glsl_length_faceforward]
  apply glsl_length_normalize
  rw [vec3_mulMat_xyz]
  intro h
  have := congrArg Vec3.z h
  simp [sampleRayQuery, identityTransform, cross, dot, vec3_sub_x, vec3_sub_y,
    vec3_sub_z] at this

/-- Witness for C13: the sample hit, from the state 5. -/
theorem material6_not_into_surface_witness :
    ∃ h, RtPipeline1.getObjectHitInfo sampleIndices sampleVertices sampleRayQuery = some h
      ∧ ∃ r s, RtPipeline1.material6 sampleIndices sampleVertices sampleRayQuery 5
          = some (r, s)
        ∧ r.rayDirection
          = (if dot (referenceShadedBounce sampleRayQuery.worldRayDirection
                (referenceShadingNormal h.worldNormal h.worldPosition) 5).1
              h.worldNormal ≤ 0
            then (referenceShadedBounce sampleRayQuery.worldRayDirection
                  (referenceShadingNormal h.worldNormal h.worldPosition) 5).1
              - (2 * dot (referenceShadedBounce sampleRayQuery.worldRayDirection
                  (referenceShadingNormal h.worldNormal h.worldPosition) 5).1
                  h.worldNormal) * h.worldNormal
            else (referenceShadedBounce sampleRayQuery.worldRayDirection
                  (referenceShadingNormal h.worldNormal h.worldPosition) 5).1)
        ∧ 0 ≤ dot r.rayDirection h.worldNormal := by
  obtain ⟨h, hh, hn⟩ := sample_hit_resolved
  exact ⟨h, hh, material6_not_into_surface sampleIndices sampleVertices sampleRayQuery 5 h hh hn⟩

end MaterialClaims

section PatternClaims

variable (indices : List Nat) (vertices : List (Vec3 ℝ))

theorem glsl_mod_eq (x y : ℝ) : GLSL.mod x y = x - y * (⌊x / y⌋ : ℝ) := rfl

theorem vec3_const_ne : (vec3 0.7 : Vec3 ℝ) ≠ vec3 1.0 := by
  intro h
  have := congrArg Vec3.x h
  simp only [vec3] at this
  norm_num at this

theorem rt1_material8_of_hit {rq : RayQuery ℝ} {rngState : Nat} {h : RtPipeline1.HitInfo ℝ}
    (hh : RtPipeline1.getObjectHitInfo indices vertices rq = some h) :
    RtPipeline1.material8 indices vertices rq rngState
      = some (if GLSL.mod (GLSL.length h.objectPosition) 0.2 < 0.05
          then (⟨vec3 1.0,
              RtPipeline1.offsetPositionAlongNormal h.worldPosition (-h.worldNormal),
              rq.worldRayDirection⟩, rngState)
          else (⟨vec3 0.7,
              RtPipeline1.offsetPositionAlongNormal h.worldPosition h.worldNormal,
              (RtPipeline1.diffuseReflection h.worldNormal rngState).1⟩,
            (RtPipeline1.diffuseReflection h.worldNormal rngState).2)) := by
  unfold RtPipeline1.material8
  rw [hh]
  by_cases hc : GLSL.mod (GLSL.length h.objectPosition) 0.2 < 0.05
  · rw [if_pos hc]
    have hn : ¬ (GLSL.mod (GLSL.length h.objectPosition) 0.2 ≥ (0.05 : ℝ)) := not_le.mpr hc
    simp only [Option.bind_eq_bind, Option.some_bind, if_neg hn]
    rfl
  · rw [if_neg hc]
    have hp : GLSL.mod (GLSL.length h.objectPosition) 0.2 ≥ (0.05 : ℝ) := not_lt.mp hc
    simp only [Option.bind_eq_bind, Option.some_bind, if_pos hp]
    rfl

theorem rt1_material5_of_hit {rq : RayQuery ℝ} {rngState : Nat} {h : RtPipeline1.HitInfo ℝ}
    (hh : RtPipeline1.getObjectHitInfo indices vertices rq = some h) :
    RtPipeline1.material5 indices vertices rq rngState
      = some (if GLSL.mod (dot h.objectPosition ⟨1.0, 1.0, 1.0⟩) 0.5 < 0.25
          then (⟨vec3 1.0,
              RtPipeline1.offsetPositionAlongNormal h.worldPosition (-h.worldNormal),
              rq.worldRayDirection⟩, rngState)
          else (⟨vec3 0.7,
              RtPipeline1.offsetPositionAlongNormal h.worldPosition h.worldNormal,
              (RtPipeline1.diffuseReflection h.worldNormal rngState).1⟩,
            (RtPipeline1.diffuseReflection h.worldNormal rngState).2)) := by
  unfold RtPipeline1.material5
  rw [hh]
  by_cases hc : GLSL.mod (dot h.objectPosition ⟨1.0, 1.0, 1.0⟩) 0.5 < 0.25
  · rw [if_pos hc]
    have hn : ¬ (GLSL.mod (dot h.objectPosition ⟨1.0, 1.0, 1.0⟩) 0.5 ≥ (0.25 : ℝ)) :=
      not_le.mpr hc
    simp only [Option.bind_eq_bind, Option.some_bind, if_neg hn]
    rfl
  · rw [if_neg hc]
    have hp : GLSL.mod (dot h.objectPosition ⟨1.0, 1.0, 1.0⟩) 0.5 ≥ (0.25 : ℝ) := not_lt.mp hc
    simp only [Option.bind_eq_bind, Option.some_bind, if_pos hp]
    rfl

theorem glsl_dot_ones (p : Vec3 ℝ) : dot p ⟨1.0, 1.0, 1.0⟩ = p.x + p.y + p.z := by
  simp only [dot, lit_one, mul_one]

/-- The hit of `edgeRayQuery` is resolved at the object position `(3/10, 0, 0)`. -/
theorem edge_hit_resolved :
    ∃ h, RtPipeline1.getObjectHitInfo sampleIndices sampleVertices edgeRayQuery = some h
      ∧ h.objectPosition = ⟨3 / 10, 0, 0⟩ := by
  refine ⟨_, rt1_getObjectHitInfo_of_fetch sample_fetch, ?_⟩
  show _ * _ + _ * _ + _ * _ = _
  ext <;>
    simp [edgeRayQuery, RtPipeline1.hitBarycentrics, vec3_add_x, vec3_add_y, vec3_add_z,
      vec3_muls_x, vec3_muls_y, vec3_muls_z]

theorem edge_length : GLSL.length (⟨3 / 10, 0, 0⟩ : Vec3 ℝ) = 3 / 10 := by
  have h : dot (⟨3 / 10, 0, 0⟩ : Vec3 ℝ) ⟨3 / 10, 0, 0⟩ = (3 / 10) * (3 / 10) := by
    simp only [dot]
    ring
  show Real.sqrt _ = _
  rw [h]
  exact Real.sqrt_mul_self (by norm_num)

theorem edge_mod : GLSL.mod (3 / 10 : ℝ) 0.2 = 1 / 10 := by
  rw [glsl_mod_eq]
  have h : ⌊(3 / 10 : ℝ) / 0.2⌋ = 1 := by
    rw [Int.floor_eq_iff]
    constructor <;> norm_num
  rw [h]
  norm_num

/-- C14, counterexample: at the hit of the sample triangle at object position
`(3/10, 0, 0)`, `mod(length(objectPosition), 0.2) = 1/10 >= 0.05`, and
`material8` takes the diffuse branch: colour 0.7, not the colour 1 of the
transparent branch. -/
theorem material8_diffuse_at_gate :
    ∃ h, RtPipeline1.getObjectHitInfo sampleIndices sampleVertices edgeRayQuery = some h
      ∧ GLSL.mod (GLSL.length h.objectPosition) 0.2 ≥ (0.05 : ℝ)
      ∧ ∃ r s, RtPipeline1.material8 sampleIndices sampleVertices edgeRayQuery 5 = some (r, s)
        ∧ r.color = vec3 0.7 ∧ r.color ≠ vec3 1.0
        ∧ r.rayOrigin = RtPipeline1.offsetPositionAlongNormal h.worldPosition h.worldNormal
        ∧ r.rayDirection = (RtPipeline1.diffuseReflection h.worldNormal 5).1 := by
  obtain ⟨h, hh, hp⟩ := edge_hit_resolved
  have hm : GLSL.mod (GLSL.length h.objectPosition) 0.2 = 1 / 10 := by
    rw [hp, edge_length, edge_mod]
  have hc : ¬ (GLSL.mod (GLSL.length h.objectPosition) 0.2 < 0.05) := by
    rw [hm]
    norm_num
  have he : RtPipeline1.material8 sampleIndices sampleVertices edgeRayQuery 5
      = some (⟨vec3 0.7,
            RtPipeline1.offsetPositionAlongNormal h.worldPosition h.worldNormal,
            (RtPipeline1.diffuseReflection h.worldNormal 5).1⟩,
          (RtPipeline1.diffuseReflection h.worldNormal 5).2) := by
    rw [rt1_material8_of_hit sampleIndices sampleVertices hh, if_neg hc]
  refine ⟨h, hh, ?_, _, _, he, rfl, vec3_const_ne, rfl, rfl⟩
  rw [hm]
  norm_num

/-- C14, amended: for every resolved hit, `material8` takes the transparent
pass-through branch (colour 1, ray direction unchanged, origin offset along
the negated normal, RNG state unchanged) exactly when
`mod(length(objectPosition), 0.2) < 0.05`, and the diffuse branch (colour 0.7,
origin offset along the normal, diffuse direction) when the value is
`>= 0.05`. -/
theorem material8_transparent_iff (rq : RayQuery ℝ) (rngState : Nat)
    (h : RtPipeline1.HitInfo ℝ)
    (hh : RtPipeline1.getObjectHitInfo indices vertices rq = some h) :
    ∃ r s, RtPipeline1.material8 indices vertices rq rngState = some (r, s)
      ∧ (GLSL.mod (GLSL.length h.objectPosition) 0.2 < 0.05
          → r = ⟨vec3 1.0,
                RtPipeline1.offsetPositionAlongNormal h.worldPosition (-h.worldNormal),
                rq.worldRayDirection⟩
            ∧ s = rngState)
      ∧ (GLSL.mod (GLSL.length h.objectPosition) 0.2 ≥ (0.05 : ℝ)
          → r = ⟨vec3 0.7,
                RtPipeline1.offsetPositionAlongNormal h.worldPosition h.worldNormal,
                (RtPipeline1.diffuseReflection h.worldNormal rngState).1⟩
            ∧ s = (RtPipeline1.diffuseReflection h.worldNormal rngState).2)
      ∧ (r.color = vec3 1.0 ↔ GLSL.mod (GLSL.length h.objectPosition) 0.2 < 0.05) := by
  by_cases hc : GLSL.mod (GLSL.length h.objectPosition) 0.2 < 0.05
  · refine ⟨_, _, (rt1_material8_of_hit indices vertices hh).trans (by rw [if_pos hc]),
      fun _ => ⟨rfl, rfl⟩, fun hp => absurd hc (not_lt.mpr hp), fun _ => hc, fun _ => rfl⟩
  · refine ⟨_, _, (rt1_material8_of_hit indices vertices hh).trans (by rw [if_neg hc]),
      fun hp => absurd hp hc, fun _ => ⟨rfl, rfl⟩, fun he => absurd he vec3_const_ne,
      fun hp => absurd hp hc⟩

/-- Witness for C14: the hit of the sample triangle at `(3/10, 0, 0)`, from
the state 5. -/
theorem material8_transparent_iff_witness :
    ∃ h, RtPipeline1.getObjectHitInfo sampleIndices sampleVertices edgeRayQuery = some h
      ∧ ∃ r s, RtPipeline1.material8 sampleIndices sampleVertices edgeRayQuery 5 = some (r, s)
      ∧ (GLSL.mod (GLSL.length h.objectPosition) 0.2 < 0.05
          → r = ⟨vec3 1.0,
                RtPipeline1.offsetPositionAlongNormal h.worldPosition (-h.worldNormal),
                edgeRayQuery.worldRayDirection⟩
            ∧ s = 5)
      ∧ (GLSL.mod (GLSL.length h.objectPosition) 0.2 ≥ (0.05 : ℝ)
          → r = ⟨vec3 0.7,
                RtPipeline1.offsetPositionAlongNormal h.worldPosition h.worldNormal,
                (RtPipeline1.diffuseReflection h.worldNormal 5).1⟩
            ∧ s = (RtPipeline1.diffuseReflection h.worldNormal 5).2)
      ∧ (r.color = vec3 1.0 ↔ GLSL.mod (GLSL.length h.objectPosition) 0.2 < 0.05) := by
  obtain ⟨h, hh, _⟩ := edge_hit_resolved
  exact ⟨h, hh, material8_transparent_iff sampleIndices sampleVertices edgeRayQuery 5 h hh⟩

end PatternClaims

section BlendClaims

variable (indices : List Nat) (vertices : List (Vec3 ℝ))

theorem vec3_one_eq : (vec3 1.0 : Vec3 ℝ) = ⟨1, 1, 1⟩ := by
  simp only [vec3, lit_one]

/-- The sample hit is at the object position `(1/4, 1/4, 0)`. -/
theorem sample_hit_position :
    ∃ h, RtPipeline1.getObjectHitInfo sampleIndices sampleVertices sampleRayQuery = some h
      ∧ h.objectPosition = ⟨1 / 4, 1 / 4, 0⟩ := by
  refine ⟨_, rt1_getObjectHitInfo_of_fetch sample_fetch, ?_⟩
  show _ * _ + _ * _ + _ * _ = _
  ext <;>
    simp [sampleRayQuery, RtPipeline1.hitBarycentrics, vec3_add_x, vec3_add_y, vec3_add_z,
      vec3_muls_x, vec3_muls_y, vec3_muls_z]

/-- C15: for every resolved hit with object-space position `(x, y, z)`,
`material5` is transparent exactly when `(x + y + z) mod 0.5 < 0.25`, with
`mod(a, b) = a - b*floor(a/b)`: then it returns colour `(1,1,1)`, the incoming
ray direction and the origin `offsetPositionAlongNormal(worldPosition,
-worldNormal)`, and leaves the RNG state unchanged; otherwise it returns
colour 0.7, the origin offset along `+worldNormal` and the direction and RNG
state of `diffuseReflection(worldNormal)`. -/
theorem material5_transparent_iff (rq : RayQuery ℝ) (rngState : Nat)
    (h : RtPipeline1.HitInfo ℝ)
    (hh : RtPipeline1.getObjectHitInfo indices vertices rq = some h) :
    ∃ r s, RtPipeline1.material5 indices vertices rq rngState = some (r, s)
      ∧ ((h.objectPosition.x + h.objectPosition.y + h.objectPosition.z)
            - 0.5 * (⌊(h.objectPosition.x + h.objectPosition.y + h.objectPosition.z) / 0.5⌋ : ℝ)
            < 0.25
          → r = ⟨⟨1, 1, 1⟩,
                RtPipeline1.offsetPositionAlongNormal h.worldPosition (-h.worldNormal),
                rq.worldRayDirection⟩
            ∧ s = rngState)
      ∧ (¬ ((h.objectPosition.x + h.objectPosition.y + h.objectPosition.z)
            - 0.5 * (⌊(h.objectPosition.x + h.objectPosition.y + h.objectPosition.z) / 0.5⌋ : ℝ)
            < 0.25)
          → r = ⟨vec3 0.7,
                RtPipeline1.offsetPositionAlongNormal h.worldPosition h.worldNormal,
                (RtPipeline1.diffuseReflection h.worldNormal rngState).1⟩
            ∧ s = (RtPipeline1.diffuseReflection h.worldNormal rngState).2
            ∧ s = referenceStep (referenceStep rngState))
      ∧ (r.color = ⟨1, 1, 1⟩
          ↔ (h.objectPosition.x + h.objectPosition.y + h.objectPosition.z)
            - 0.5 * (⌊(h.objectPosition.x + h.objectPosition.y + h.objectPosition.z) / 0.5⌋ : ℝ)
            < 0.25) := by
  have he : RtPipeline1.material5 indices vertices rq rngState = _ :=
    rt1_material5_of_hit indices vertices hh
  rw [glsl_dot_ones, glsl_mod_eq, vec3_one_eq] at he
  by_cases hc : (h.objectPosition.x + h.objectPosition.y + h.objectPosition.z)
      - 0.5 * (⌊(h.objectPosition.x + h.objectPosition.y + h.objectPosition.z) / 0.5⌋ : ℝ)
      < 0.25
  · rw [if_pos hc] at he
    exact ⟨_, _, he, fun _ => ⟨rfl, rfl⟩, fun hp => absurd hc hp, fun _ => hc, fun _ => rfl⟩
  · rw [if_neg hc] at he
    refine ⟨_, _, he, fun hp => absurd hp hc, fun _ => ⟨rfl, rfl, ?_⟩,
      fun he1 => absurd (vec3_one_eq ▸ he1) vec3_const_ne, fun hp => absurd hp hc⟩
    rw [rt1_diffuse_eq, rt1_rng_eq, rt1_rng_eq]

/-- Witness for C15: the sample hit, from the state 5. -/
theorem material5_transparent_iff_witness :
    ∃ h, RtPipeline1.getObjectHitInfo sampleIndices sampleVertices sampleRayQuery = some h
      ∧ ∃ r s, RtPipeline1.material5 sampleIndices sampleVertices sampleRayQuery 5 = some (r, s)
      ∧ ((h.objectPosition.x + h.objectPosition.y + h.objectPosition.z)
            - 0.5 * (⌊(h.objectPosition.x + h.objectPosition.y + h.objectPosition.z) / 0.5⌋ : ℝ)
            < 0.25
          → r = ⟨⟨1, 1, 1⟩,
                RtPipeline1.offsetPositionAlongNormal h.worldPosition (-h.worldNormal),
                sampleRayQuery.worldRayDirection⟩
            ∧ s = 5)
      ∧ (¬ ((h.objectPosition.x + h.objectPosition.y + h.objectPosition.z)
            - 0.5 * (⌊(h.objectPosition.x + h.objectPosition.y + h.objectPosition.z) / 0.5⌋ : ℝ)
            < 0.25)
          → r = ⟨vec3 0.7,
                RtPipeline1.offsetPositionAlongNormal h.worldPosition h.worldNormal,
                (RtPipeline1.diffuseReflection h.worldNormal 5).1⟩
            ∧ s = (RtPipeline1.diffuseReflection h.worldNormal 5).2
            ∧ s = referenceStep (referenceStep 5))
      ∧ (r.color = ⟨1, 1, 1⟩
          ↔ (h.objectPosition.x + h.objectPosition.y + h.objectPosition.z)
            - 0.5 * (⌊(h.objectPosition.x + h.objectPosition.y + h.objectPosition.z) / 0.5⌋ : ℝ)
            < 0.25) := by
  obtain ⟨h, hh, _⟩ := sample_hit_position
  exact ⟨h, hh, material5_transparent_iff sampleIndices sampleVertices sampleRayQuery 5 h hh⟩

theorem rt1_material4_of_hit {rq : RayQuery ℝ} {rngState : Nat} {h : RtPipeline1.HitInfo ℝ}
    (hh : RtPipeline1.getObjectHitInfo indices vertices rq = some h) :
    RtPipeline1.material4 indices vertices rq rngState
      = some (if (RtPipeline1.stepAndOutputRNGFloat ℝ rngState).1 < 0.5
          then (⟨vec3 0.7,
              RtPipeline1.offsetPositionAlongNormal h.worldPosition h.worldNormal,
              (RtPipeline1.diffuseReflection h.worldNormal
                (RtPipeline1.stepAndOutputRNGFloat ℝ rngState).2).1⟩,
            (RtPipeline1.diffuseReflection h.worldNormal
              (RtPipeline1.stepAndOutputRNGFloat ℝ rngState).2).2)
          else (⟨vec3 0.7,
              RtPipeline1.offsetPositionAlongNormal h.worldPosition (-h.worldNormal),
              rq.worldRayDirection⟩, (RtPipeline1.stepAndOutputRNGFloat ℝ rngState).2)) := by
  unfold RtPipeline1.material4
  rw [hh]
  by_cases hc : (RtPipeline1.stepAndOutputRNGFloat ℝ rngState).1 < 0.5
  · simp only [Option.bind_eq_bind, Option.some_bind, if_pos hc]
    rfl
  · simp only [Option.bind_eq_bind, Option.some_bind, if_neg hc]
    rfl

theorem rt1_material3_of_hit {rq : RayQuery ℝ} {rngState : Nat} {h : RtPipeline1.HitInfo ℝ}
    (hh : RtPipeline1.getObjectHitInfo indices vertices rq = some h) :
    RtPipeline1.material3 indices vertices rq rngState
      = some (if (RtPipeline1.stepAndOutputRNGFloat ℝ rngState).1 < 0.2
          then (⟨vec3 0.7,
              RtPipeline1.offsetPositionAlongNormal h.worldPosition h.worldNormal,
              rq.worldRayDirection
                - (2 * dot rq.worldRayDirection h.worldNormal) * h.worldNormal⟩,
            (RtPipeline1.stepAndOutputRNGFloat ℝ rngState).2)
          else (⟨vec3 0.7,
              RtPipeline1.offsetPositionAlongNormal h.worldPosition h.worldNormal,
              (RtPipeline1.diffuseReflection h.worldNormal
                (RtPipeline1.stepAndOutputRNGFloat ℝ rngState).2).1⟩,
            (RtPipeline1.diffuseReflection h.worldNormal
              (RtPipeline1.stepAndOutputRNGFloat ℝ rngState).2).2)) := by
  unfold RtPipeline1.material3
  rw [hh]
  by_cases hc : (RtPipeline1.stepAndOutputRNGFloat ℝ rngState).1 < 0.2
  · simp only [Option.bind_eq_bind, Option.some_bind, if_pos hc, glsl_reflect_eq]
    rfl
  · simp only [Option.bind_eq_bind, Option.some_bind, if_neg hc]
    rfl

theorem rt1_diffuse_state (n : Vec3 ℝ) (s : Nat) :
    (RtPipeline1.diffuseReflection n s).2 = referenceStep (referenceStep s) := by
  rw [rt1_diffuse_eq, rt1_rng_eq, rt1_rng_eq]

theorem rt1_rng_state (s : Nat) :
    (RtPipeline1.stepAndOutputRNGFloat ℝ s).2 = referenceStep s := by
  rw [rt1_rng_eq]

/-- C16: for every resolved hit, `material4` draws one threshold number `t`
from the RNG. When `t >= 0.5` the ray passes through: colour 0.7, the incoming
ray direction, origin `offsetPositionAlongNormal(worldPosition, -worldNormal)`,
and the RNG has advanced once. When `t < 0.5` it bounces: colour 0.7, origin
`offsetPositionAlongNormal(worldPosition, +worldNormal)`, and the direction of
`diffuseReflection(worldNormal)` on the state after the threshold draw, built
from the next two random numbers, so that the RNG has advanced three times. -/
theorem material4_split (rq : RayQuery ℝ) (rngState : Nat) (h : RtPipeline1.HitInfo ℝ)
    (hh : RtPipeline1.getObjectHitInfo indices vertices rq = some h) :
    ∃ r s, RtPipeline1.material4 indices vertices rq rngState = some (r, s)
      ∧ (0.5 ≤ (RtPipeline1.stepAndOutputRNGFloat ℝ rngState).1
          → r = ⟨vec3 0.7,
                RtPipeline1.offsetPositionAlongNormal h.worldPosition (-h.worldNormal),
                rq.worldRayDirection⟩
            ∧ s = referenceStep rngState)
      ∧ ((RtPipeline1.stepAndOutputRNGFloat ℝ rngState).1 < 0.5
          → r = ⟨vec3 0.7,
                RtPipeline1.offsetPositionAlongNormal h.worldPosition h.worldNormal,
                referenceDiffuse RtPipeline1.k_pi h.worldNormal
                  (RtPipeline1.stepAndOutputRNGFloat ℝ (referenceStep rngState)).1
                  (RtPipeline1.stepAndOutputRNGFloat ℝ
                    (referenceStep (referenceStep rngState))).1⟩
            ∧ r.rayDirection
                = (RtPipeline1.diffuseReflection h.worldNormal (referenceStep rngState)).1
            ∧ s = referenceStep (referenceStep (referenceStep rngState))) := by
  have he : RtPipeline1.material4 indices vertices rq rngState = _ :=
    rt1_material4_of_hit indices vertices hh
  by_cases hc : (RtPipeline1.stepAndOutputRNGFloat ℝ rngState).1 < 0.5
  · rw [if_pos hc] at he
    refine ⟨_, _, he, fun hp => absurd hc (not_lt.mpr hp), fun _ => ⟨?_, ?_, ?_⟩⟩
    · rw [rt1_rng_state, rt1_diffuse_eq, rt1_rng_state]
    · rw [rt1_rng_state]
    · rw [rt1_diffuse_state, rt1_rng_state]
  · rw [if_neg hc] at he
    exact ⟨_, _, he, fun _ => ⟨rfl, rt1_rng_state _⟩, fun hp => absurd hp hc⟩

/-- Witness for C16: the sample hit, from the state 5. -/
theorem material4_split_witness :
    ∃ h, RtPipeline1.getObjectHitInfo sampleIndices sampleVertices sampleRayQuery = some h
      ∧ ∃ r s, RtPipeline1.material4 sampleIndices sampleVertices sampleRayQuery 5 = some (r, s)
      ∧ (0.5 ≤ (RtPipeline1.stepAndOutputRNGFloat ℝ 5).1
          → r = ⟨vec3 0.7,
                RtPipeline1.offsetPositionAlongNormal h.worldPosition (-h.worldNormal),
                sampleRayQuery.worldRayDirection⟩
            ∧ s = referenceStep 5)
      ∧ ((RtPipeline1.stepAndOutputRNGFloat ℝ 5).1 < 0.5
          → r = ⟨vec3 0.7,
                RtPipeline1.offsetPositionAlongNormal h.worldPosition h.worldNormal,
                referenceDiffuse RtPipeline1.k_pi h.worldNormal
                  (RtPipeline1.stepAndOutputRNGFloat ℝ (referenceStep 5)).1
                  (RtPipeline1.stepAndOutputRNGFloat ℝ
                    (referenceStep (referenceStep 5))).1⟩
            ∧ r.rayDirection
                = (RtPipeline1.diffuseReflection h.worldNormal (referenceStep 5)).1
            ∧ s = referenceStep (referenceStep (referenceStep 5))) := by
  obtain ⟨h, hh, _⟩ := sample_hit_position
  exact ⟨h, hh, material4_split sampleIndices sampleVertices sampleRayQuery 5 h hh⟩

/-- C17: for every resolved hit, `material3` draws one threshold number `t`
from the RNG and compares it with 0.2. When `t < 0.2` the returned direction
is the mirror reflection `d - 2*dot(d, n)*n` of the incoming direction `d`
about `worldNormal = n`, and the RNG has advanced once. When `t >= 0.2` the
direction and the final RNG state are those of `diffuseReflection(worldNormal)`
on the state after the threshold draw. In both cases the colour is 0.7 and the
origin is `offsetPositionAlongNormal(worldPosition, worldNormal)`. -/
theorem material3_blend (rq : RayQuery ℝ) (rngState : Nat) (h : RtPipeline1.HitInfo ℝ)
    (hh : RtPipeline1.getObjectHitInfo indices vertices rq = some h) :
    ∃ r s, RtPipeline1.material3 indices vertices rq rngState = some (r, s)
      ∧ r.color = vec3 0.7
      ∧ r.rayOrigin = RtPipeline1.offsetPositionAlongNormal h.worldPosition h.worldNormal
      ∧ ((RtPipeline1.stepAndOutputRNGFloat ℝ rngState).1 < 0.2
          → r.rayDirection
              = rq.worldRayDirection
                - (2 * dot rq.worldRayDirection h.worldNormal) * h.worldNormal
            ∧ s = referenceStep rngState)
      ∧ (0.2 ≤ (RtPipeline1.stepAndOutputRNGFloat ℝ rngState).1
          → r.rayDirection
              = (RtPipeline1.diffuseReflection h.worldNormal (referenceStep rngState)).1
            ∧ s = (RtPipeline1.diffuseReflection h.worldNormal (referenceStep rngState)).2
            ∧ s = referenceStep (referenceStep (referenceStep rngState))) := by
  have he : RtPipeline1.material3 indices vertices rq rngState = _ :=
    rt1_material3_of_hit indices vertices hh
  by_cases hc : (RtPipeline1.stepAndOutputRNGFloat ℝ rngState).1 < 0.2
  · rw [if_pos hc] at he
    exact ⟨_, _, he, rfl, rfl, fun _ => ⟨rfl, rt1_rng_state _⟩,
      fun hp => absurd hc (not_lt.mpr hp)⟩
  · rw [if_neg hc] at he
    refine ⟨_, _, he, rfl, rfl, fun hp => absurd hp hc, fun _ => ⟨?_, ?_, ?_⟩⟩
    · rw [rt1_rng_state]
    · rw [rt1_rng_state]
    · rw [rt1_diffuse_state, rt1_rng_state]

/-- Witness for C17: the sample hit, from the state 5. -/
theorem material3_blend_witness :
    ∃ h, RtPipeline1.getObjectHitInfo sampleIndices sampleVertices sampleRayQuery = some h
      ∧ ∃ r s, RtPipeline1.material3 sampleIndices sampleVertices sampleRayQuery 5 = some (r, s)
      ∧ r.color = vec3 0.7
      ∧ r.rayOrigin = RtPipeline1.offsetPositionAlongNormal h.worldPosition h.worldNormal
      ∧ ((RtPipeline1.stepAndOutputRNGFloat ℝ 5).1 < 0.2
          → r.rayDirection
              = sampleRayQuery.worldRayDirection
                - (2 * dot sampleRayQuery.worldRayDirection h.worldNormal) * h.worldNormal
            ∧ s = referenceStep 5)
      ∧ (0.2 ≤ (RtPipeline1.stepAndOutputRNGFloat ℝ 5).1
          → r.rayDirection
              = (RtPipeline1.diffuseReflection h.worldNormal (referenceStep 5)).1
            ∧ s = (RtPipeline1.diffuseReflection h.worldNormal (referenceStep 5)).2
            ∧ s = referenceStep (referenceStep (referenceStep 5))) := by
  obtain ⟨h, hh, _⟩ := sample_hit_position
  exact ⟨h, hh, material3_blend sampleIndices sampleVertices sampleRayQuery 5 h hh⟩

end BlendClaims

/-! ### The host programs -/

theorem e10_loadIndices_eq (indices : List IndexT) (acc : List Nat) :
    E10Materials.loadIndices indices acc
      = acc ++ indices.map (fun (index : IndexT) => u32OfInt index.vertex_index) := by
  induction indices generalizing acc with
  | nil => simp [E10Materials.loadIndices]
  | cons index rest ih => simp [E10Materials.loadIndices, ih]

theorem e8_loadIndices_eq (indices : List IndexT) (acc : List Nat) :
    E8DebugNames.loadIndices indices acc
      = acc ++ indices.map (fun (index : IndexT) => u32OfInt index.vertex_index) := by
  induction indices generalizing acc with
  | nil => simp [E8DebugNames.loadIndices]
  | cons index rest ih => simp [E8DebugNames.loadIndices, ih]

theorem e10_renderLoop_from (fuel s : Nat) (trace : List HostCall) (hs : s ≤ 32)
    (hf : 32 - s < fuel) :
    E10Materials.renderLoop fuel s trace
      = some (trace ++ (List.range' s (32 - s)).flatMap E10Materials.renderBatch) := by
  induction fuel generalizing s trace with
  | zero => omega
  | succ n ih =>
    unfold E10Materials.renderLoop
    by_cases h : s < 32
    · have hu : u32 (s + 1) = s + 1 := by
        unfold u32
        omega
      have hr : 32 - s = (32 - (s + 1)) + 1 := by omega
      have hc : s < E10Materials.NUM_SAMPLE_BATCHES := h
      rw [if_pos hc, hu, ih (s + 1) _ (by omega) (by omega), hr, List.range'_succ,
        List.flatMap_cons, List.append_assoc]
    · have hc : ¬ s < E10Materials.NUM_SAMPLE_BATCHES := h
      have h32 : s = 32 := by omega
      rw [if_neg hc, h32]
      simp

theorem e10_renderLoop_eq (trace : List HostCall) :
    E10Materials.renderLoop (E10Materials.NUM_SAMPLE_BATCHES + 1) 0 trace
      = some (trace ++ referenceRenderTrace E10Materials.renderBatch 32) := by
  rw [e10_renderLoop_from _ 0 trace (by omega) (by decide), referenceRenderTrace,
    List.range_eq_range']

theorem e8_renderBatch_eq : E8DebugNames.renderBatch = E10Materials.renderBatch := rfl

theorem e8_renderLoop_eq (trace : List HostCall) :
    E8DebugNames.renderLoop (E8DebugNames.NUM_SAMPLE_BATCHES + 1) 0 trace
      = some (trace ++ referenceRenderTrace E10Materials.renderBatch 32) := by
  have h : E8DebugNames.renderLoop = E10Materials.renderLoop := by
    funext fuel
    induction fuel with
    | zero => rfl
    | succ n ih =>
      funext s trace
      unfold E8DebugNames.renderLoop E10Materials.renderLoop
      rw [ih]
      rfl
  rw [h]
  exact e10_renderLoop_eq trace

set_option maxRecDepth 100000 in
theorem e10_instances_built : (E10Materials.instanceLoopX 22 (-10) []).isSome = true := by
  decide

/-- The setup part of the trace of `e10_materials`. -/
theorem e10_main_ok (reader : ObjReader) (shape : ShapeT) (hv : reader.Valid = true)
    (hs : reader.shapes = [shape]) :
    ∃ instances, E10Materials.instanceLoopX 22 (-10) [] = some instances
      ∧ E10Materials.main reader
        = .ok (E10Materials.upload reader.vertices
              (shape.mesh_indices.map (fun (index : IndexT) => u32OfInt index.vertex_index))
            ++ [E10Materials.blas reader.vertices
              (shape.mesh_indices.map (fun (index : IndexT) => u32OfInt index.vertex_index))]
            ++ [HostCall.buildTlas instances]
            ++ referenceRenderTrace E10Materials.renderBatch 32
            ++ [HostCall.stbi_write_hdr 800 600]) := by
  obtain ⟨instances, hi⟩ := Option.isSome_iff_exists.mp e10_instances_built
  refine ⟨instances, hi, ?_⟩
  unfold E10Materials.main
  simp only [hv, hs, hi, e10_renderLoop_eq, e10_loadIndices_eq]
  simp [E10Materials.render_width, E10Materials.render_height]

theorem e8_main_ok (reader : ObjReader) (shape : ShapeT) (hv : reader.Valid = true)
    (hs : reader.shapes = [shape]) :
    E8DebugNames.main reader
        = .ok (E8DebugNames.upload reader.vertices
              (shape.mesh_indices.map (fun (index : IndexT) => u32OfInt index.vertex_index))
            ++ [E8DebugNames.blas reader.vertices
              (shape.mesh_indices.map (fun (index : IndexT) => u32OfInt index.vertex_index))]
            ++ [HostCall.buildTlas E8DebugNames.instances]
            ++ referenceRenderTrace E10Materials.renderBatch 32
            ++ [HostCall.stbi_write_hdr 800 600]) := by
  unfold E8DebugNames.main
  simp only [hv, hs, e8_renderLoop_eq, e8_loadIndices_eq]
  simp [E8DebugNames.render_width, E8DebugNames.render_height]

set_option maxRecDepth 100000 in
theorem render_trace_dispatches :
    ((referenceRenderTrace E10Materials.renderBatch 32).filter HostCall.isDispatch).length
      = 32 := by
  decide

set_option maxRecDepth 100000 in
theorem render_trace_pushed :
    (referenceRenderTrace E10Materials.renderBatch 32).filterMap HostCall.pushed
      = List.range 32 := by
  decide

theorem e10_trace_dispatches (v : List F32) (i : List Nat)
    (instances : List AccelerationStructureInstance) :
    ((E10Materials.upload v i ++ [E10Materials.blas v i] ++ [HostCall.buildTlas instances]
        ++ referenceRenderTrace E10Materials.renderBatch 32
        ++ [HostCall.stbi_write_hdr 800 600]).filter HostCall.isDispatch).length = 32 := by
  simp only [List.filter_append, List.length_append, render_trace_dispatches]
  simp [E10Materials.upload, E10Materials.blas, E10Materials.AllocateAndBeginOneTimeCommandBuffer,
    E10Materials.EndSubmitWaitAndFreeCommandBuffer, HostCall.isDispatch]

theorem e8_trace_dispatches (v : List F32) (i : List Nat)
    (instances : List AccelerationStructureInstance) :
    ((E8DebugNames.upload v i ++ [E8DebugNames.blas v i] ++ [HostCall.buildTlas instances]
        ++ referenceRenderTrace E10Materials.renderBatch 32
        ++ [HostCall.stbi_write_hdr 800 600]).filter HostCall.isDispatch).length = 32 := by
  simp only [List.filter_append, List.length_append, render_trace_dispatches]
  simp [E8DebugNames.upload, E8DebugNames.blas, E8DebugNames.AllocateAndBeginOneTimeCommandBuffer,
    E8DebugNames.EndSubmitWaitAndFreeCommandBuffer, HostCall.isDispatch]

theorem e10_trace_pushed (v : List F32) (i : List Nat)
    (instances : List AccelerationStructureInstance) :
    (E10Materials.upload v i ++ [E10Materials.blas v i] ++ [HostCall.buildTlas instances]).filterMap
        HostCall.pushed = []
      ∧ (E10Materials.upload v i ++ [E10Materials.blas v i] ++ [HostCall.buildTlas instances]
          ++ referenceRenderTrace E10Materials.renderBatch 32
          ++ [HostCall.stbi_write_hdr 800 600]).filterMap HostCall.pushed = List.range 32 := by
  have h : (E10Materials.upload v i ++ [E10Materials.blas v i]
      ++ [HostCall.buildTlas instances]).filterMap HostCall.pushed = [] := by
    simp [E10Materials.upload, E10Materials.blas,
      E10Materials.AllocateAndBeginOneTimeCommandBuffer,
      E10Materials.EndSubmitWaitAndFreeCommandBuffer, HostCall.pushed]
  refine ⟨h, ?_⟩
  rw [List.filterMap_append, List.filterMap_append, h, render_trace_pushed]
  simp [HostCall.pushed]

theorem e8_trace_pushed (v : List F32) (i : List Nat)
    (instances : List AccelerationStructureInstance) :
    (E8DebugNames.upload v i ++ [E8DebugNames.blas v i] ++ [HostCall.buildTlas instances]).filterMap
        HostCall.pushed = []
      ∧ (E8DebugNames.upload v i ++ [E8DebugNames.blas v i] ++ [HostCall.buildTlas instances]
          ++ referenceRenderTrace E10Materials.renderBatch 32
          ++ [HostCall.stbi_write_hdr 800 600]).filterMap HostCall.pushed = List.range 32 := by
  have h : (E8DebugNames.upload v i ++ [E8DebugNames.blas v i]
      ++ [HostCall.buildTlas instances]).filterMap HostCall.pushed = [] := by
    simp [E8DebugNames.upload, E8DebugNames.blas,
      E8DebugNames.AllocateAndBeginOneTimeCommandBuffer,
      E8DebugNames.EndSubmitWaitAndFreeCommandBuffer, HostCall.pushed]
  refine ⟨h, ?_⟩
  rw [List.filterMap_append, List.filterMap_append, h, render_trace_pushed]
  simp [HostCall.pushed]

theorem e10_index_buffer_mem (v : List F32) (i : List Nat) (rest : List HostCall) :
    HostCall.createIndexBuffer i ∈ E10Materials.upload v i ++ rest := by
  simp [E10Materials.upload]

theorem e8_index_buffer_mem (v : List F32) (i : List Nat) (rest : List HostCall) :
    HostCall.createIndexBuffer i ∈ E8DebugNames.upload v i ++ rest := by
  simp [E8DebugNames.upload]

theorem e10_main_accepts (reader : ObjReader) (shape : ShapeT) (hv : reader.Valid = true)
    (hs : reader.shapes = [shape]) :
    ∃ trace, E10Materials.main reader = .ok trace
      ∧ HostCall.createIndexBuffer
          (shape.mesh_indices.map (fun (index : IndexT) => u32OfInt index.vertex_index)) ∈ trace
      ∧ (trace.filter HostCall.isDispatch).length = 32 := by
  obtain ⟨instances, _, hm⟩ := e10_main_ok reader shape hv hs
  refine ⟨_, hm, ?_, e10_trace_dispatches _ _ _⟩
  simp only [List.append_assoc]
  exact e10_index_buffer_mem _ _ _

theorem e8_main_accepts (reader : ObjReader) (shape : ShapeT) (hv : reader.Valid = true)
    (hs : reader.shapes = [shape]) :
    ∃ trace, E8DebugNames.main reader = .ok trace
      ∧ HostCall.createIndexBuffer
          (shape.mesh_indices.map (fun (index : IndexT) => u32OfInt index.vertex_index)) ∈ trace
      ∧ (trace.filter HostCall.isDispatch).length = 32 := by
  refine ⟨_, e8_main_ok reader shape hv hs, ?_, e8_trace_dispatches _ _ _⟩
  simp only [List.append_assoc]
  exact e8_index_buffer_mem _ _ _

/-- C18, counterexample: a mesh of three vertices whose index buffer holds the
index 7 is malformed in the sense of the claim, and both host programs run
their setup to the end on it: the index buffer `[0, 1, 7]` is uploaded as it
is, and 32 dispatches are recorded. The same holds for the index -1, which is
uploaded as 4294967295. -/
theorem main_accepts_index_out_of_range :
    outOfRangeReader.hasIndexOutOfRange = true
      ∧ negativeIndexReader.hasIndexOutOfRange = true
      ∧ (∃ trace, E10Materials.main negativeIndexReader = .ok trace
          ∧ HostCall.createIndexBuffer [0, 1, 4294967295] ∈ trace
          ∧ (trace.filter HostCall.isDispatch).length = 32)
      ∧ (∃ trace, E10Materials.main outOfRangeReader = .ok trace
          ∧ HostCall.createIndexBuffer [0, 1, 7] ∈ trace
          ∧ (trace.filter HostCall.isDispatch).length = 32)
      ∧ (∃ trace, E8DebugNames.main outOfRangeReader = .ok trace
          ∧ HostCall.createIndexBuffer [0, 1, 7] ∈ trace
          ∧ (trace.filter HostCall.isDispatch).length = 32) :=
  ⟨by decide, by decide, e10_main_accepts negativeIndexReader ⟨[⟨0⟩, ⟨1⟩, ⟨-1⟩]⟩ rfl rfl,
    e10_main_accepts outOfRangeReader ⟨[⟨0⟩, ⟨1⟩, ⟨7⟩]⟩ rfl rfl,
    e8_main_accepts outOfRangeReader ⟨[⟨0⟩, ⟨1⟩, ⟨7⟩]⟩ rfl rfl⟩

/-- C18, amended: the setup of both host programs stops, before anything is
recorded, exactly on a scene file that did not parse (`assert(reader.Valid())`)
or that does not have exactly one shape (`assert(objShapes.size() == 1)`).
Vertex indices are not checked against the number of vertices: for every
parsed mesh of one shape, each `vertex_index` is converted to `uint32_t`
and uploaded unchanged, and the program goes on to record its 32
dispatches. -/
theorem main_setup_checks (reader : ObjReader) :
    (reader.Valid = false → E10Materials.main reader = .error .readerNotValid)
      ∧ (reader.Valid = true → reader.shapes.length ≠ 1
          → E10Materials.main reader = .error .notOneShape)
      ∧ (∀ shape, reader.Valid = true → reader.shapes = [shape]
          → ∃ trace, E10Materials.main reader = .ok trace
              ∧ HostCall.createIndexBuffer
                  (shape.mesh_indices.map (fun (index : IndexT) => u32OfInt index.vertex_index))
                  ∈ trace
              ∧ (trace.filter HostCall.isDispatch).length = 32)
      ∧ (reader.Valid = false → E8DebugNames.main reader = .error .readerNotValid)
      ∧ (reader.Valid = true → reader.shapes.length ≠ 1
          → E8DebugNames.main reader = .error .notOneShape)
      ∧ (∀ shape, reader.Valid = true → reader.shapes = [shape]
          → ∃ trace, E8DebugNames.main reader = .ok trace
              ∧ HostCall.createIndexBuffer
                  (shape.mesh_indices.map (fun (index : IndexT) => u32OfInt index.vertex_index))
                  ∈ trace
              ∧ (trace.filter HostCall.isDispatch).length = 32) := by
  refine ⟨?_, ?_, fun shape hv hs => e10_main_accepts reader shape hv hs, ?_, ?_,
    fun shape hv hs => e8_main_accepts reader shape hv hs⟩
  · intro hv
    unfold E10Materials.main
    rw [if_pos hv]
  · intro hv hl
    unfold E10Materials.main
    simp only [hv, Bool.true_eq_false, if_false]
    rw [if_pos hl]
  · intro hv
    unfold E8DebugNames.main
    rw [if_pos hv]
  · intro hv hl
    unfold E8DebugNames.main
    simp only [hv, Bool.true_eq_false, if_false]
    rw [if_pos hl]

theorem e10_renderBatch_eq (k : Nat) :
    E10Materials.renderBatch k
      = [HostCall.vkAllocateCommandBuffers, .vkBeginCommandBuffer, .vkCmdBindPipeline,
          .vkCmdBindDescriptorSets, .vkCmdPushConstants k, .vkCmdDispatch 50 75 1]
        ++ (if k = 31 then
              [HostCall.vkCmdPipelineBarrier, .vkCmdCopyImage 800 600, .vkCmdPipelineBarrier]
            else [])
        ++ [HostCall.vkEndCommandBuffer, .vkQueueSubmit, .vkQueueWaitIdle,
            .vkFreeCommandBuffers, .nvprintf k] := by
  have h31 : u32 (E10Materials.NUM_SAMPLE_BATCHES + 4294967295) = 31 := by decide
  have hx : u32 (u32 (u32 (E10Materials.render_width + WORKGROUP_WIDTH) + 4294967295)
      / WORKGROUP_WIDTH) = 50 := by decide
  have hy : u32 (u32 (u32 (E10Materials.render_height + WORKGROUP_HEIGHT) + 4294967295)
      / WORKGROUP_HEIGHT) = 75 := by decide
  unfold E10Materials.renderBatch
  rw [h31, hx, hy]
  simp [E10Materials.AllocateAndBeginOneTimeCommandBuffer,
    E10Materials.EndSubmitWaitAndFreeCommandBuffer, E10Materials.render_width,
    E10Materials.render_height]

theorem render_trace_split (batch : Nat → List HostCall) (n k : Nat) (hk : k < n) :
    referenceRenderTrace batch n
      = referenceRenderTrace batch k ++ batch k
        ++ (List.range' (k + 1) (n - (k + 1))).flatMap batch := by
  have hn : n = ((n - (k + 1)) + 1) + k := by omega
  unfold referenceRenderTrace
  conv_lhs => rw [hn]
  rw [List.range_eq_range', List.range_eq_range', ← List.range'_append_1 0 k, Nat.zero_add,
    List.range'_succ]
  simp [List.flatMap_append]

/-- C19: in the trace of every completed run of the two host programs, the
render loop contributes the batches 0, 1, ..., 31 one after the other. The
pushed `sample_batch` values of the whole trace are exactly 0, 1, ..., 31 in
ascending order. The segment of batch `k` is: allocate and begin a command
buffer, bind, push `k`, dispatch; for `k = 31` only, barrier, image copy,
barrier; then end, `vkQueueSubmit`, `vkQueueWaitIdle`, free, print. Every call
of batch `k` comes before every call of batch `k + 1`: the loop trace is the
trace of the batches below `k`, then batch `k`, then the later batches. The
image copy is recorded in batch 31 only. -/
theorem render_loop_sequential (reader : ObjReader) (trace10 trace8 : List HostCall)
    (h10 : E10Materials.main reader = .ok trace10)
    (h8 : E8DebugNames.main reader = .ok trace8) :
    (∃ setup, trace10 = setup ++ referenceRenderTrace E10Materials.renderBatch 32
          ++ [HostCall.stbi_write_hdr 800 600]
        ∧ setup.filterMap HostCall.pushed = [])
      ∧ trace10.filterMap HostCall.pushed = List.range 32
      ∧ (∃ setup, trace8 = setup ++ referenceRenderTrace E8DebugNames.renderBatch 32
          ++ [HostCall.stbi_write_hdr 800 600]
        ∧ setup.filterMap HostCall.pushed = [])
      ∧ trace8.filterMap HostCall.pushed = List.range 32
      ∧ E8DebugNames.renderBatch = E10Materials.renderBatch
      ∧ (∀ k, E10Materials.renderBatch k
          = [HostCall.vkAllocateCommandBuffers, .vkBeginCommandBuffer, .vkCmdBindPipeline,
              .vkCmdBindDescriptorSets, .vkCmdPushConstants k, .vkCmdDispatch 50 75 1]
            ++ (if k = 31 then
                  [HostCall.vkCmdPipelineBarrier, .vkCmdCopyImage 800 600,
                   .vkCmdPipelineBarrier]
                else [])
            ++ [HostCall.vkEndCommandBuffer, .vkQueueSubmit, .vkQueueWaitIdle,
                .vkFreeCommandBuffers, .nvprintf k])
      ∧ (∀ k, k < 32 → referenceRenderTrace E10Materials.renderBatch 32
          = referenceRenderTrace E10Materials.renderBatch k ++ E10Materials.renderBatch k
            ++ (List.range' (k + 1) (32 - (k + 1))).flatMap E10Materials.renderBatch)
      ∧ (∀ k, (E10Materials.renderBatch k).any HostCall.isCopyImage = true ↔ k = 31) := by
  have hv : reader.Valid = true := by
    cases hvalid : reader.Valid with
    | true => rfl
    | false =>
      unfold E10Materials.main at h10
      rw [if_pos hvalid] at h10
      cases h10
  have hs : ∃ shape, reader.shapes = [shape] := by
    by_cases hl : reader.shapes.length ≠ 1
    · unfold E10Materials.main at h10
      simp only [hv, Bool.true_eq_false, if_false] at h10
      rw [if_pos hl] at h10
      cases h10
    · exact List.length_eq_one.mp (not_not.mp hl)
  obtain ⟨shape, hs⟩ := hs
  obtain ⟨instances, _, hm⟩ := e10_main_ok reader shape hv hs
  have e10 := Except.ok.inj (h10.symm.trans hm)
  have e8 := Except.ok.inj (h8.symm.trans (e8_main_ok reader shape hv hs))
  refine ⟨⟨_, e10, (e10_trace_pushed _ _ _).1⟩, ?_,
    ⟨E8DebugNames.upload reader.vertices
        (shape.mesh_indices.map (fun (index : IndexT) => u32OfInt index.vertex_index))
      ++ [E8DebugNames.blas reader.vertices
        (shape.mesh_indices.map (fun (index : IndexT) => u32OfInt index.vertex_index))]
      ++ [HostCall.buildTlas E8DebugNames.instances], ?_, (e8_trace_pushed _ _ _).1⟩, ?_,
    e8_renderBatch_eq, e10_renderBatch_eq,
    fun k hk => render_trace_split E10Materials.renderBatch 32 k hk, ?_⟩
  · rw [e10]
    exact (e10_trace_pushed _ _ _).2
  · rw [e8, e8_renderBatch_eq]
  · rw [e8]
    exact (e8_trace_pushed _ _ _).2
  · intro k
    rw [e10_renderBatch_eq]
    by_cases hk : k = 31
    · simp [hk, HostCall.isCopyImage]
    · simp [hk, HostCall.isCopyImage]

/-- Witness for C19: the runs of the two host programs on a mesh of one
triangle. -/
theorem render_loop_sequential_witness :
    ∃ trace10 trace8, E10Materials.main triangleReader = .ok trace10
      ∧ E8DebugNames.main triangleReader = .ok trace8
      ∧ trace10.filterMap HostCall.pushed = List.range 32
      ∧ trace8.filterMap HostCall.pushed = List.range 32 := by
  obtain ⟨instances, _, h10⟩ := e10_main_ok triangleReader ⟨[⟨0⟩, ⟨1⟩, ⟨2⟩]⟩ rfl rfl
  have h8 := e8_main_ok triangleReader ⟨[⟨0⟩, ⟨1⟩, ⟨2⟩]⟩ rfl rfl
  have h := render_loop_sequential triangleReader _ _ h10 h8
  exact ⟨_, _, h10, h8, h.2.1, h.2.2.2.1⟩

theorem groupCount_eq (w g : Nat) (hg : 1 ≤ g) (hw : w + g - 1 < 4294967296) :
    groupCount w g = (w + g - 1) / g := by
  have h1 : u32 (u32 (w + g) + 4294967295) = w + g - 1 := by
    unfold u32
    omega
  have h2 : (w + g - 1) / g < 4294967296 :=
    lt_of_le_of_lt (Nat.div_le_self _ _) hw
  unfold groupCount
  rw [h1]
  exact Nat.mod_eq_of_lt h2

theorem ceil_div_covers (w g : Nat) (hg : 1 ≤ g) :
    w ≤ (w + g - 1) / g * g ∧ (1 ≤ w → ((w + g - 1) / g - 1) * g < w) := by
  have hd := Nat.div_add_mod (w + g - 1) g
  have hm := Nat.mod_lt (w + g - 1) hg
  have hc : (w + g - 1) / g * g = g * ((w + g - 1) / g) := Nat.mul_comm _ _
  constructor
  · omega
  · intro h1
    have hq : 1 ≤ (w + g - 1) / g := (Nat.one_le_div_iff hg).mpr (by omega)
    have hs : ((w + g - 1) / g - 1) * g = (w + g - 1) / g * g - g := by
      rw [Nat.sub_mul, Nat.one_mul]
    have hge : g ≤ (w + g - 1) / g * g := Nat.le_mul_of_pos_left g hq
    omega

theorem pixel_covered_once (x y : Nat) (hx : x < 800) (hy : y < 600) :
    ∃! i : Invocation, i.inDispatch 50 75 ∧ i.pixel = (x, y) := by
  refine ⟨⟨x / 16, y / 8, x % 16, y % 8⟩, ⟨⟨?_, ?_, ?_, ?_⟩, ?_⟩, ?_⟩
  · show x / 16 < 50
    omega
  · show y / 8 < 75
    omega
  · show x % 16 < 16
    omega
  · show y % 8 < 8
    omega
  · show (x / 16 * 16 + x % 16, y / 8 * 8 + y % 8) = (x, y)
    have h1 : x / 16 * 16 + x % 16 = x := by omega
    have h2 : y / 8 * 8 + y % 8 = y := by omega
    rw [h1, h2]
  · rintro ⟨gx, gy, lx, ly⟩ ⟨⟨_, _, hlx, hly⟩, hp⟩
    have hlx16 : lx < 16 := hlx
    have hly8 : ly < 8 := hly
    have hpx : gx * 16 + lx = x := congrArg Prod.fst hp
    have hpy : gy * 8 + ly = y := congrArg Prod.snd hp
    have e1 : gx = x / 16 := by omega
    have e2 : gy = y / 8 := by omega
    have e3 : lx = x % 16 := by omega
    have e4 : ly = y % 8 := by omega
    rw [e1, e2, e3, e4]

/-- C20: for every image extent `w` and workgroup extent `g >= 1` with
`w + g - 1 < 2^32`, the group count `n = (w + g - 1) / g` that the host
computes in `uint32_t` arithmetic satisfies `n*g >= w` and, when `w >= 1`,
`(n - 1)*g < w`. Every batch of both host programs dispatches
`groupCount(800, 16) x groupCount(600, 8) x 1 = 50 x 75 x 1` workgroups, and
every pixel `(x, y)` with `x < 800`, `y < 600` is the pixel of exactly one
invocation of that dispatch. -/
theorem dispatch_covers_image (w g : Nat) (hg : 1 ≤ g) (hw : w + g - 1 < 2 ^ 32) :
    groupCount w g = (w + g - 1) / g
      ∧ groupCount w g * g ≥ w
      ∧ (1 ≤ w → (groupCount w g - 1) * g < w)
      ∧ (∀ k, HostCall.vkCmdDispatch (groupCount E10Materials.render_width WORKGROUP_WIDTH)
            (groupCount E10Materials.render_height WORKGROUP_HEIGHT) 1
          ∈ E10Materials.renderBatch k)
      ∧ (∀ k, HostCall.vkCmdDispatch (groupCount E8DebugNames.render_width WORKGROUP_WIDTH)
            (groupCount E8DebugNames.render_height WORKGROUP_HEIGHT) 1
          ∈ E8DebugNames.renderBatch k)
      ∧ groupCount 800 16 = 50 ∧ groupCount 600 8 = 75
      ∧ (∀ k, ((E10Materials.renderBatch k).filter HostCall.isDispatch)
          = [HostCall.vkCmdDispatch 50 75 1])
      ∧ (∀ x y, x < 800 → y < 600
          → ∃! i : Invocation, i.inDispatch 50 75 ∧ i.pixel = (x, y)) := by
  have hw2 : w + g - 1 < 4294967296 := by
    norm_num at hw
    exact hw
  have he := groupCount_eq w g hg hw2
  have hc := ceil_div_covers w g hg
  refine ⟨he, ?_, ?_, ?_, ?_, by decide, by decide, ?_, pixel_covered_once⟩
  · rw [he]
    exact hc.1
  · rw [he]
    exact hc.2
  · intro k
    simp [E10Materials.renderBatch, groupCount]
  · intro k
    simp [E8DebugNames.renderBatch, groupCount]
  · intro k
    rw [e10_renderBatch_eq]
    by_cases hk : k = 31
    · simp [hk, HostCall.isDispatch]
    · simp [hk, HostCall.isDispatch]

/-- Witness for C20: an image extent of 801 with workgroups of 16 takes 51
groups. -/
theorem dispatch_covers_image_witness :
    1 ≤ 16 ∧ 801 + 16 - 1 < 2 ^ 32
      ∧ groupCount 801 16 = (801 + 16 - 1) / 16
      ∧ groupCount 801 16 * 16 ≥ 801
      ∧ (1 ≤ 801 → (groupCount 801 16 - 1) * 16 < 801) :=
  ⟨by decide, by decide, (dispatch_covers_image 801 16 (by decide) (by decide)).1,
    (dispatch_covers_image 801 16 (by decide) (by decide)).2.1,
    (dispatch_covers_image 801 16 (by decide) (by decide)).2.2.1⟩

/-! ### The two versions of the resolver -/

/-- C21: for every scalar type, every index and vertex buffer and every hit,
the closest-hit version of `getObjectHitInfo` (reading `gl_PrimitiveID`, the
hit attributes, `gl_ObjectToWorldEXT`, `gl_WorldToObjectEXT` and
`gl_WorldRayDirectionEXT`) and the ray-query version, given the same primitive
id, barycentric pair, transforms and ray direction, return the same
`objectPosition`, `worldPosition` and `worldNormal`, and fail on the same
inputs. -/
theorem getObjectHitInfo_closest_hit_eq_ray_query {α : Type} [Add α] [Sub α] [Mul α] [Div α]
    [Neg α] [LT α] [LE α] [OfScientific α] [DecidableRel (fun a b : α => a < b)]
    [DecidableRel (fun a b : α => a ≤ b)] [GLSLBuiltins α] [GLSLConversions α]
    (indices : List Nat) (vertices : List (Vec3 α)) (gl : ClosestHitInputs α)
    (rq : RayQuery α) :
    (RtPipeline3.getObjectHitInfo indices vertices gl).map
        (fun (h : RtPipeline3.HitInfo α) => (h.objectPosition, h.worldPosition, h.worldNormal))
      = (RtPipeline1.getObjectHitInfo indices vertices gl.toRayQuery).map
        (fun (h : RtPipeline1.HitInfo α) => (h.objectPosition, h.worldPosition, h.worldNormal))
    ∧ (RtPipeline3.getObjectHitInfo indices vertices
          ⟨rq.intersectionPrimitiveIndex, rq.intersectionBarycentrics,
           rq.intersectionObjectToWorld, rq.intersectionWorldToObject,
           rq.worldRayDirection⟩).map
        (fun (h : RtPipeline3.HitInfo α) => (h.objectPosition, h.worldPosition, h.worldNormal))
      = (RtPipeline1.getObjectHitInfo indices vertices rq).map
        (fun (h : RtPipeline1.HitInfo α) => (h.objectPosition, h.worldPosition, h.worldNormal))
    := by
  constructor
  · unfold RtPipeline3.getObjectHitInfo RtPipeline1.getObjectHitInfo
      ClosestHitInputs.toRayQuery
    simp only [Option.bind_eq_bind, Option.pure_def]
    cases indices[3 * gl.gl_PrimitiveID + 0]? with
    | none => rfl
    | some i0 =>
      cases indices[3 * gl.gl_PrimitiveID + 1]? with
      | none => rfl
      | some i1 =>
        cases indices[3 * gl.gl_PrimitiveID + 2]? with
        | none => rfl
        | some i2 =>
          simp only [Option.some_bind]
          cases vertices[i0]? with
          | none => rfl
          | some v0 =>
            cases vertices[i1]? with
            | none => rfl
            | some v1 =>
              cases vertices[i2]? with
              | none => rfl
              | some v2 => rfl
  · unfold RtPipeline3.getObjectHitInfo RtPipeline1.getObjectHitInfo
    simp only [Option.bind_eq_bind, Option.pure_def]
    cases indices[3 * rq.intersectionPrimitiveIndex + 0]? with
    | none => rfl
    | some i0 =>
      cases indices[3 * rq.intersectionPrimitiveIndex + 1]? with
      | none => rfl
      | some i1 =>
        cases indices[3 * rq.intersectionPrimitiveIndex + 2]? with
        | none => rfl
        | some i2 =>
          simp only [Option.some_bind]
          cases vertices[i0]? with
          | none => rfl
          | some v0 =>
            cases vertices[i1]? with
            | none => rfl
            | some v1 =>
              cases vertices[i2]? with
              | none => rfl
              | some v2 => rfl

/-! ### The instances of the materials chapter -/

set_option maxRecDepth 100000 in
theorem e10_instances_eq :
    E10Materials.instanceLoopX 22 (-10) [] = some referenceInstances := by
  decide

set_option maxRecDepth 100000 in
theorem referenceInstances_eq_map :
    referenceInstances
      = (List.range 441).map (fun (k : Nat) =>
          (⟨((k / 21 : Nat) : Int) - 10, ((k % 21 : Nat) : Int) - 10, 0, 0, 0xFF⟩
            : AccelerationStructureInstance)) := by
  decide

theorem referenceInstances_get (k : Nat) (hk : k < 441) :
    referenceInstances[k]?
      = some ⟨((k / 21 : Nat) : Int) - 10, ((k % 21 : Nat) : Int) - 10, 0, 0, 0xFF⟩ := by
  rw [referenceInstances_eq_map, List.getElem?_map, List.getElem?_range hk]
  rfl

set_option maxRecDepth 100000 in
theorem referenceInstances_length : referenceInstances.length = 441 := by
  decide

theorem referenceInstances_unique (x y : Int) (hx1 : -10 ≤ x) (hx2 : x ≤ 10) (hy1 : -10 ≤ y)
    (hy2 : y ≤ 10) :
    ∃! k : Nat, referenceInstances[k]?
      = some (⟨x, y, 0, 0, 0xFF⟩ : AccelerationStructureInstance) := by
  refine ⟨21 * (x + 10).toNat + (y + 10).toNat, ?_, ?_⟩
  · show referenceInstances[21 * (x + 10).toNat + (y + 10).toNat]? = _
    rw [referenceInstances_get _ (by omega)]
    congr 2 <;> omega
  · intro k hk
    have hlt : k < 441 := by
      by_contra hge
      rw [List.getElem?_eq_none (by rw [referenceInstances_length]; omega)] at hk
      cases hk
    rw [referenceInstances_get k hlt] at hk
    have h := Option.some.inj hk
    have h1 := congrArg AccelerationStructureInstance.x h
    have h2 := congrArg AccelerationStructureInstance.y h
    simp only at h1 h2
    omega

theorem referenceInstances_fields (inst : AccelerationStructureInstance)
    (h : inst ∈ referenceInstances) :
    inst.instanceCustomIndex = 0 ∧ inst.accelerationStructureReference = 0
      ∧ inst.mask = 0xFF ∧ -10 ≤ inst.x ∧ inst.x ≤ 10 ∧ -10 ≤ inst.y ∧ inst.y ≤ 10 := by
  rw [referenceInstances_eq_map] at h
  obtain ⟨k, hk, rfl⟩ := List.mem_map.mp h
  have hk441 : k < 441 := List.mem_range.mp hk
  refine ⟨rfl, rfl, rfl, ?_, ?_, ?_, ?_⟩ <;> simp only <;> omega

theorem e10_main_inv {reader : ObjReader} {trace : List HostCall}
    (h : E10Materials.main reader = .ok trace) :
    reader.Valid = true ∧ ∃ shape, reader.shapes = [shape] := by
  have hv : reader.Valid = true := by
    cases hvalid : reader.Valid with
    | true => rfl
    | false =>
      unfold E10Materials.main at h
      rw [if_pos hvalid] at h
      cases h
  refine ⟨hv, ?_⟩
  by_cases hl : reader.shapes.length ≠ 1
  · unfold E10Materials.main at h
    simp only [hv, Bool.true_eq_false, if_false] at h
    rw [if_pos hl] at h
    cases h
  · exact List.length_eq_one.mp (not_not.mp hl)

theorem e10_trace_tlas {reader : ObjReader} {trace : List HostCall}
    (h : E10Materials.main reader = .ok trace) (l : List AccelerationStructureInstance) :
    HostCall.buildTlas l ∈ trace ↔ l = referenceInstances := by
  obtain ⟨hv, shape, hs⟩ := e10_main_inv h
  obtain ⟨instances, hi, hm⟩ := e10_main_ok reader shape hv hs
  have hr : instances = referenceInstances := Option.some.inj (hi.symm.trans e10_instances_eq)
  have e := Except.ok.inj (h.symm.trans hm)
  rw [e, hr]
  simp [E10Materials.upload, E10Materials.blas, E10Materials.AllocateAndBeginOneTimeCommandBuffer,
    E10Materials.EndSubmitWaitAndFreeCommandBuffer, referenceRenderTrace, List.mem_flatMap,
    e10_renderBatch_eq]

/-- C22: the instance-building loops of the materials chapter finish and
build exactly 441 instances: the instance at place `21*i + j` (`i, j < 21`) is
the one of the pair `(x, y) = (i - 10, j - 10)`, so that every pair with
`-10 <= x <= 10` and `-10 <= y <= 10` has exactly one instance, in row-major
order of `x` then `y`. Every instance refers to BLAS 0, with mask `0xFF` and
custom index 0, and this list is the one handed to the TLAS build of every
completed run. -/
theorem instance_loops_build_grid :
    E10Materials.instanceLoopX 22 (-10) [] = some referenceInstances
      ∧ referenceInstances.length = 441
      ∧ (∀ i j : Nat, i < 21 → j < 21 →
          referenceInstances[21 * i + j]?
            = some (⟨(i : Int) - 10, (j : Int) - 10, 0, 0, 0xFF⟩
                : AccelerationStructureInstance))
      ∧ (∀ x y : Int, -10 ≤ x → x ≤ 10 → -10 ≤ y → y ≤ 10 →
          ∃! k : Nat, referenceInstances[k]?
            = some (⟨x, y, 0, 0, 0xFF⟩ : AccelerationStructureInstance))
      ∧ (∀ inst ∈ referenceInstances,
          inst.instanceCustomIndex = 0 ∧ inst.accelerationStructureReference = 0
            ∧ inst.mask = 0xFF ∧ -10 ≤ inst.x ∧ inst.x ≤ 10 ∧ -10 ≤ inst.y ∧ inst.y ≤ 10)
      ∧ (∀ (reader : ObjReader) (trace : List HostCall),
          E10Materials.main reader = .ok trace →
            ∀ l, HostCall.buildTlas l ∈ trace ↔ l = referenceInstances) := by
  refine ⟨e10_instances_eq, referenceInstances_length, ?_, referenceInstances_unique,
    referenceInstances_fields, ?_⟩
  · intro i j hi hj
    rw [referenceInstances_get _ (by omega)]
    congr 2
    · have : (21 * i + j) / 21 = i := by omega
      rw [this]
    · have : (21 * i + j) % 21 = j := by omega
      rw [this]
  · intro reader trace h l
    exact e10_trace_tlas h l

/-! ### The output permutation -/

theorem shift_amount_bounds (t : Nat) (ht : t < 4294967296) :
    4 ≤ (t >>> 28) + 4 ∧ (t >>> 28) + 4 ≤ 19 := by
  rw [Nat.shiftRight_eq_div_pow]
  omega

theorem shiftRight_xor (a b n : Nat) : (a ^^^ b) >>> n = (a >>> n) ^^^ (b >>> n) := by
  apply Nat.eq_of_testBit_eq
  intro i
  simp only [Nat.testBit_shiftRight, Nat.testBit_xor]

theorem xor_low_keeps_top (a t : Nat) (n : Nat) (ha : a < 2 ^ n) :
    (a ^^^ t) >>> n = t >>> n := by
  rw [shiftRight_xor]
  have h0 : a >>> n = 0 := by
    rw [Nat.shiftRight_eq_div_pow]
    exact Nat.div_eq_of_lt ha
  rw [h0, Nat.zero_xor]

theorem shifted_lt (t k : Nat) (ht : t < 4294967296) (hk : 4 ≤ k) : t >>> k < 2 ^ 28 := by
  rw [Nat.shiftRight_eq_div_pow]
  have h16 : 2 ^ 4 ≤ 2 ^ k := Nat.pow_le_pow_right (by norm_num) hk
  have hle : t / 2 ^ k ≤ t / 2 ^ 4 := Nat.div_le_div_left h16 (by norm_num)
  have : t / 2 ^ 4 < 2 ^ 28 := by
    norm_num
    omega
  omega

theorem referenceXorShift_top (t : Nat) (ht : t < 4294967296) :
    referenceXorShift t >>> 28 = t >>> 28 :=
  xor_low_keeps_top _ t 28 (shifted_lt t _ ht (shift_amount_bounds t ht).1)

theorem referenceXorShift_lt (t : Nat) (ht : t < 4294967296) :
    referenceXorShift t < 4294967296 := by
  have h1 : t >>> ((t >>> 28) + 4) < 2 ^ 32 :=
    lt_of_lt_of_le (shifted_lt t _ ht (shift_amount_bounds t ht).1) (by norm_num)
  have h2 : t < 2 ^ 32 := by
    norm_num
    exact ht
  have := Nat.xor_lt_two_pow h1 h2
  norm_num at this
  exact this

theorem rt1_rng_state_lt (s : Nat) :
    (RtPipeline1.stepAndOutputRNGFloat ℝ s).2 < 4294967296 := by
  rw [rt1_rng_eq]
  exact referenceStep_lt s

/-- C23: for every 32-bit state `t`, the shift amount `(t >> 28) + 4` of
`stepAndOutputRNGFloat` lies in `[4, 19]`, below the word width 32, and the
reduction to 32 bits does not change it; the first XOR-shift
`(t >> ((t >> 28) + 4)) ^ t` is again a 32-bit value with the same top 4 bits
as `t`. The state that both copies of the function shift is a 32-bit value,
and the word they compute is the reference permutation of it. -/
theorem rng_shift_amount_in_range (t : Nat) (ht : t < 2 ^ 32) :
    4 ≤ (t >>> 28) + 4 ∧ (t >>> 28) + 4 ≤ 19 ∧ (t >>> 28) + 4 < 32
      ∧ u32 ((t >>> 28) + 4) = (t >>> 28) + 4
      ∧ (t >>> u32 ((t >>> 28) + 4)) ^^^ t = referenceXorShift t
      ∧ referenceXorShift t < 2 ^ 32
      ∧ referenceXorShift t >>> 28 = t >>> 28
      ∧ referenceOutput t
          = ((u32 (referenceXorShift t * 277803737)) >>> 22)
              ^^^ u32 (referenceXorShift t * 277803737)
      ∧ (∀ s, (RtPipeline1.stepAndOutputRNGFloat ℝ s).2 < 2 ^ 32
          ∧ (RtPipeline2.stepAndOutputRNGFloat ℝ s).2 < 2 ^ 32
          ∧ (RtPipeline1.stepAndOutputRNGFloat ℝ s).1
              = (referenceOutput (RtPipeline1.stepAndOutputRNGFloat ℝ s).2 : ℝ) / 4294967295
          ∧ (RtPipeline2.stepAndOutputRNGFloat ℝ s).1
              = (referenceOutput (RtPipeline2.stepAndOutputRNGFloat ℝ s).2 : ℝ)
                / 4294967295) := by
  have ht2 : t < 4294967296 := by
    norm_num at ht
    exact ht
  obtain ⟨h4, h19⟩ := shift_amount_bounds t ht2
  have hu : u32 ((t >>> 28) + 4) = (t >>> 28) + 4 := u32_of_lt (by omega)
  refine ⟨h4, h19, by omega, hu, ?_, ?_, referenceXorShift_top t ht2, rfl, ?_⟩
  · rw [hu]
    rfl
  · have := referenceXorShift_lt t ht2
    norm_num
    exact this
  · intro s
    have h1 := rt1_rng_state_lt s
    rw [rt2_rng_eq, rt1_rng_eq]
    have h2 := referenceStep_lt s
    refine ⟨?_, ?_, rfl, rfl⟩ <;> norm_num <;> exact h2

set_option maxRecDepth 100000 in
/-- Witness for C23: the state `0xF0000001`, whose shift amount is 19. -/
theorem rng_shift_amount_in_range_witness :
    4026531841 < 2 ^ 32 ∧ (4026531841 >>> 28) + 4 = 19
      ∧ referenceXorShift 4026531841 >>> 28 = 4026531841 >>> 28 :=
  ⟨by decide, by decide,
    (rng_shift_amount_in_range 4026531841 (by decide)).2.2.2.2.2.2.1⟩

theorem referenceStep_inverse (s : Nat) (hs : s < 4294967296) :
    ((referenceStep s + 4294967295) * 3425435293) % 4294967296 = s := by
  unfold referenceStep
  norm_num
  omega

theorem step_inverse_right (t : Nat) (ht : t < 4294967296) :
    referenceStep (((t + 4294967295) * 3425435293) % 4294967296) = t := by
  unfold referenceStep
  norm_num
  omega

theorem mul_odd_inverse (x : Nat) (hx : x < 4294967296) :
    (u32 (x * 277803737) * 2897767785) % 4294967296 = x := by
  unfold u32
  omega

theorem xorshift_injective (k : Nat) (hk : 1 ≤ k) (x y : Nat)
    (h : (x >>> k) ^^^ x = (y >>> k) ^^^ y) : x = y := by
  have hz : (x ^^^ y) >>> k = x ^^^ y := by
    apply Nat.eq_of_testBit_eq
    intro i
    have hi := congrArg (fun n => Nat.testBit n i) h
    simp only [Nat.testBit_xor, Nat.testBit_shiftRight] at hi ⊢
    revert hi
    cases x.testBit (k + i) <;> cases y.testBit (k + i) <;> cases x.testBit i
      <;> cases y.testBit i <;> simp
  have h0 : x ^^^ y = 0 := by
    by_contra hne
    have hpos : 0 < x ^^^ y := Nat.pos_of_ne_zero hne
    have hlt : (x ^^^ y) >>> k < x ^^^ y := by
      rw [Nat.shiftRight_eq_div_pow]
      exact Nat.div_lt_self hpos (Nat.one_lt_two_pow (by omega))
    omega
  exact Nat.xor_eq_zero.mp h0

theorem referenceOutput_eq (t : Nat) :
    referenceOutput t
      = (u32 (referenceXorShift t * 277803737) >>> 22) ^^^ u32 (referenceXorShift t * 277803737) :=
  rfl

theorem referenceXorShift_injOn (t t' : Nat) (ht : t < 4294967296) (ht' : t' < 4294967296)
    (h : referenceXorShift t = referenceXorShift t') : t = t' := by
  have htop : t >>> 28 = t' >>> 28 := by
    rw [← referenceXorShift_top t ht, ← referenceXorShift_top t' ht', h]
  unfold referenceXorShift at h
  rw [← htop] at h
  exact xorshift_injective _ (by omega) t t' h

theorem referenceOutput_injOn (t t' : Nat) (ht : t < 4294967296) (ht' : t' < 4294967296)
    (h : referenceOutput t = referenceOutput t') : t = t' := by
  rw [referenceOutput_eq, referenceOutput_eq] at h
  have hw := xorshift_injective 22 (by norm_num) _ _ h
  have hx : referenceXorShift t = referenceXorShift t' := by
    rw [← mul_odd_inverse _ (referenceXorShift_lt t ht),
      ← mul_odd_inverse _ (referenceXorShift_lt t' ht'), hw]
  exact referenceXorShift_injOn t t' ht ht' hx

theorem referenceStep_injOn (s s' : Nat) (hs : s < 4294967296) (hs' : s' < 4294967296)
    (h : referenceStep s = referenceStep s') : s = s' := by
  rw [← referenceStep_inverse s hs, ← referenceStep_inverse s' hs', h]

theorem referenceOutput_surjOn (w : Nat) (hw : w < 4294967296) :
    ∃ t, t < 4294967296 ∧ referenceOutput t = w := by
  have hinj : Function.Injective
      (fun t : Fin 4294967296 => (⟨referenceOutput t.1, referenceOutput_lt t.1⟩ : Fin 4294967296)) := by
    intro a b hab
    have h := congrArg Fin.val hab
    exact Fin.ext (referenceOutput_injOn a.1 b.1 a.2 b.2 h)
  obtain ⟨t, ht⟩ := (Finite.injective_iff_surjective.mp hinj) ⟨w, hw⟩
  exact ⟨t.1, t.2, congrArg Fin.val ht⟩

/-- C24: the integer part of `stepAndOutputRNGFloat` (both copies) permutes
the 32-bit values. The state step `s -> (s*747796405 + 1) mod 2^32` is a
bijection of `[0, 2^32)`, and so is the map from the input state to the output
word `w` (the value returned is `w / 4294967295` in exact arithmetic). Two
distinct 32-bit states give distinct next states, distinct output words and,
in exact arithmetic, distinct values. -/
theorem rng_integer_part_bijective :
    Set.BijOn referenceStep (Set.Iio (2 ^ 32)) (Set.Iio (2 ^ 32))
      ∧ Set.BijOn (fun s => referenceOutput (referenceStep s)) (Set.Iio (2 ^ 32))
          (Set.Iio (2 ^ 32))
      ∧ (∀ s, RtPipeline1.stepAndOutputRNGFloat ℝ s
            = ((referenceOutput (referenceStep s) : ℝ) / 4294967295, referenceStep s)
          ∧ RtPipeline2.stepAndOutputRNGFloat ℝ s
            = ((referenceOutput (referenceStep s) : ℝ) / 4294967295, referenceStep s))
      ∧ (∀ s s', s < 2 ^ 32 → s' < 2 ^ 32 → s ≠ s' →
          (RtPipeline1.stepAndOutputRNGFloat ℝ s).2 ≠ (RtPipeline1.stepAndOutputRNGFloat ℝ s').2
          ∧ referenceOutput (referenceStep s) ≠ referenceOutput (referenceStep s')
          ∧ (RtPipeline1.stepAndOutputRNGFloat ℝ s).1
              ≠ (RtPipeline1.stepAndOutputRNGFloat ℝ s').1) := by
  have hM : (2 : Nat) ^ 32 = 4294967296 := by norm_num
  rw [hM]
  have hword : ∀ s s', s < 4294967296 → s' < 4294967296 →
      referenceOutput (referenceStep s) = referenceOutput (referenceStep s') → s = s' := by
    intro s s' hs hs' h
    exact referenceStep_injOn s s' hs hs'
      (referenceOutput_injOn _ _ (referenceStep_lt s) (referenceStep_lt s') h)
  refine ⟨⟨?_, ?_, ?_⟩, ⟨?_, ?_, ?_⟩, fun s => ⟨rt1_rng_eq s, rt2_rng_eq s⟩, ?_⟩
  · intro s _
    exact referenceStep_lt s
  · intro s hs s' hs' h
    exact referenceStep_injOn s s' hs hs' h
  · intro t ht
    exact ⟨((t + 4294967295) * 3425435293) % 4294967296, Nat.mod_lt _ (by norm_num),
      step_inverse_right t ht⟩
  · intro s _
    exact referenceOutput_lt _
  · intro s hs s' hs' h
    exact hword s s' hs hs' h
  · intro w hw
    obtain ⟨t, ht, hwt⟩ := referenceOutput_surjOn w hw
    exact ⟨((t + 4294967295) * 3425435293) % 4294967296, Nat.mod_lt _ (by norm_num),
      by show referenceOutput (referenceStep _) = w; rw [step_inverse_right t ht, hwt]⟩
  · intro s s' hs hs' hne
    rw [rt1_rng_eq, rt1_rng_eq]
    refine ⟨fun h => hne (referenceStep_injOn s s' hs hs' h),
      fun h => hne (hword s s' hs hs' h), fun h => hne (hword s s' hs hs' ?_)⟩
    have hd : (4294967295 : ℝ) ≠ 0 := by norm_num
    have h2 := (div_left_inj' hd).mp h
    exact_mod_cast h2

/-! ### The integer branch of the offset -/

namespace F32

/-- The integer offset `int(256.0 * m)` of a normal coordinate with
`|m| <= 1`, in closed form. -/
theorem normal_offset_value (m : F32) (hm : m.mag ≤ 1065353216) :
    magValue ((⟨1132462080⟩ : F32) * m).mag / 2 ^ 149 ≤ 256
      ∧ GLSLConversions.toInt ((256.0 : F32) * m)
          = if m.sign = 1
            then -((magValue ((⟨1132462080⟩ : F32) * m).mag / 2 ^ 149 : Nat) : Int)
            else ((magValue ((⟨1132462080⟩ : F32) * m).mag / 2 ^ 149 : Nat) : Int) := by
  have hmf : m.isFinite = true := (isFinite_iff m).mpr (by omega)
  have hkf : (⟨1132462080⟩ : F32).isFinite = true := by decide
  have hkm : (⟨1132462080⟩ : F32).mag = 1132462080 := by decide
  have hks : (⟨1132462080⟩ : F32).sign = 0 := by decide
  have hM : magValue m.mag ≤ 2 ^ 149 := by
    rw [← magValue_2p0]
    exact magValue_le_iff.mpr hm
  rw [lit_256]
  have hup : ((⟨1132462080⟩ : F32) * m).mag ≤ 1132462080 := by
    apply mul_mag_le hkf hmf
    rw [hkm, magValue_2p8]
    exact Nat.mul_le_mul_left _ hM
  have htf : ((⟨1132462080⟩ : F32) * m).isFinite = true := (isFinite_iff _).mpr (by omega)
  have hts := mul_sign hkf hmf hks
  have hV : magValue ((⟨1132462080⟩ : F32) * m).mag ≤ 2 ^ 157 := by
    rw [← magValue_2p8]
    exact magValue_le_iff.mpr hup
  have hq : magValue ((⟨1132462080⟩ : F32) * m).mag / 2 ^ 149 ≤ 256 := by
    apply Nat.div_le_of_le_mul
    calc magValue ((⟨1132462080⟩ : F32) * m).mag ≤ 2 ^ 157 := hV
      _ = 2 ^ 149 * 256 := by norm_num
  refine ⟨hq, ?_⟩
  show (if ((⟨1132462080⟩ : F32) * m).isFinite = true
    then i32 ((⟨1132462080⟩ : F32) * m).trunc else 0) = _
  rw [if_pos htf]
  unfold trunc scaledAbs
  rw [hts]
  generalize magValue ((⟨1132462080⟩ : F32) * m).mag / 2 ^ 149 = q at hq
  unfold i32
  split <;> omega

/-- Negating the normal coordinate negates the integer offset. -/
theorem normal_offset_neg (m : F32) (hm : m.mag ≤ 1065353216) :
    GLSLConversions.toInt ((256.0 : F32) * (-m))
      = -GLSLConversions.toInt ((256.0 : F32) * m) := by
  obtain ⟨hmag, hsign⟩ := neg_sign_mag m
  have hmf : m.isFinite = true := (isFinite_iff m).mpr (by omega)
  have hnf : (-m).isFinite = true := (isFinite_iff _).mpr (by rw [hmag]; omega)
  have hkf : (⟨1132462080⟩ : F32).isFinite = true := by decide
  have hq := (normal_offset_value m hm).1
  rw [(normal_offset_value m hm).2, (normal_offset_value (-m) (by rw [hmag]; exact hm)).2,
    mul_mag hkf hnf, mul_mag hkf hmf, hmag, hsign]
  rcases sign_cases m with hs | hs
  · rw [hs]
    simp
  · rw [hs]
    simp

/-- The integer branch on bit patterns: the sign bit is kept, and the
magnitude pattern moves by `off` for a non-negative coordinate and by `-off`
for a negative one. -/
theorem int_branch_pattern (c : F32) (off : Int) (hb : c.bits < 4294967296)
    (hc1 : 1023410176 ≤ c.mag) (hc2 : c.mag + 256 ≤ 2139095040)
    (ho1 : -256 ≤ off) (ho2 : off ≤ 256) :
    ∃ r : F32, r = GLSLConversions.intBitsToFloat
        (i32 (GLSLConversions.floatBitsToInt c + (if c < (⟨0⟩ : F32) then i32 (-off) else off)))
      ∧ r.sign = c.sign
      ∧ (r.mag : Int) = c.mag + (if c.sign = 1 then -off else off)
      ∧ (r.bits : Int) = c.bits + (if c.sign = 1 then -off else off) := by
  have hcf : c.isFinite = true := (isFinite_iff c).mpr (by omega)
  have hr : (GLSLConversions.intBitsToFloat
      (i32 (GLSLConversions.floatBitsToInt c + (if c < (⟨0⟩ : F32) then i32 (-off) else off)))
        : F32)
      = F32.mk (i32 (i32 (c.bits : Int) + (if c < (⟨0⟩ : F32) then i32 (-off) else off))
          % 4294967296).toNat := rfl
  refine ⟨_, rfl, ?_⟩
  rw [hr]
  rcases sign_cases c with hs | hs
  · have hlt : ¬ c < (⟨0⟩ : F32) := by
      rw [lt_zero_iff hcf]
      omega
    rw [if_neg hlt, if_neg (by omega)]
    have hbits : (i32 (i32 (c.bits : Int) + off) % 4294967296).toNat
        = (c.mag + off).toNat := by
      unfold sign at hs
      unfold mag at hc1 hc2 ⊢
      unfold i32
      omega
    rw [hbits]
    obtain ⟨k, hk⟩ : ∃ k : Nat, (c.mag + off).toNat = k := ⟨_, rfl⟩
    have hk31 : k < 2147483648 := by omega
    rw [hk, pattern_sign_zero hk31, pattern_mag hk31, hs]
    refine ⟨rfl, by omega, ?_⟩
    show (k : Int) = c.bits + off
    unfold sign at hs
    unfold mag at hc1 hc2 hk
    omega
  · have hlt : c < (⟨0⟩ : F32) := by
      rw [lt_zero_iff hcf]
      omega
    rw [if_pos hlt, if_pos hs]
    have hbits : (i32 (i32 (c.bits : Int) + i32 (-off)) % 4294967296).toNat
        = 2147483648 + (c.mag - off).toNat := by
      unfold sign at hs
      unfold mag at hc1 hc2 ⊢
      unfold i32
      omega
    rw [hbits]
    obtain ⟨k, hk⟩ : ∃ k : Nat, (c.mag - off).toNat = k := ⟨_, rfl⟩
    have hk31 : k < 2147483648 := by omega
    rw [hk, neg_pattern_sign hk31, neg_pattern_mag hk31, hs]
    refine ⟨rfl, by omega, ?_⟩
    show ((2147483648 + k : Nat) : Int) = c.bits + -off
    unfold sign at hs
    unfold mag at hc1 hc2 hk
    omega

end F32

namespace F32

theorem isNaN_of_mag_le {x : F32} (h : x.mag ≤ 2139095040) : x.isNaN = false := by
  unfold isNaN
  simp only [decide_eq_false_iff_not]
  omega

theorem lt_of_same_sign {x y : F32} (hs : x.sign = y.sign) (hx : x.mag ≤ 2139095040)
    (hy : y.mag ≤ 2139095040) :
    x < y ↔ ((x.sign = 0 ∧ x.mag < y.mag) ∨ (x.sign = 1 ∧ y.mag < x.mag)) := by
  rw [lt_iff, isNaN_of_mag_le hx, isNaN_of_mag_le hy]
  simp only [true_and]
  rcases sign_cases x with h | h
  · rw [scaled_of_sign_zero h, scaled_of_sign_zero (hs ▸ h), Int.ofNat_lt, magValue_lt_iff]
    constructor
    · intro hlt
      exact Or.inl ⟨h, hlt⟩
    · rintro (⟨_, hlt⟩ | ⟨h1, _⟩)
      · exact hlt
      · omega
  · rw [scaled_of_sign_one h, scaled_of_sign_one (hs ▸ h), neg_lt_neg_iff, Int.ofNat_lt,
      magValue_lt_iff]
    constructor
    · intro hlt
      exact Or.inr ⟨h, hlt⟩
    · rintro (⟨h0, _⟩ | ⟨_, hlt⟩)
      · omega
      · exact hlt

theorem eq_of_bits_eq {x y : F32} (h : x.bits = y.bits) : x = y := by
  cases x
  cases y
  simp only at h
  rw [h]

end F32

/-- Away from the origin, the offset of a coordinate is the integer branch. -/
theorem offsetComponent_far (c m : F32) (hc1 : 1023410176 ≤ c.mag)
    (hc2 : c.mag < 2139095040) :
    offsetComponent c m
      = GLSLConversions.intBitsToFloat
          (i32 (GLSLConversions.floatBitsToInt c
            + (if c < (⟨0⟩ : F32) then i32 (-GLSLConversions.toInt ((256.0 : F32) * m))
               else GLSLConversions.toInt ((256.0 : F32) * m)))) := by
  have hcf : c.isFinite = true := (F32.isFinite_iff c).mpr hc2
  unfold offsetComponent
  simp only [F32.lit_origin, F32.lit_floatScale, F32.lit_0]
  rw [if_neg (fun h => absurd ((F32.abs_lt_origin_iff hcf).mp h) (by omega))]

/-- C25: in the integer branch of `offsetPositionAlongNormal` (both copies),
for every binary32 coordinate `c` with `abs(c) >= 1/32` whose pattern is at
least 256 steps below infinity and every normal coordinate `m` with
`|m| <= 1`, with `k = int(256.0 * m)`: the result is greater than `c` when
`k > 0`, less than `c` when `k < 0` and equal to `c` when `k = 0`; it has the
sign bit of `c`; its pattern is `|k|` steps from that of `c`, `k` steps away
from zero for `c >= 0` and `k` steps toward zero for `c < 0`; and for `-m`
the integer offset and the displacement of the pattern are the negated
ones. -/
theorem offsetComponent_integer_branch (c m : F32) (hb : c.bits < 2 ^ 32)
    (hc1 : 1023410176 ≤ c.mag) (hc2 : c.mag + 256 ≤ 2139095040)
    (hm : m.mag ≤ 1065353216) :
    (0 < GLSLConversions.toInt ((256.0 : F32) * m) → c < offsetComponent c m)
      ∧ (GLSLConversions.toInt ((256.0 : F32) * m) < 0 → offsetComponent c m < c)
      ∧ (GLSLConversions.toInt ((256.0 : F32) * m) = 0 → offsetComponent c m = c)
      ∧ (offsetComponent c m).sign = c.sign
      ∧ (((offsetComponent c m).mag : Int) - c.mag).natAbs
          = (GLSLConversions.toInt ((256.0 : F32) * m)).natAbs
      ∧ ((offsetComponent c m).bits : Int)
          = c.bits + (if c.sign = 1 then -GLSLConversions.toInt ((256.0 : F32) * m)
              else GLSLConversions.toInt ((256.0 : F32) * m))
      ∧ GLSLConversions.toInt ((256.0 : F32) * (-m))
          = -GLSLConversions.toInt ((256.0 : F32) * m)
      ∧ ((offsetComponent c (-m)).bits : Int) - c.bits
          = -(((offsetComponent c m).bits : Int) - c.bits)
      ∧ (∀ p n : Vec3 F32,
          RtPipeline1.offsetPositionAlongNormal p n
            = ⟨offsetComponent p.x n.x, offsetComponent p.y n.y, offsetComponent p.z n.z⟩
          ∧ RtPipeline3.offsetPositionAlongNormal p n
            = ⟨offsetComponent p.x n.x, offsetComponent p.y n.y, offsetComponent p.z n.z⟩) := by
  have hb2 : c.bits < 4294967296 := by
    norm_num at hb
    exact hb
  obtain ⟨hq, hk⟩ := F32.normal_offset_value m hm
  have hk1 : -256 ≤ GLSLConversions.toInt ((256.0 : F32) * m) := by
    rw [hk]
    split <;> omega
  have hk2 : GLSLConversions.toInt ((256.0 : F32) * m) ≤ 256 := by
    rw [hk]
    split <;> omega
  have hneg := F32.normal_offset_neg m hm
  obtain ⟨r, hr, hrs, hrm, hrb⟩ := F32.int_branch_pattern c _ hb2 hc1 hc2 hk1 hk2
  obtain ⟨r', hr', -, -, hrb'⟩ := F32.int_branch_pattern c
    (GLSLConversions.toInt ((256.0 : F32) * (-m))) hb2 hc1 hc2
    (by rw [hneg]; omega) (by rw [hneg]; omega)
  rw [← offsetComponent_far c m hc1 (by omega)] at hr
  rw [← offsetComponent_far c (-m) hc1 (by omega)] at hr'
  rw [← hr, ← hr']
  have hcm : c.mag ≤ 2139095040 := by omega
  have hrmag : r.mag ≤ 2139095040 := by
    split at hrm <;> omega
  refine ⟨?_, ?_, ?_, hrs, ?_, hrb, hneg, ?_,
    fun p n => ⟨rt1_offset_components p n, rt3_offset_components p n⟩⟩
  · intro hpos
    rw [F32.lt_of_same_sign hrs.symm hcm hrmag]
    rcases F32.sign_cases c with hs | hs
    · rw [if_neg (by omega)] at hrm
      exact Or.inl ⟨hs, by omega⟩
    · rw [if_pos hs] at hrm
      exact Or.inr ⟨hs, by omega⟩
  · intro hlt
    rw [F32.lt_of_same_sign hrs hrmag hcm]
    rcases F32.sign_cases c with hs | hs
    · rw [if_neg (by omega)] at hrm
      exact Or.inl ⟨by omega, by omega⟩
    · rw [if_pos hs] at hrm
      exact Or.inr ⟨by omega, by omega⟩
  · intro h0
    apply F32.eq_of_bits_eq
    rw [h0] at hrb
    split at hrb <;> omega
  · split at hrm <;> omega
  · rw [hneg] at hrb'
    split at hrb <;> split at hrb' <;> omega

set_option maxRecDepth 100000 in
/-- Witness for C25: the coordinate -3e10 and the normal coordinate 0.31 of
the sample position and normal. -/
theorem offsetComponent_integer_branch_witness :
    GLSLConversions.toInt ((256.0 : F32) * sampleNormal.z) = 79
      ∧ samplePosition.z.sign = 1
      ∧ samplePosition.z < offsetComponent samplePosition.z sampleNormal.z
      ∧ ((offsetComponent samplePosition.z sampleNormal.z).bits : Int)
          = samplePosition.z.bits - 79 := by
  have h := offsetComponent_integer_branch samplePosition.z sampleNormal.z (by decide)
    (by decide) (by decide) (by decide)
  have hk : GLSLConversions.toInt ((256.0 : F32) * sampleNormal.z) = 79 := by decide
  have hs : samplePosition.z.sign = 1 := by decide
  refine ⟨hk, hs, h.1 (by rw [hk]; decide), ?_⟩
  have hb := h.2.2.2.2.2.1
  rw [hk, if_pos hs] at hb
  rw [hb]
  rfl

/-! ### Colours and random numbers of the materials -/

section ColourClaims

variable (indices : List Nat) (vertices : List (Vec3 ℝ))

theorem rt1_material0_of_hit {rq : RayQuery ℝ} {rngState : Nat} {h : RtPipeline1.HitInfo ℝ}
    (hh : RtPipeline1.getObjectHitInfo indices vertices rq = some h) :
    RtPipeline1.material0 indices vertices rq rngState
      = some (⟨vec3 0.7, RtPipeline1.offsetPositionAlongNormal h.worldPosition h.worldNormal,
          (RtPipeline1.diffuseReflection h.worldNormal rngState).1⟩,
        (RtPipeline1.diffuseReflection h.worldNormal rngState).2) := by
  unfold RtPipeline1.material0
  rw [hh]
  rfl

theorem rt1_material2_of_hit {rq : RayQuery ℝ} {rngState : Nat} {h : RtPipeline1.HitInfo ℝ}
    (hh : RtPipeline1.getObjectHitInfo indices vertices rq = some h) :
    RtPipeline1.material2 indices vertices rq rngState
      = some (⟨vec3 0.5 + (0.5 : ℝ) * h.worldNormal,
          RtPipeline1.offsetPositionAlongNormal h.worldPosition h.worldNormal,
          (RtPipeline1.diffuseReflection h.worldNormal rngState).1⟩,
        (RtPipeline1.diffuseReflection h.worldNormal rngState).2) := by
  unfold RtPipeline1.material2
  rw [hh]
  rfl

theorem rt1_material7_of_hit {rq : RayQuery ℝ} {rngState : Nat} {h : RtPipeline1.HitInfo ℝ}
    (hh : RtPipeline1.getObjectHitInfo indices vertices rq = some h) :
    RtPipeline1.material7 indices vertices rq rngState
      = some (⟨GLSL.clamp
            ⟨(rq.intersectionPrimitiveIndex : ℝ) / 36.0,
             (rq.intersectionPrimitiveIndex : ℝ) / 9.0,
             (rq.intersectionPrimitiveIndex : ℝ) / 18.0⟩ (vec3 0.0) (vec3 1.0),
          RtPipeline1.offsetPositionAlongNormal h.worldPosition h.worldNormal,
          (RtPipeline1.diffuseReflection h.worldNormal rngState).1⟩,
        (RtPipeline1.diffuseReflection h.worldNormal rngState).2) := by
  unfold RtPipeline1.material7
  rw [hh]
  rfl

theorem inUnitCube_const_07 : inUnitCube (vec3 0.7) := by
  unfold inUnitCube vec3
  norm_num

theorem inUnitCube_const_one : inUnitCube (vec3 1.0) := by
  unfold inUnitCube vec3
  norm_num

theorem clampFloat_mem_unit (x : ℝ) :
    0 ≤ GLSL.clampFloat x 0.0 1.0 ∧ GLSL.clampFloat x 0.0 1.0 ≤ 1 := by
  unfold GLSL.clampFloat
  simp only [lit_zero, lit_one]
  by_cases h0 : x < 0
  · rw [if_pos h0, if_neg (by norm_num)]
    norm_num
  · rw [if_neg h0]
    by_cases h1 : 1 < x
    · rw [if_pos h1]
      norm_num
    · rw [if_neg h1]
      exact ⟨not_lt.mp h0, not_lt.mp h1⟩

theorem inUnitCube_clamp (v : Vec3 ℝ) : inUnitCube (GLSL.clamp v (vec3 0.0) (vec3 1.0)) := by
  have hx := clampFloat_mem_unit v.x
  have hy := clampFloat_mem_unit v.y
  have hz := clampFloat_mem_unit v.z
  exact ⟨hx.1, hx.2, hy.1, hy.2, hz.1, hz.2⟩

theorem inUnitCube_normal_colour (n : Vec3 ℝ) (hn : GLSL.length n = 1) :
    inUnitCube (vec3 0.5 + (0.5 : ℝ) * n) := by
  have h1 : n.x * n.x + n.y * n.y + n.z * n.z = 1 := glsl_dot_self_of_length_one hn
  have hx : -1 ≤ n.x ∧ n.x ≤ 1 := by
    constructor <;> nlinarith [mul_self_nonneg n.y, mul_self_nonneg n.z, mul_self_nonneg (n.x - 1),
      mul_self_nonneg (n.x + 1)]
  have hy : -1 ≤ n.y ∧ n.y ≤ 1 := by
    constructor <;> nlinarith [mul_self_nonneg n.x, mul_self_nonneg n.z, mul_self_nonneg (n.y - 1),
      mul_self_nonneg (n.y + 1)]
  have hz : -1 ≤ n.z ∧ n.z ≤ 1 := by
    constructor <;> nlinarith [mul_self_nonneg n.x, mul_self_nonneg n.y, mul_self_nonneg (n.z - 1),
      mul_self_nonneg (n.z + 1)]
  have e : (vec3 0.5 + (0.5 : ℝ) * n)
      = ⟨1 / 2 + 1 / 2 * n.x, 1 / 2 + 1 / 2 * n.y, 1 / 2 + 1 / 2 * n.z⟩ := by
    ext <;> simp only [vec3, vec3_add_x, vec3_add_y, vec3_add_z, vec3_smul_x, vec3_smul_y,
      vec3_smul_z] <;> norm_num
  rw [e]
  unfold inUnitCube
  simp only
  refine ⟨?_, ?_, ?_, ?_, ?_, ?_⟩ <;> linarith [hx.1, hx.2, hy.1, hy.2, hz.1, hz.2]

theorem shade_le (a c : Vec3 ℝ) (ha : 0 ≤ a.x ∧ 0 ≤ a.y ∧ 0 ≤ a.z) (hc : inUnitCube c) :
    0 ≤ (shade a c).x ∧ (shade a c).x ≤ a.x ∧ 0 ≤ (shade a c).y ∧ (shade a c).y ≤ a.y
      ∧ 0 ≤ (shade a c).z ∧ (shade a c).z ≤ a.z := by
  obtain ⟨h1, h2, h3, h4, h5, h6⟩ := hc
  obtain ⟨ax, ay, az⟩ := ha
  unfold shade
  simp only
  exact ⟨mul_nonneg ax h1, mul_le_of_le_one_right ax h2, mul_nonneg ay h3,
    mul_le_of_le_one_right ay h4, mul_nonneg az h5, mul_le_of_le_one_right az h6⟩

/-- C26: for every resolved hit with a unit world normal, every primitive id
and every RNG state, each of `material0` .. `material8` returns a result whose
colour has all three components in `[0, 1]` (exact real arithmetic): 0.7 or
1.0 in the constant cases, `0.5 + 0.5*normal` for `material2`, the clamped
primitive-id colour for `material7`. Multiplying a non-negative accumulated
colour by such a reflectance makes no component larger. -/
theorem material_colours_in_unit_cube (rq : RayQuery ℝ) (rngState : Nat)
    (h : RtPipeline1.HitInfo ℝ)
    (hh : RtPipeline1.getObjectHitInfo indices vertices rq = some h)
    (hn : GLSL.length h.worldNormal = 1) :
    (∃ r s, RtPipeline1.material0 indices vertices rq rngState = some (r, s)
        ∧ r.color = vec3 0.7 ∧ inUnitCube r.color)
      ∧ (∃ r s, RtPipeline1.material1 indices vertices rq rngState = some (r, s)
        ∧ r.color = vec3 0.7 ∧ inUnitCube r.color)
      ∧ (∃ r s, RtPipeline1.material2 indices vertices rq rngState = some (r, s)
        ∧ r.color = vec3 0.5 + (0.5 : ℝ) * h.worldNormal ∧ inUnitCube r.color)
      ∧ (∃ r s, RtPipeline1.material3 indices vertices rq rngState = some (r, s)
        ∧ r.color = vec3 0.7 ∧ inUnitCube r.color)
      ∧ (∃ r s, RtPipeline1.material4 indices vertices rq rngState = some (r, s)
        ∧ r.color = vec3 0.7 ∧ inUnitCube r.color)
      ∧ (∃ r s, RtPipeline1.material5 indices vertices rq rngState = some (r, s)
        ∧ (r.color = vec3 0.7 ∨ r.color = vec3 1.0) ∧ inUnitCube r.color)
      ∧ (∃ r s, RtPipeline1.material6 indices vertices rq rngState = some (r, s)
        ∧ r.color = vec3 0.7 ∧ inUnitCube r.color)
      ∧ (∃ r s, RtPipeline1.material7 indices vertices rq rngState = some (r, s)
        ∧ r.color = GLSL.clamp
            ⟨(rq.intersectionPrimitiveIndex : ℝ) / 36.0,
             (rq.intersectionPrimitiveIndex : ℝ) / 9.0,
             (rq.intersectionPrimitiveIndex : ℝ) / 18.0⟩ (vec3 0.0) (vec3 1.0)
        ∧ inUnitCube r.color)
      ∧ (∃ r s, RtPipeline1.material8 indices vertices rq rngState = some (r, s)
        ∧ (r.color = vec3 0.7 ∨ r.color = vec3 1.0) ∧ inUnitCube r.color)
      ∧ (∀ a c : Vec3 ℝ, 0 ≤ a.x ∧ 0 ≤ a.y ∧ 0 ≤ a.z → inUnitCube c →
          0 ≤ (shade a c).x ∧ (shade a c).x ≤ a.x ∧ 0 ≤ (shade a c).y ∧ (shade a c).y ≤ a.y
            ∧ 0 ≤ (shade a c).z ∧ (shade a c).z ≤ a.z) := by
  refine ⟨⟨_, _, rt1_material0_of_hit indices vertices hh, rfl, inUnitCube_const_07⟩,
    ⟨_, _, rt1_material1_of_hit indices vertices hh, rfl, inUnitCube_const_07⟩,
    ⟨_, _, rt1_material2_of_hit indices vertices hh, rfl,
      inUnitCube_normal_colour _ hn⟩, ?_, ?_, ?_,
    ⟨_, _, rt1_material6_of_hit indices vertices hh, rfl, inUnitCube_const_07⟩,
    ⟨_, _, rt1_material7_of_hit indices vertices hh, rfl, inUnitCube_clamp _⟩, ?_, shade_le⟩
  · have he : RtPipeline1.material3 indices vertices rq rngState = _ :=
      rt1_material3_of_hit indices vertices hh
    by_cases hc : (RtPipeline1.stepAndOutputRNGFloat ℝ rngState).1 < 0.2
    · rw [if_pos hc] at he
      exact ⟨_, _, he, rfl, inUnitCube_const_07⟩
    · rw [if_neg hc] at he
      exact ⟨_, _, he, rfl, inUnitCube_const_07⟩
  · have he : RtPipeline1.material4 indices vertices rq rngState = _ :=
      rt1_material4_of_hit indices vertices hh
    by_cases hc : (RtPipeline1.stepAndOutputRNGFloat ℝ rngState).1 < 0.5
    · rw [if_pos hc] at he
      exact ⟨_, _, he, rfl, inUnitCube_const_07⟩
    · rw [if_neg hc] at he
      exact ⟨_, _, he, rfl, inUnitCube_const_07⟩
  · have he : RtPipeline1.material5 indices vertices rq rngState = _ :=
      rt1_material5_of_hit indices vertices hh
    by_cases hc : GLSL.mod (dot h.objectPosition ⟨1.0, 1.0, 1.0⟩) 0.5 < 0.25
    · rw [if_pos hc] at he
      exact ⟨_, _, he, Or.inr rfl, inUnitCube_const_one⟩
    · rw [if_neg hc] at he
      exact ⟨_, _, he, Or.inl rfl, inUnitCube_const_07⟩
  · have he : RtPipeline1.material8 indices vertices rq rngState = _ :=
      rt1_material8_of_hit indices vertices hh
    by_cases hc : GLSL.mod (GLSL.length h.objectPosition) 0.2 < 0.05
    · rw [if_pos hc] at he
      exact ⟨_, _, he, Or.inr rfl, inUnitCube_const_one⟩
    · rw [if_neg hc] at he
      exact ⟨_, _, he, Or.inl rfl, inUnitCube_const_07⟩

/-- Witness for C26: the sample hit, from the state 5. -/
theorem material_colours_in_unit_cube_witness :
    ∃ h, RtPipeline1.getObjectHitInfo sampleIndices sampleVertices sampleRayQuery = some h
      ∧ GLSL.length h.worldNormal = 1
      ∧ (∃ r s, RtPipeline1.material2 sampleIndices sampleVertices sampleRayQuery 5
            = some (r, s)
          ∧ r.color = vec3 0.5 + (0.5 : ℝ) * h.worldNormal ∧ inUnitCube r.color)
      ∧ (∃ r s, RtPipeline1.material7 sampleIndices sampleVertices sampleRayQuery 5
            = some (r, s)
          ∧ r.color = GLSL.clamp
              ⟨(sampleRayQuery.intersectionPrimitiveIndex : ℝ) / 36.0,
               (sampleRayQuery.intersectionPrimitiveIndex : ℝ) / 9.0,
               (sampleRayQuery.intersectionPrimitiveIndex : ℝ) / 18.0⟩ (vec3 0.0) (vec3 1.0)
          ∧ inUnitCube r.color) := by
  obtain ⟨h, hh, hn⟩ := sample_hit_resolved
  have hw := material_colours_in_unit_cube sampleIndices sampleVertices sampleRayQuery 5 h hh hn
  exact ⟨h, hh, hn, hw.2.2.1, hw.2.2.2.2.2.2.2.1⟩

theorem perturbation_dot_le (p : Vec3 ℝ) :
    dot (referencePerturbation p) (referencePerturbation p) ≤ 27 / 10000 := by
  have e : dot (referencePerturbation p) (referencePerturbation p)
      = 9 / 10000 * (Real.sin (80 * p.x) ^ 2 + Real.sin (80 * p.y) ^ 2
          + Real.sin (80 * p.z) ^ 2) := by
    simp only [referencePerturbation, dot, vec3_smul_x, vec3_smul_y, vec3_smul_z]
    norm_num
    ring
  rw [e]
  have hx := Real.sin_sq_le_one (80 * p.x)
  have hy := Real.sin_sq_le_one (80 * p.y)
  have hz := Real.sin_sq_le_one (80 * p.z)
  linarith

theorem perturbation_length_le (p : Vec3 ℝ) :
    GLSL.length (referencePerturbation p) ≤ 0.03 * Real.sqrt 3 := by
  show Real.sqrt (dot (referencePerturbation p) (referencePerturbation p)) ≤ _
  rw [Real.sqrt_le_iff]
  constructor
  · positivity
  · have h3 : Real.sqrt 3 ^ 2 = 3 := Real.sq_sqrt (by norm_num)
    have := perturbation_dot_le p
    rw [mul_pow, h3]
    norm_num
    linarith

theorem perturbation_bound_lt_one : (0.03 : ℝ) * Real.sqrt 3 < 1 := by
  have h : Real.sqrt 3 < 2 := by
    rw [Real.sqrt_lt' (by norm_num)]
    norm_num
  norm_num
  linarith

theorem perturbed_normal_ne_zero (n p : Vec3 ℝ) (hn : GLSL.length n = 1) :
    n + referencePerturbation p ≠ ⟨0, 0, 0⟩ := by
  intro h
  have h1 : n.x * n.x + n.y * n.y + n.z * n.z = 1 := glsl_dot_self_of_length_one hn
  have hx : (referencePerturbation p).x = -n.x := by
    have h0 : n.x + (referencePerturbation p).x = 0 := congrArg Vec3.x h
    linarith
  have hy : (referencePerturbation p).y = -n.y := by
    have h0 : n.y + (referencePerturbation p).y = 0 := congrArg Vec3.y h
    linarith
  have hz : (referencePerturbation p).z = -n.z := by
    have h0 : n.z + (referencePerturbation p).z = 0 := congrArg Vec3.z h
    linarith
  have hd := perturbation_dot_le p
  unfold dot at hd
  rw [hx, hy, hz] at hd
  nlinarith

/-- C27: for every world position `p` and every unit geometric normal `n`
(exact real arithmetic), the perturbation `0.03*(sin(80x), sin(80y), sin(80z))`
of `material6` has Euclidean norm at most `0.03*sqrt(3) < 1`, so
`n + perturbation` is not the zero vector, its length is positive, and the
shading normal `normalize(n + perturbation)` that `material6` uses has unit
length. -/
theorem material6_shading_normal_defined (n p : Vec3 ℝ) (hn : GLSL.length n = 1) :
    referencePerturbation p
        = (0.03 : ℝ) * (⟨Real.sin (80 * p.x), Real.sin (80 * p.y), Real.sin (80 * p.z)⟩
            : Vec3 ℝ)
      ∧ GLSL.length (referencePerturbation p) ≤ 0.03 * Real.sqrt 3
      ∧ (0.03 : ℝ) * Real.sqrt 3 < 1
      ∧ n + referencePerturbation p ≠ ⟨0, 0, 0⟩
      ∧ 0 < GLSL.length (n + referencePerturbation p)
      ∧ referenceShadingNormal n p = GLSL.normalize (n + referencePerturbation p)
      ∧ GLSL.length (referenceShadingNormal n p) = 1
      ∧ (∀ (rq : RayQuery ℝ) (rngState : Nat) (h : RtPipeline1.HitInfo ℝ),
          RtPipeline1.getObjectHitInfo indices vertices rq = some h →
          ∃ r s, RtPipeline1.material6 indices vertices rq rngState = some (r, s)
            ∧ r.rayDirection
              = (if dot (referenceShadedBounce rq.worldRayDirection
                    (referenceShadingNormal h.worldNormal h.worldPosition) rngState).1
                  h.worldNormal ≤ 0
                then (referenceShadedBounce rq.worldRayDirection
                      (referenceShadingNormal h.worldNormal h.worldPosition) rngState).1
                  - (2 * dot (referenceShadedBounce rq.worldRayDirection
                      (referenceShadingNormal h.worldNormal h.worldPosition) rngState).1
                      h.worldNormal) * h.worldNormal
                else (referenceShadedBounce rq.worldRayDirection
                      (referenceShadingNormal h.worldNormal h.worldPosition) rngState).1)) := by
  have hne := perturbed_normal_ne_zero n p hn
  refine ⟨rfl, perturbation_length_le p, perturbation_bound_lt_one, hne,
    (glsl_length_pos_iff _).mpr hne, rfl, ?_, ?_⟩
  · show GLSL.length (GLSL.normalize (n + referencePerturbation p)) = 1
    exact glsl_length_normalize hne
  · intro rq rngState h hh
    exact ⟨_, _, rt1_material6_of_hit indices vertices hh, rfl⟩

/-- Witness for C27: the normal `(0, 0, 1)` at the world position
`(1/4, 1/4, 0)`. -/
theorem material6_shading_normal_defined_witness :
    GLSL.length (⟨0, 0, 1⟩ : Vec3 ℝ) = 1
      ∧ (⟨0, 0, 1⟩ : Vec3 ℝ) + referencePerturbation ⟨1 / 4, 1 / 4, 0⟩ ≠ ⟨0, 0, 0⟩
      ∧ GLSL.length (referenceShadingNormal ⟨0, 0, 1⟩ ⟨1 / 4, 1 / 4, 0⟩) = 1 :=
  ⟨upNormal_length,
    (material6_shading_normal_defined sampleIndices sampleVertices ⟨0, 0, 1⟩ ⟨1 / 4, 1 / 4, 0⟩
      upNormal_length).2.2.2.1,
    (material6_shading_normal_defined sampleIndices sampleVertices ⟨0, 0, 1⟩ ⟨1 / 4, 1 / 4, 0⟩
      upNormal_length).2.2.2.2.2.2.1⟩

/-- C29: for every resolved hit and every RNG state `s`, `material1` returns
with the state `s`, and so do `material5` on its transparent branch
(`mod(x + y + z, 0.5) < 0.25`) and `material8` on its transparent branch
(`mod(length(objectPosition), 0.2) < 0.05`); `material0`, `material2` and
`material7` return with the state stepped exactly twice. -/
theorem material_rng_frame (rq : RayQuery ℝ) (s : Nat) (h : RtPipeline1.HitInfo ℝ)
    (hh : RtPipeline1.getObjectHitInfo indices vertices rq = some h) :
    (∃ r, RtPipeline1.material1 indices vertices rq s = some (r, s))
      ∧ (GLSL.mod (dot h.objectPosition ⟨1.0, 1.0, 1.0⟩) 0.5 < 0.25 →
          ∃ r, RtPipeline1.material5 indices vertices rq s = some (r, s)
            ∧ r.rayDirection = rq.worldRayDirection)
      ∧ (GLSL.mod (GLSL.length h.objectPosition) 0.2 < 0.05 →
          ∃ r, RtPipeline1.material8 indices vertices rq s = some (r, s)
            ∧ r.rayDirection = rq.worldRayDirection)
      ∧ (∃ r, RtPipeline1.material0 indices vertices rq s
          = some (r, referenceStep (referenceStep s)))
      ∧ (∃ r, RtPipeline1.material2 indices vertices rq s
          = some (r, referenceStep (referenceStep s)))
      ∧ (∃ r, RtPipeline1.material7 indices vertices rq s
          = some (r, referenceStep (referenceStep s))) := by
  refine ⟨⟨_, rt1_material1_of_hit indices vertices hh⟩, ?_, ?_, ?_, ?_, ?_⟩
  · intro hc
    have he : RtPipeline1.material5 indices vertices rq s = _ :=
      rt1_material5_of_hit indices vertices hh
    rw [if_pos hc] at he
    exact ⟨_, he, rfl⟩
  · intro hc
    have he : RtPipeline1.material8 indices vertices rq s = _ :=
      rt1_material8_of_hit indices vertices hh
    rw [if_pos hc] at he
    exact ⟨_, he, rfl⟩
  · have he : RtPipeline1.material0 indices vertices rq s = _ :=
      rt1_material0_of_hit indices vertices hh
    rw [rt1_diffuse_state] at he
    exact ⟨_, he⟩
  · have he : RtPipeline1.material2 indices vertices rq s = _ :=
      rt1_material2_of_hit indices vertices hh
    rw [rt1_diffuse_state] at he
    exact ⟨_, he⟩
  · have he : RtPipeline1.material7 indices vertices rq s = _ :=
      rt1_material7_of_hit indices vertices hh
    rw [rt1_diffuse_state] at he
    exact ⟨_, he⟩

/-- Witness for C29: the sample hit, which `material5` passes through, from
the state 5. -/
theorem material_rng_frame_witness :
    ∃ h, RtPipeline1.getObjectHitInfo sampleIndices sampleVertices sampleRayQuery = some h
      ∧ (∃ r, RtPipeline1.material1 sampleIndices sampleVertices sampleRayQuery 5 = some (r, 5))
      ∧ (∃ r, RtPipeline1.material5 sampleIndices sampleVertices sampleRayQuery 5 = some (r, 5)
          ∧ r.rayDirection = sampleRayQuery.worldRayDirection)
      ∧ (∃ r, RtPipeline1.material0 sampleIndices sampleVertices sampleRayQuery 5
          = some (r, referenceStep (referenceStep 5))) := by
  obtain ⟨h, hh, hp⟩ := sample_hit_position
  have hw := material_rng_frame sampleIndices sampleVertices sampleRayQuery 5 h hh
  refine ⟨h, hh, hw.1, hw.2.1 ?_, hw.2.2.2.1⟩
  rw [glsl_dot_ones, hp, glsl_mod_eq]
  have hf : ⌊((1 / 4 : ℝ) + 1 / 4 + 0) / 0.5⌋ = 1 := by
    rw [Int.floor_eq_iff]
    constructor <;> norm_num
  rw [hf]
  norm_num

end ColourClaims

/-! ### Bounds of the index fetches -/

theorem fetchTriangle_isSome_iff (indices : List Nat) (vertices : List (Vec3 ℝ)) (p : Nat)
    (i0 i1 i2 : Nat) (h0 : indices[3 * p + 0]? = some i0) (h1 : indices[3 * p + 1]? = some i1)
    (h2 : indices[3 * p + 2]? = some i2) :
    (fetchTriangle indices vertices p).isSome = true
      ↔ (i0 < vertices.length ∧ i1 < vertices.length ∧ i2 < vertices.length) := by
  unfold fetchTriangle
  rw [h0, h1, h2]
  simp only
  constructor
  · intro h
    by_contra hc
    have : vertices[i0]? = none ∨ vertices[i1]? = none ∨ vertices[i2]? = none := by
      simp only [List.getElem?_eq_none_iff]
      omega
    rcases this with e | e | e
    · rw [e] at h
      simp at h
    · rw [e] at h
      cases vertices[i0]? <;> simp at h
    · rw [e] at h
      cases vertices[i0]? <;> cases vertices[i1]? <;> simp at h
  · rintro ⟨a, b, c⟩
    rw [List.getElem?_eq_getElem a, List.getElem?_eq_getElem b, List.getElem?_eq_getElem c]
    rfl

theorem rt1_isSome_iff_fetch (indices : List Nat) (vertices : List (Vec3 ℝ)) (rq : RayQuery ℝ) :
    (RtPipeline1.getObjectHitInfo indices vertices rq).isSome
      = (fetchTriangle indices vertices rq.intersectionPrimitiveIndex).isSome := by
  cases hf : fetchTriangle indices vertices rq.intersectionPrimitiveIndex with
  | none =>
    rw [rt1_getObjectHitInfo_none indices vertices hf]
    rfl
  | some t =>
    obtain ⟨a, b, c⟩ := t
    rw [rt1_getObjectHitInfo_of_fetch hf]
    rfl

theorem rt3_isSome_iff_fetch (indices : List Nat) (vertices : List (Vec3 ℝ))
    (gl : ClosestHitInputs ℝ) :
    (RtPipeline3.getObjectHitInfo indices vertices gl).isSome
      = (fetchTriangle indices vertices gl.gl_PrimitiveID).isSome := by
  cases hf : fetchTriangle indices vertices gl.gl_PrimitiveID with
  | none =>
    rw [rt3_getObjectHitInfo_none indices vertices hf]
    rfl
  | some t =>
    obtain ⟨a, b, c⟩ := t
    rw [rt3_getObjectHitInfo_of_fetch hf]
    rfl

/-- C28: for every index buffer of length `L` and every primitive id
`p < L / 3` (integer division; `L / 3`, reduced to 32 bits, is the
`primitiveCount` that the host passes to the acceleration-structure build),
the positions `3*p + 0`, `3*p + 1`, `3*p + 2` are below `L`, so the three index
fetches of `getObjectHitInfo` (both versions) succeed; the resolver then
returns a result exactly when the three fetched indices are below the number
of vertices. -/
theorem index_fetches_in_bounds (indices : List Nat) (vertices : List (Vec3 ℝ)) (p : Nat)
    (hp : p < indices.length / 3) :
    3 * p + 0 < indices.length ∧ 3 * p + 1 < indices.length ∧ 3 * p + 2 < indices.length
      ∧ (∃ i0 i1 i2, indices[3 * p + 0]? = some i0 ∧ indices[3 * p + 1]? = some i1
          ∧ indices[3 * p + 2]? = some i2
          ∧ (∀ rq : RayQuery ℝ, rq.intersectionPrimitiveIndex = p →
              ((RtPipeline1.getObjectHitInfo indices vertices rq).isSome = true
                ↔ (i0 < vertices.length ∧ i1 < vertices.length ∧ i2 < vertices.length)))
          ∧ (∀ gl : ClosestHitInputs ℝ, gl.gl_PrimitiveID = p →
              ((RtPipeline3.getObjectHitInfo indices vertices gl).isSome = true
                ↔ (i0 < vertices.length ∧ i1 < vertices.length ∧ i2 < vertices.length))))
      ∧ (∀ objVertices : List F32,
          E10Materials.blas objVertices indices
            = HostCall.buildBlas
                (u32 ((objVertices.length / 3 + 18446744073709551616 - 1)
                  % 18446744073709551616))
                (u32 (indices.length / 3)))
      ∧ u32 (indices.length / 3) ≤ indices.length / 3 := by
  have hl0 : 3 * p + 0 < indices.length := by omega
  have hl1 : 3 * p + 1 < indices.length := by omega
  have hl2 : 3 * p + 2 < indices.length := by omega
  have h0 := List.getElem?_eq_getElem hl0
  have h1 := List.getElem?_eq_getElem hl1
  have h2 := List.getElem?_eq_getElem hl2
  refine ⟨hl0, hl1, hl2, ⟨_, _, _, h0, h1, h2, ?_, ?_⟩, fun _ => rfl, Nat.mod_le _ _⟩
  · intro rq hrq
    rw [rt1_isSome_iff_fetch, hrq]
    exact fetchTriangle_isSome_iff indices vertices p _ _ _ h0 h1 h2
  · intro gl hgl
    rw [rt3_isSome_iff_fetch, hgl]
    exact fetchTriangle_isSome_iff indices vertices p _ _ _ h0 h1 h2

/-- Witness for C28: primitive 0 of the sample scene. -/
theorem index_fetches_in_bounds_witness :
    0 < sampleIndices.length / 3
      ∧ 3 * 0 + 0 < sampleIndices.length ∧ 3 * 0 + 1 < sampleIndices.length
      ∧ 3 * 0 + 2 < sampleIndices.length :=
  ⟨by decide, (index_fetches_in_bounds sampleIndices sampleVertices 0 (by decide)).1,
    (index_fetches_in_bounds sampleIndices sampleVertices 0 (by decide)).2.1,
    (index_fetches_in_bounds sampleIndices sampleVertices 0 (by decide)).2.2.1⟩

/-! ### The copies of the helper functions -/

/-- C30: for every scalar type (in particular exact reals and binary32), the
copy of `stepAndOutputRNGFloat` in `checkpoints/e11_rt_pipeline_2` returns the
same value and new state as the one in `e11_rt_pipeline_1` for every state,
and the copy of `offsetPositionAlongNormal` in `closestHitCommon.h` returns
the same position as the one in `shaderCommon.h` for every position and
normal. -/
theorem helper_copies_equal {α : Type} [Add α] [Sub α] [Mul α] [Div α]
    [Neg α] [LT α] [LE α] [OfScientific α] [DecidableRel (fun a b : α => a < b)]
    [DecidableRel (fun a b : α => a ≤ b)] [GLSLBuiltins α] [GLSLConversions α]
    (rngState : Nat) (worldPosition normal : Vec3 α) :
    RtPipeline2.stepAndOutputRNGFloat α rngState
        = RtPipeline1.stepAndOutputRNGFloat α rngState
      ∧ (RtPipeline2.stepAndOutputRNGFloat ℝ rngState).2 = referenceStep rngState
      ∧ (RtPipeline2.stepAndOutputRNGFloat F32 rngState).2
          = (RtPipeline1.stepAndOutputRNGFloat ℝ rngState).2
      ∧ RtPipeline3.offsetPositionAlongNormal worldPosition normal
        = RtPipeline1.offsetPositionAlongNormal worldPosition normal
      ∧ RtPipeline3.offsetPositionAlongNormal worldPosition normal
        = ⟨offsetComponent worldPosition.x normal.x, offsetComponent worldPosition.y normal.y,
           offsetComponent worldPosition.z normal.z⟩ := by
  refine ⟨rfl, ?_, rfl, rfl, rfl⟩
  rw [rt2_rng_eq]
